import Mathlib

/-!
EPUB3Processor: a shallow embedding of `EPUB3.c`.

The C translation unit is embedded as pure functions over explicit state.

* `char *` values are `Option String` (`none` is `NULL`).
* Manifest items are shared objects (the manifest owns them, spine items hold
  weak pointers to them), so they live in an explicit heap `ItemHeap`; a
  pointer is an index into it and a freed cell is `none`.
* The spine's singly linked list is kept as an arena of list nodes with
  explicit `head`, `tail` and `next` pointers.
* A run of the C program that fails an `assert`, dereferences `NULL` or a freed
  object, or leaves the parse-context array is a `Fault`.
* The libxml2 pull reader is external; a document is the list of nodes the
  reader reports, and `xmlReaderForMemory` is a parameter.
* The unzip library is external; an archive is the list of its entries with
  what the library calls return on them.
* `int32_t` counters are unbounded integers: an OPF buffer is shorter than
  `2^32` bytes, so a parse counts fewer than `2^31` elements, and a sequence of
  insertions is taken to be shorter than that as well.
-/

namespace EPUB3Processor

/-! ## Faults and error codes -/

/-- Ways in which a run of the C code stops being defined. -/
inductive Fault where
  | assertion
  | nullDeref
  | invalidPointer
  | stackOverflow
  | stackUnderflow
  | nonTermination
  deriving DecidableEq, Repr

/-- The `EPUB3Error` codes that `EPUB3.c` returns; the enumeration itself is
    declared in `EPUB3.h`. -/
inductive EPUB3Error where
  | kEPUB3Success
  | kEPUB3InvalidArgumentError
  | kEPUB3InvalidMimetypeError
  | kEPUB3FileNotFoundInArchiveError
  | kEPUB3FileReadFromArchiveError
  | kEPUB3ArchiveUnavailableError
  | kEPUB3XMLReadFromBufferError
  | kEPUB3XMLParseError
  | kEPUB3XMLXDocumentInvalidError
  | kEPUB3XMLXElementNotFoundError
  deriving DecidableEq, Repr

open EPUB3Error

/-! ## The libxml2 reader interface -/

/-- The node kinds of `xmlReaderTypes` that the code distinguishes. -/
inductive xmlReaderTypes where
  | XML_READER_TYPE_ELEMENT
  | XML_READER_TYPE_TEXT
  | XML_READER_TYPE_COMMENT
  | XML_READER_TYPE_END_ELEMENT
  | XML_READER_TYPE_OTHER
  deriving DecidableEq, Repr

open xmlReaderTypes

/-- One node reported by the pull reader, with what the accessor functions
    return while the reader is positioned on it. -/
structure XMLNode where
  nodeType : xmlReaderTypes
  name : Option String
  localName : Option String
  isEmptyElement : Bool
  attributes : List (String × String)
  value : Option String
  deriving DecidableEq, Repr

/-- The call `xmlTextReaderHasAttributes`. -/
def xmlTextReaderHasAttributes (reader : XMLNode) : Bool :=
  !reader.attributes.isEmpty

/-- The call `xmlTextReaderGetAttribute`: the value of the first attribute of
    that name, `NULL` when there is none. -/
def xmlTextReaderGetAttribute (reader : XMLNode) (attr : String) : Option String :=
  (reader.attributes.find? (fun kv => kv.1 == attr)).map (fun kv => kv.2)

/-- The test `xmlStrcmp(a, b) == 0`: two `NULL`s are equal, `NULL` differs from
    every string. -/
def xmlStrEqual (a b : Option String) : Bool :=
  decide (a = b)

/-- A document as the reader delivers it: the nodes for which
    `xmlTextReaderRead` returns 1, and whether the read after the last one
    reports an error (`-1`) rather than the end of the document (`0`). -/
structure xmlTextReader where
  nodes : List XMLNode
  readError : Bool
  deriving DecidableEq, Repr

/-! ## The entity model -/

/-- The record `struct EPUB3Metadata`. -/
structure EPUB3Metadata where
  refCount : Int
  title : Option String
  _uniqueIdentifierID : Option String
  identifier : Option String
  language : Option String
  deriving DecidableEq, Repr

/-- The record `struct EPUB3ManifestItem`. -/
structure EPUB3ManifestItem where
  refCount : Int
  itemId : Option String
  href : Option String
  mediaType : Option String
  properties : Option String
  deriving DecidableEq, Repr

/-- The heap of manifest-item objects: a pointer is an index, a freed cell is
    `none`. -/
abbrev ItemHeap := List (Option EPUB3ManifestItem)

/-- Dereference a manifest-item pointer. -/
def ItemHeap.deref (heap : ItemHeap) (p : Nat) : Except Fault EPUB3ManifestItem :=
  match heap[p]? with
  | some (some it) => .ok it
  | _ => .error Fault.invalidPointer

/-- The hash function `SuperFastHash` and the positive constant
    `MANIFEST_HASH_SIZE`, both declared outside `EPUB3.c`. -/
structure HashConfig where
  SuperFastHash : String → Nat
  MANIFEST_HASH_SIZE : Nat

/-- The expression `SuperFastHash(id, strlen(id)) % MANIFEST_HASH_SIZE`. -/
def HashConfig.bucket (cfg : HashConfig) (itemId : String) : Nat :=
  cfg.SuperFastHash itemId % cfg.MANIFEST_HASH_SIZE

/-- The record `struct EPUB3Manifest`: `itemTable b` is the chain of bucket `b`,
    first node first; a chain node is the pointer to its item. -/
structure EPUB3Manifest where
  refCount : Int
  itemCount : Int
  itemTable : Nat → List Nat

/-- The record `struct EPUB3SpineItem`; `manifestItem` is a weak pointer into
    the item heap. -/
structure EPUB3SpineItem where
  refCount : Int
  isLinear : Bool
  idref : Option String
  manifestItem : Option Nat
  deriving DecidableEq, Repr

/-- The record `struct EPUB3SpineItemListItem`. -/
structure EPUB3SpineItemListItem where
  item : EPUB3SpineItem
  next : Option Nat
  deriving DecidableEq, Repr

/-- The record `struct EPUB3Spine`; `nodes` is the arena of the list nodes
    allocated so far, a node pointer is an index into it. -/
structure EPUB3Spine where
  refCount : Int
  itemCount : Int
  linearItemCount : Int
  head : Option Nat
  tail : Option Nat
  nodes : List EPUB3SpineItemListItem
  deriving DecidableEq, Repr

/-- One entry of an opened ZIP container, as the unzip library presents it:
    its name, the uncompressed bytes it delivers, and whether
    `unzGetCurrentFileInfo`, `unzOpenCurrentFile` and `unzReadCurrentFile`
    succeed on it. -/
structure unzEntry where
  name : String
  contents : List Nat
  infoOK : Bool
  opens : Bool
  readOK : Bool
  deriving DecidableEq, Repr

/-- An opened ZIP container: its entries in archive order. -/
structure unzFile where
  entries : List unzEntry
  deriving DecidableEq, Repr

/-- The record `struct EPUB3`. -/
structure EPUB3 where
  refCount : Int
  metadata : Option EPUB3Metadata
  manifest : Option EPUB3Manifest
  spine : Option EPUB3Spine
  archive : Option unzFile
  archivePath : Option String
  archiveFileCount : Nat

/-! ## Metadata -/

/-- The constructor `EPUB3MetadataCreate`. -/
def EPUB3MetadataCreate : EPUB3Metadata :=
  { refCount := 1, title := none, _uniqueIdentifierID := none,
    identifier := none, language := none }

/-- The setter `EPUB3SetStringValue`: the old string is freed and a copy of
    the new one stored. -/
def EPUB3SetStringValue (_location : Option String) (value : Option String) : Option String :=
  match value with
  | none => none
  | some v => some v

/-- The getter `EPUB3CopyStringValue`. -/
def EPUB3CopyStringValue (location : Option String) : Option String :=
  match location with
  | none => none
  | some v => some v

/-- The setter `EPUB3MetadataSetTitle`. -/
def EPUB3MetadataSetTitle (metadata : Option EPUB3Metadata) (title : Option String) :
    Except Fault EPUB3Metadata :=
  match metadata with
  | none => .error Fault.assertion
  | some m => .ok { m with title := EPUB3SetStringValue m.title title }

/-- The setter `EPUB3MetadataSetIdentifier`. -/
def EPUB3MetadataSetIdentifier (metadata : Option EPUB3Metadata) (identifier : Option String) :
    Except Fault EPUB3Metadata :=
  match metadata with
  | none => .error Fault.assertion
  | some m => .ok { m with identifier := EPUB3SetStringValue m.identifier identifier }

/-- The setter `EPUB3MetadataSetLanguage`. -/
def EPUB3MetadataSetLanguage (metadata : Option EPUB3Metadata) (language : Option String) :
    Except Fault EPUB3Metadata :=
  match metadata with
  | none => .error Fault.assertion
  | some m => .ok { m with language := EPUB3SetStringValue m.language language }

/-- The query `EPUB3CopyTitle`. -/
def EPUB3CopyTitle (epub : EPUB3) : Except Fault (Option String) :=
  match epub.metadata with
  | none => .error Fault.assertion
  | some m => .ok (EPUB3CopyStringValue m.title)

/-- The query `EPUB3CopyIdentifier`. -/
def EPUB3CopyIdentifier (epub : EPUB3) : Except Fault (Option String) :=
  match epub.metadata with
  | none => .error Fault.assertion
  | some m => .ok (EPUB3CopyStringValue m.identifier)

/-- The query `EPUB3CopyLanguage`. -/
def EPUB3CopyLanguage (epub : EPUB3) : Except Fault (Option String) :=
  match epub.metadata with
  | none => .error Fault.assertion
  | some m => .ok (EPUB3CopyStringValue m.language)

/-! ## Manifest -/

/-- The constructor `EPUB3ManifestCreate`. -/
def EPUB3ManifestCreate : EPUB3Manifest :=
  { refCount := 1, itemCount := 0, itemTable := fun _ => [] }

/-- The constructor `EPUB3ManifestItemCreate`: a new object at a fresh address. -/
def EPUB3ManifestItemCreate (heap : ItemHeap) : Nat × ItemHeap :=
  (heap.length,
   heap ++ [some { refCount := 1, itemId := none, href := none,
                   mediaType := none, properties := none }])

/-- The call `EPUB3ManifestItemRetain` on a non-`NULL` item. -/
def EPUB3ManifestItemRetain (heap : ItemHeap) (item : Nat) : Except Fault ItemHeap := do
  let it ← heap.deref item
  pure (heap.set item (some { it with refCount := it.refCount + 1 }))

/-- The call `EPUB3ManifestItemRelease` on a non-`NULL` item: at count 1 the
    strings are freed and then, the count having reached 0, the object. -/
def EPUB3ManifestItemRelease (heap : ItemHeap) (item : Nat) : Except Fault ItemHeap := do
  let it ← heap.deref item
  if it.refCount - 1 = 0 then
    pure (heap.set item none)
  else
    pure (heap.set item (some { it with refCount := it.refCount - 1 }))

/-- The loop of `EPUB3ManifestFindItemWithId` over one chain: the position of
    the first node whose item has the identifier. -/
def EPUB3ManifestFindInChain (heap : ItemHeap) (itemId : String) :
    List Nat → Except Fault (Option Nat)
  | [] => .ok none
  | p :: rest => do
    let it ← heap.deref p
    match it.itemId with
    | none => .error Fault.nullDeref
    | some id' =>
      if itemId = id' then pure (some 0)
      else do
        let r ← EPUB3ManifestFindInChain heap itemId rest
        pure (r.map (· + 1))

/-- The lookup `EPUB3ManifestFindItemWithId`: the chain node found, as its
    bucket and its position in the chain, or `NULL`. -/
def EPUB3ManifestFindItemWithId (cfg : HashConfig) (heap : ItemHeap)
    (manifest : EPUB3Manifest) (itemId : Option String) : Except Fault (Option (Nat × Nat)) :=
  match itemId with
  | none => .error Fault.assertion
  | some id => do
    let bucket := cfg.bucket id
    let r ← EPUB3ManifestFindInChain heap id (manifest.itemTable bucket)
    pure (r.map (fun i => (bucket, i)))

/-- The item pointer stored in a chain node, `itemPtr->item`. -/
def EPUB3Manifest.nodeItem (manifest : EPUB3Manifest) (node : Nat × Nat) : Except Fault Nat :=
  match (manifest.itemTable node.1)[node.2]? with
  | some p => .ok p
  | none => .error Fault.invalidPointer

/-- The insertion `EPUB3ManifestInsertItem`. -/
def EPUB3ManifestInsertItem (cfg : HashConfig) (heap : ItemHeap)
    (manifest : EPUB3Manifest) (item : Nat) : Except Fault (ItemHeap × EPUB3Manifest) := do
  let it ← heap.deref item
  match it.itemId with
  | none => .error Fault.assertion
  | some id =>
    let heap1 ← EPUB3ManifestItemRetain heap item
    let itemPtr ← EPUB3ManifestFindItemWithId cfg heap1 manifest (some id)
    match itemPtr with
    | none =>
      let bucket := cfg.bucket id
      pure (heap1,
        { manifest with
          itemTable := fun b =>
            if b = bucket then item :: manifest.itemTable bucket else manifest.itemTable b
          itemCount := manifest.itemCount + 1 })
    | some node =>
      let old ← manifest.nodeItem node
      let heap2 ← EPUB3ManifestItemRelease heap1 old
      pure (heap2,
        { manifest with
          itemTable := fun b =>
            if b = node.1 then (manifest.itemTable node.1).set node.2 item
            else manifest.itemTable b })

/-! ## Spine -/

/-- The constructor `EPUB3SpineCreate`. -/
def EPUB3SpineCreate : EPUB3Spine :=
  { refCount := 1, itemCount := 0, linearItemCount := 0,
    head := none, tail := none, nodes := [] }

/-- The constructor `EPUB3SpineItemCreate`. -/
def EPUB3SpineItemCreate : EPUB3SpineItem :=
  { refCount := 1, isLinear := false, idref := none, manifestItem := none }

/-- The call `EPUB3SpineItemRetain` on a non-`NULL` item. -/
def EPUB3SpineItemRetain (item : EPUB3SpineItem) : EPUB3SpineItem :=
  { item with refCount := item.refCount + 1 }

/-- The append `EPUB3SpineAppendItem`: a zeroed node is allocated for the
    item and linked after `tail`, or made `head` and `tail` of an empty list. -/
def EPUB3SpineAppendItem (spine : EPUB3Spine) (item : EPUB3SpineItem) :
    Except Fault EPUB3Spine :=
  let item1 := EPUB3SpineItemRetain item
  let itemPtr := spine.nodes.length
  let nodes1 := spine.nodes ++ [{ item := item1, next := none }]
  match spine.head with
  | none =>
    .ok { spine with nodes := nodes1, head := some itemPtr, tail := some itemPtr,
                     itemCount := spine.itemCount + 1 }
  | some _ =>
    match spine.tail with
    | none => .error Fault.nullDeref
    | some t =>
      match nodes1[t]? with
      | none => .error Fault.invalidPointer
      | some tailNode =>
        .ok { spine with nodes := nodes1.set t { tailNode with next := some itemPtr },
                         tail := some itemPtr,
                         itemCount := spine.itemCount + 1 }

/-- Follow `next` pointers from `ptr`, collecting the items; the fuel bounds
    the number of nodes visited. -/
def spineTraverse (nodes : List EPUB3SpineItemListItem) :
    Nat → Option Nat → Except Fault (List EPUB3SpineItem)
  | _, none => .ok []
  | 0, some _ => .error Fault.nonTermination
  | fuel + 1, some p =>
    match nodes[p]? with
    | none => .error Fault.invalidPointer
    | some node => do
      let rest ← spineTraverse nodes fuel node.next
      pure (node.item :: rest)

/-- The spine items in traversal order, from `head` along `next`. A list
    without a cycle has at most as many nodes as the arena. -/
def EPUB3Spine.items (spine : EPUB3Spine) : Except Fault (List EPUB3SpineItem) :=
  spineTraverse spine.nodes spine.nodes.length spine.head

/-! ## Public query API -/

/-- The query `EPUB3CountOfSequentialResources`. -/
def EPUB3CountOfSequentialResources (epub : EPUB3) : Except Fault Int :=
  match epub.spine with
  | none => .error Fault.assertion
  | some spine => .ok spine.linearItemCount

/-- The loop of `EPUB3GetPathsOfSequentialResources`: the values written to
    `resources[0]`, `resources[1]`, ... in that order. -/
def EPUB3GetPathsLoop (heap : ItemHeap) (nodes : List EPUB3SpineItemListItem) :
    Nat → Option Nat → Except Fault (List (Option String))
  | _, none => .ok []
  | 0, some _ => .error Fault.nonTermination
  | fuel + 1, some p =>
    match nodes[p]? with
    | none => .error Fault.invalidPointer
    | some node =>
      if node.item.isLinear then
        match node.item.manifestItem with
        | none => .error Fault.nullDeref
        | some m => do
          let it ← heap.deref m
          let rest ← EPUB3GetPathsLoop heap nodes fuel node.next
          pure (it.href :: rest)
      else
        EPUB3GetPathsLoop heap nodes fuel node.next

/-- The query `EPUB3GetPathsOfSequentialResources`: the error code and the
    entries written to the caller's array, from index 0 on. -/
def EPUB3GetPathsOfSequentialResources (heap : ItemHeap) (epub : EPUB3) :
    Except Fault (EPUB3Error × List (Option String)) :=
  match epub.spine with
  | none => .error Fault.assertion
  | some spine =>
    if spine.linearItemCount > 0 then do
      let written ← EPUB3GetPathsLoop heap spine.nodes spine.nodes.length spine.head
      pure (kEPUB3Success, written)
    else
      pure (kEPUB3Success, [])

/-! ## The OPF parser -/

/-- The constant `PARSE_CONTEXT_STACK_DEPTH`. -/
def PARSE_CONTEXT_STACK_DEPTH : Nat := 64

/-- The enumeration `EPUB3OPFParseState`. -/
inductive EPUB3OPFParseState where
  | kEPUB3OPFStateRoot
  | kEPUB3OPFStateMetadata
  | kEPUB3OPFStateManifest
  | kEPUB3OPFStateSpine
  deriving DecidableEq, Repr

open EPUB3OPFParseState

/-- The record `EPUB3OPFParseContext`, one frame of the context stack. -/
structure EPUB3OPFParseContext where
  state : EPUB3OPFParseState
  tagName : Option String
  attributeCount : Int
  attributes : Option (List String)
  shouldParseTextNode : Bool
  deriving DecidableEq, Repr

/-- The machine state of one OPF parse: the publication, the heap of manifest
    items, and the live part of `contextStack`, current frame first and
    `contextStack[0]` last. -/
structure OPFParse where
  epub : EPUB3
  heap : ItemHeap
  contextStack : List EPUB3OPFParseContext

/-- The push `EPUB3SaveParseContext`: the pointer moves up one frame, which is
    then filled in. The array has `PARSE_CONTEXT_STACK_DEPTH` frames. -/
def EPUB3SaveParseContext (ctx : List EPUB3OPFParseContext) (state : EPUB3OPFParseState)
    (tagName : Option String) (attrCount : Int) (attrs : Option (List String))
    (shouldParseTextNode : Bool) : Except Fault (List EPUB3OPFParseContext) :=
  if ctx.length < PARSE_CONTEXT_STACK_DEPTH then
    .ok ({ state := state, tagName := tagName, attributeCount := attrCount,
           attributes := attrs, shouldParseTextNode := shouldParseTextNode } :: ctx)
  else
    .error Fault.stackOverflow

/-- The pop `EPUB3PopAndFreeParseContext`: the pointer moves down one frame and
    the attribute strings of the frame left are freed. -/
def EPUB3PopAndFreeParseContext (ctx : List EPUB3OPFParseContext) :
    Except Fault (List EPUB3OPFParseContext) :=
  match ctx with
  | [] => .error Fault.stackUnderflow
  | [_] => .error Fault.stackUnderflow
  | top :: below =>
    if 0 < top.attributeCount ∧ top.attributes = none then .error Fault.nullDeref
    else .ok below

/-- Assign `(*context)->shouldParseTextNode`. -/
def setShouldParseTextNode (ctx : List EPUB3OPFParseContext) (b : Bool) :
    Except Fault (List EPUB3OPFParseContext) :=
  match ctx with
  | [] => .error Fault.invalidPointer
  | top :: below => .ok ({ top with shouldParseTextNode := b } :: below)

/-- The handler `EPUB3ProcessXMLReaderNodeForMetadataInOPF`. -/
def EPUB3ProcessXMLReaderNodeForMetadataInOPF (st : OPFParse) (reader : XMLNode) :
    Except Fault (EPUB3Error × OPFParse) :=
  let name := reader.localName
  match reader.nodeType with
  | XML_READER_TYPE_ELEMENT =>
    if !reader.isEmptyElement then do
      let ctx1 ← EPUB3SaveParseContext st.contextStack kEPUB3OPFStateMetadata name 0 none true
      if xmlStrEqual name (some "identifier") then
        if xmlTextReaderHasAttributes reader then
          match xmlTextReaderGetAttribute reader "id" with
          | none => do
            let ctx2 ← setShouldParseTextNode ctx1 false
            pure (kEPUB3Success, { st with contextStack := ctx2 })
          | some itemId =>
            match st.epub.metadata with
            | none => .error Fault.nullDeref
            | some md =>
              if !xmlStrEqual (some itemId) md._uniqueIdentifierID then do
                let ctx2 ← setShouldParseTextNode ctx1 false
                pure (kEPUB3Success, { st with contextStack := ctx2 })
              else
                pure (kEPUB3Success, { st with contextStack := ctx1 })
        else
          pure (kEPUB3Success, { st with contextStack := ctx1 })
      else
        pure (kEPUB3Success, { st with contextStack := ctx1 })
    else
      pure (kEPUB3Success, st)
  | XML_READER_TYPE_TEXT =>
    match st.contextStack with
    | [] => .error Fault.invalidPointer
    | top :: _ =>
      if reader.value ≠ none ∧ top.shouldParseTextNode = true then
        if xmlStrEqual top.tagName (some "title") then do
          let md ← EPUB3MetadataSetTitle st.epub.metadata reader.value
          pure (kEPUB3Success, { st with epub := { st.epub with metadata := some md } })
        else if xmlStrEqual top.tagName (some "identifier") then do
          let md ← EPUB3MetadataSetIdentifier st.epub.metadata reader.value
          pure (kEPUB3Success, { st with epub := { st.epub with metadata := some md } })
        else if xmlStrEqual top.tagName (some "language") then do
          let md ← EPUB3MetadataSetLanguage st.epub.metadata reader.value
          pure (kEPUB3Success, { st with epub := { st.epub with metadata := some md } })
        else
          pure (kEPUB3Success, st)
      else
        pure (kEPUB3Success, st)
  | XML_READER_TYPE_END_ELEMENT => do
    let ctx1 ← EPUB3PopAndFreeParseContext st.contextStack
    pure (kEPUB3Success, { st with contextStack := ctx1 })
  | _ => pure (kEPUB3Success, st)

/-- The handler `EPUB3ProcessXMLReaderNodeForManifestInOPF`. -/
def EPUB3ProcessXMLReaderNodeForManifestInOPF (cfg : HashConfig) (st : OPFParse)
    (reader : XMLNode) : Except Fault (EPUB3Error × OPFParse) :=
  let name := reader.localName
  match reader.nodeType with
  | XML_READER_TYPE_ELEMENT =>
    if !reader.isEmptyElement then do
      let ctx1 ← EPUB3SaveParseContext st.contextStack kEPUB3OPFStateManifest name 0 none true
      pure (kEPUB3Success, { st with contextStack := ctx1 })
    else if xmlStrEqual name (some "item") then
      let (newItem, heap1) := EPUB3ManifestItemCreate st.heap
      match heap1[newItem]? with
      | some (some it) =>
        let heap2 := heap1.set newItem (some
          { it with itemId := xmlTextReaderGetAttribute reader "id"
                    href := xmlTextReaderGetAttribute reader "href"
                    mediaType := xmlTextReaderGetAttribute reader "media-type" })
        match st.epub.manifest with
        | none => .error Fault.assertion
        | some manifest => do
          let (heap3, manifest1) ← EPUB3ManifestInsertItem cfg heap2 manifest newItem
          pure (kEPUB3Success,
            { st with heap := heap3, epub := { st.epub with manifest := some manifest1 } })
      | _ => .error Fault.invalidPointer
    else
      pure (kEPUB3Success, st)
  | XML_READER_TYPE_TEXT => pure (kEPUB3Success, st)
  | XML_READER_TYPE_END_ELEMENT => do
    let ctx1 ← EPUB3PopAndFreeParseContext st.contextStack
    pure (kEPUB3Success, { st with contextStack := ctx1 })
  | _ => pure (kEPUB3Success, st)

/-- The handler `EPUB3ProcessXMLReaderNodeForSpineInOPF`. A non-empty element
    is pushed with the state `kEPUB3OPFStateManifest`, as the source has it. -/
def EPUB3ProcessXMLReaderNodeForSpineInOPF (cfg : HashConfig) (st : OPFParse)
    (reader : XMLNode) : Except Fault (EPUB3Error × OPFParse) :=
  let name := reader.localName
  match reader.nodeType with
  | XML_READER_TYPE_ELEMENT =>
    if !reader.isEmptyElement then do
      let ctx1 ← EPUB3SaveParseContext st.contextStack kEPUB3OPFStateManifest name 0 none true
      pure (kEPUB3Success, { st with contextStack := ctx1 })
    else if xmlStrEqual name (some "itemref") then
      let newItem := EPUB3SpineItemCreate
      let linear := xmlTextReaderGetAttribute reader "linear"
      match st.epub.spine with
      | none => .error Fault.nullDeref
      | some spine => do
        let (newItem1, spine1) :=
          if linear = none ∨ xmlStrEqual linear (some "yes") = true then
            ({ newItem with isLinear := true },
             { spine with linearItemCount := spine.linearItemCount + 1 })
          else (newItem, spine)
        let newItem2 := { newItem1 with idref := xmlTextReaderGetAttribute reader "idref" }
        let newItem3 ←
          if newItem2.idref ≠ none then
            match st.epub.manifest with
            | none => .error Fault.assertion
            | some manifest => do
              let manifestPtr ← EPUB3ManifestFindItemWithId cfg st.heap manifest newItem2.idref
              match manifestPtr with
              | none => pure { newItem2 with manifestItem := none }
              | some node => do
                let p ← manifest.nodeItem node
                pure { newItem2 with manifestItem := some p }
          else pure newItem2
        let spine2 ← EPUB3SpineAppendItem spine1 newItem3
        pure (kEPUB3Success, { st with epub := { st.epub with spine := some spine2 } })
    else
      pure (kEPUB3Success, st)
  | XML_READER_TYPE_TEXT => pure (kEPUB3Success, st)
  | XML_READER_TYPE_END_ELEMENT => do
    let ctx1 ← EPUB3PopAndFreeParseContext st.contextStack
    pure (kEPUB3Success, { st with contextStack := ctx1 })
  | _ => pure (kEPUB3Success, st)

/-- The dispatcher `EPUB3ParseXMLReaderNodeForOPF`: one step of the parser. -/
def EPUB3ParseXMLReaderNodeForOPF (cfg : HashConfig) (st : OPFParse) (reader : XMLNode) :
    Except Fault (EPUB3Error × OPFParse) :=
  let name := reader.localName
  let currentNodeType := reader.nodeType
  match st.contextStack with
  | [] => .error Fault.assertion
  | top :: _ =>
    if name ≠ none ∧ currentNodeType ≠ XML_READER_TYPE_COMMENT then
      match top.state with
      | kEPUB3OPFStateRoot =>
        if currentNodeType = XML_READER_TYPE_ELEMENT then
          if xmlStrEqual name (some "package") ∧ xmlTextReaderHasAttributes reader then
            match st.epub.metadata with
            | none => .error Fault.nullDeref
            | some md =>
              let md1 : EPUB3Metadata :=
                { md with _uniqueIdentifierID := xmlTextReaderGetAttribute reader "unique-identifier" }
              pure (kEPUB3Success, { st with epub := { st.epub with metadata := some md1 } })
          else if xmlStrEqual name (some "metadata") then do
            let ctx1 ← EPUB3SaveParseContext st.contextStack kEPUB3OPFStateMetadata name 0 none true
            pure (kEPUB3Success, { st with contextStack := ctx1 })
          else if xmlStrEqual name (some "manifest") then do
            let ctx1 ← EPUB3SaveParseContext st.contextStack kEPUB3OPFStateManifest name 0 none true
            pure (kEPUB3Success, { st with contextStack := ctx1 })
          else if xmlStrEqual name (some "spine") then do
            let ctx1 ← EPUB3SaveParseContext st.contextStack kEPUB3OPFStateSpine name 0 none true
            pure (kEPUB3Success, { st with contextStack := ctx1 })
          else
            pure (kEPUB3Success, st)
        else
          pure (kEPUB3Success, st)
      | kEPUB3OPFStateMetadata =>
        if currentNodeType = XML_READER_TYPE_END_ELEMENT ∧ xmlStrEqual name (some "metadata") then do
          let ctx1 ← EPUB3PopAndFreeParseContext st.contextStack
          pure (kEPUB3Success, { st with contextStack := ctx1 })
        else
          EPUB3ProcessXMLReaderNodeForMetadataInOPF st reader
      | kEPUB3OPFStateManifest =>
        if currentNodeType = XML_READER_TYPE_END_ELEMENT ∧ xmlStrEqual name (some "manifest") then do
          let ctx1 ← EPUB3PopAndFreeParseContext st.contextStack
          pure (kEPUB3Success, { st with contextStack := ctx1 })
        else
          EPUB3ProcessXMLReaderNodeForManifestInOPF cfg st reader
      | kEPUB3OPFStateSpine =>
        if currentNodeType = XML_READER_TYPE_END_ELEMENT ∧ xmlStrEqual name (some "spine") then do
          let ctx1 ← EPUB3PopAndFreeParseContext st.contextStack
          pure (kEPUB3Success, { st with contextStack := ctx1 })
        else
          EPUB3ProcessXMLReaderNodeForSpineInOPF cfg st reader
    else
      pure (kEPUB3Success, st)

/-- The `while(retVal == 1)` loop of `EPUB3ParseFromOPFData`: every node is
    handed to the dispatcher, whose result overwrites `error`. -/
def EPUB3ParseLoop (cfg : HashConfig) :
    OPFParse → EPUB3Error → List XMLNode → Except Fault (EPUB3Error × OPFParse)
  | st, error, [] => .ok (error, st)
  | st, _, node :: rest => do
    let (error1, st1) ← EPUB3ParseXMLReaderNodeForOPF cfg st node
    EPUB3ParseLoop cfg st1 error1 rest

/-- The frame `contextStack[0]` as `EPUB3ParseFromOPFData` sets it up: state
    and tag name are assigned, the other fields are never read. -/
def rootContext (reader : xmlTextReader) : EPUB3OPFParseContext :=
  { state := kEPUB3OPFStateRoot,
    tagName := (reader.nodes.head?).bind (fun n => n.name),
    attributeCount := 0, attributes := none, shouldParseTextNode := false }

/-- The machine state in which `EPUB3ParseFromOPFData` enters its loop: the
    context pointer is at `contextStack[0]`. -/
def OPFParseStart (epub : EPUB3) (heap : ItemHeap) (reader : xmlTextReader) : OPFParse :=
  { epub := epub, heap := heap, contextStack := [rootContext reader] }

/-- The parser `EPUB3ParseFromOPFData`; `reader` is `none` when
    `xmlReaderForMemory` fails. The result is the error code with the
    publication and the heap as the parse leaves them. -/
def EPUB3ParseFromOPFData (cfg : HashConfig) (epub : EPUB3) (heap : ItemHeap)
    (reader : Option xmlTextReader) : Except Fault (EPUB3Error × EPUB3 × ItemHeap) :=
  match reader with
  | none => .ok (kEPUB3XMLReadFromBufferError, epub, heap)
  | some r => do
    let (error, st) ← EPUB3ParseLoop cfg (OPFParseStart epub heap r) kEPUB3Success r.nodes
    if r.readError then
      pure (kEPUB3XMLParseError, st.epub, st.heap)
    else
      pure (error, st.epub, st.heap)

/-- The constructor `EPUB3Create`. -/
def EPUB3Create : EPUB3 :=
  { refCount := 1, metadata := none, manifest := none, spine := none,
    archive := none, archivePath := none, archiveFileCount := 0 }

/-- The head of `EPUB3InitFromOPF`: metadata, manifest and spine are created
    where the publication has none. -/
def EPUB3InitFromOPFChildren (epub : EPUB3) : EPUB3 :=
  { epub with
    metadata := match epub.metadata with
      | none => some EPUB3MetadataCreate
      | some md => some md
    manifest := match epub.manifest with
      | none => some EPUB3ManifestCreate
      | some m => some m
    spine := match epub.spine with
      | none => some EPUB3SpineCreate
      | some sp => some sp }

/-- The publication as `EPUB3InitFromOPF` hands it to the parser when it was
    just created by `EPUB3CreateWithArchiveAtPath`: metadata, manifest and spine
    are fresh. -/
def freshPublication (archive : Option unzFile) (archivePath : Option String)
    (fileCount : Nat) : EPUB3 :=
  EPUB3InitFromOPFChildren
    { EPUB3Create with archive := archive, archivePath := archivePath,
                       archiveFileCount := fileCount }

/-! ## The archive adapter -/

/-- The call `unzGoToFirstFile`: the first entry, `none` when the result is
    not `UNZ_OK`. -/
def unzGoToFirstFile (archive : unzFile) : Option unzEntry :=
  archive.entries.head?

/-- The call `unzLocateFile(archive, filename, 1)`: the first entry of that
    name, compared case-sensitively, `none` when the result is not `UNZ_OK`. -/
def unzLocateFile (archive : unzFile) (filename : String) : Option unzEntry :=
  archive.entries.find? (fun e => e.name == filename)

/-- The call `unzReadCurrentFile(archive, buf, len)` on an entry just opened:
    the bytes copied, `none` for a negative result. -/
def unzReadCurrentFile (entry : unzEntry) (len : Nat) : Option (List Nat) :=
  if entry.readOK then some (entry.contents.take len) else none

/-- The function `EPUB3ValidateFileExistsAndSeekInArchive`: the error code and
    the entry the archive is positioned on afterwards. -/
def EPUB3ValidateFileExistsAndSeekInArchive (epub : EPUB3) (filename : Option String) :
    Except Fault (EPUB3Error × Option unzEntry) :=
  match filename with
  | none => .error Fault.assertion
  | some name =>
    match epub.archive with
    | none => .ok (kEPUB3ArchiveUnavailableError, none)
    | some archive =>
      match unzLocateFile archive name with
      | some entry => .ok (kEPUB3Success, some entry)
      | none => .ok (kEPUB3FileNotFoundInArchiveError, none)

/-- The function `EPUB3GetUncompressedSizeOfFileInArchive`: the error code,
    the value of `*uncompressedSize` afterwards (a `uint32_t`), and the entry
    the archive is positioned on. -/
def EPUB3GetUncompressedSizeOfFileInArchive (epub : EPUB3) (uncompressedSize : Nat)
    (filename : Option String) : Except Fault (EPUB3Error × Nat × Option unzEntry) :=
  match filename with
  | none => .error Fault.assertion
  | some _ =>
    match epub.archive with
    | none => .ok (kEPUB3ArchiveUnavailableError, uncompressedSize, none)
    | some _ => do
      let (error, current) ← EPUB3ValidateFileExistsAndSeekInArchive epub filename
      match error, current with
      | kEPUB3Success, some entry =>
        if entry.infoOK then
          pure (kEPUB3Success, entry.contents.length % 2 ^ 32, current)
        else
          pure (error, uncompressedSize, current)
      | _, _ => pure (error, uncompressedSize, current)

/-- The function `EPUB3CopyFileIntoBuffer`: the error code and the values of
    `*buffer` (`none` is `NULL` or freed) and `*bufferSize` afterwards. The
    buffer is allocated zeroed with `bufSize` bytes and the read fills its
    front. -/
def EPUB3CopyFileIntoBuffer (epub : EPUB3) (buffer : Option (List Nat)) (bufferSize : Nat)
    (filename : Option String) : Except Fault (EPUB3Error × Option (List Nat) × Nat) :=
  match filename with
  | none => .error Fault.assertion
  | some _ =>
    match epub.archive with
    | none => .ok (kEPUB3ArchiveUnavailableError, buffer, bufferSize)
    | some _ => do
      let (error, bufSize, current) ← EPUB3GetUncompressedSizeOfFileInArchive epub 1 filename
      match error, current with
      | kEPUB3Success, some entry =>
        if entry.opens then
          match unzReadCurrentFile entry bufSize with
          | some copied =>
            pure (kEPUB3Success,
              some (copied ++ List.replicate (bufSize - copied.length) 0), bufSize)
          | none => pure (kEPUB3FileReadFromArchiveError, none, bufferSize)
        else
          pure (error, buffer, bufferSize)
      | _, _ => pure (error, buffer, bufferSize)

/-! ## Validation -/

/-- The literal `application/epub+zip` as bytes. -/
def requiredMimetype : List Nat :=
  "application/epub+zip".toList.map Char.toNat

/-- The test `strncmp(s1, s2, n) == 0` on byte strings: the comparison stops
    at the first difference, after a NUL, or after `n` bytes. The end of a
    list stands for the terminating NUL. -/
def strncmpEqual : List Nat → List Nat → Nat → Bool
  | _, _, 0 => true
  | [], [], _ + 1 => true
  | [], y :: _, _ + 1 => decide (y = 0)
  | x :: _, [], _ + 1 => decide (x = 0)
  | x :: xs, y :: ys, n + 1 =>
    if x = y then (if x = 0 then true else strncmpEqual xs ys n) else false

/-- The function `EPUB3ValidateMimetype`. -/
def EPUB3ValidateMimetype (epub : EPUB3) : EPUB3Error :=
  match epub.archive with
  | none => kEPUB3ArchiveUnavailableError
  | some archive =>
    match unzGoToFirstFile archive with
    | some entry =>
      let stringLength := requiredMimetype.length
      if entry.opens then
        match unzReadCurrentFile entry stringLength with
        | some buffer =>
          if buffer.length = stringLength then
            if strncmpEqual requiredMimetype buffer stringLength then kEPUB3Success
            else kEPUB3InvalidMimetypeError
          else kEPUB3InvalidMimetypeError
        | none => kEPUB3InvalidMimetypeError
      else kEPUB3InvalidMimetypeError
    | none => kEPUB3InvalidMimetypeError

/-! ## The container resolver -/

/-- The parser option `XML_PARSE_RECOVER`. -/
def XML_PARSE_RECOVER : Nat := 1

/-- The parser option `XML_PARSE_NONET`. -/
def XML_PARSE_NONET : Nat := 2048

/-- The call `xmlReaderForMemory(buffer, size, URL, NULL, options)` of libxml2:
    the reader over the buffer, `none` when the call returns `NULL`. -/
structure LibXML2 where
  xmlReaderForMemory : Option (List Nat) → Nat → Option String → Nat → Option xmlTextReader

/-- The `while` loop of `EPUB3CopyRootFilePathFromContainer`: the last value of
    `retVal`, then `foundPath`, `error` and `*rootPath` when the loop is left.
    The flag tells whether the read after the last node reports an error. -/
def EPUB3ContainerLoop (readError : Bool) (error : EPUB3Error) (rootPath : Option String) :
    List XMLNode → Int × Bool × EPUB3Error × Option String
  | [] => (if readError then -1 else 0, false, error, rootPath)
  | node :: rest =>
    if node.nodeType = XML_READER_TYPE_ELEMENT ∧
        xmlStrEqual node.localName (some "rootfile") = true then
      match xmlTextReaderGetAttribute node "full-path" with
      | some fullPath => (1, true, error, some fullPath)
      | none => (1, false, kEPUB3XMLXDocumentInvalidError, rootPath)
    else
      EPUB3ContainerLoop readError error rootPath rest

/-- The function `EPUB3CopyRootFilePathFromContainer`: the error code and the
    value of `*rootPath` afterwards. -/
def EPUB3CopyRootFilePathFromContainer (lib : LibXML2) (epub : EPUB3)
    (rootPath : Option String) : Except Fault (EPUB3Error × Option String) :=
  match epub.archive with
  | none => .ok (kEPUB3ArchiveUnavailableError, rootPath)
  | some _ => do
    let (error, buffer, bufferSize) ←
      EPUB3CopyFileIntoBuffer epub none 0 (some "META-INF/container.xml")
    if error = kEPUB3Success then
      match lib.xmlReaderForMemory buffer bufferSize (some "") XML_PARSE_RECOVER with
      | some reader =>
        let (retVal, foundPath, error1, rootPath1) :=
          EPUB3ContainerLoop reader.readError error rootPath reader.nodes
        let error2 := if retVal < 0 then kEPUB3XMLParseError else error1
        let error3 := if !foundPath then kEPUB3XMLXElementNotFoundError else error2
        pure (error3, rootPath1)
      | none => pure (kEPUB3XMLReadFromBufferError, rootPath)
    else
      pure (error, rootPath)

/-! ## Initialisation -/

/-- The function `EPUB3InitFromOPF`. The assertions on the buffer are those at
    the head of `EPUB3ParseFromOPFData`. -/
def EPUB3InitFromOPF (lib : LibXML2) (cfg : HashConfig) (epub : EPUB3) (heap : ItemHeap)
    (opfFilename : Option String) : Except Fault (EPUB3Error × EPUB3 × ItemHeap) :=
  match opfFilename with
  | none => .error Fault.assertion
  | some _ =>
    match epub.archive with
    | none => .ok (kEPUB3ArchiveUnavailableError, epub, heap)
    | some _ => do
      let epub1 := EPUB3InitFromOPFChildren epub
      let (error, buffer, bufferSize) ← EPUB3CopyFileIntoBuffer epub1 none 0 opfFilename
      if error = kEPUB3Success then
        match buffer with
        | none => .error Fault.assertion
        | some _ =>
          if bufferSize > 0 then
            EPUB3ParseFromOPFData cfg epub1 heap
              (lib.xmlReaderForMemory buffer bufferSize none (XML_PARSE_RECOVER ||| XML_PARSE_NONET))
          else .error Fault.assertion
      else
        pure (error, epub1, heap)

/-- The function `EPUB3InitAndValidate`: a failure of the container resolver
    is only logged. -/
def EPUB3InitAndValidate (lib : LibXML2) (cfg : HashConfig) (epub : EPUB3) (heap : ItemHeap) :
    Except Fault (EPUB3Error × EPUB3 × ItemHeap) := do
  let (_, opfPath) ← EPUB3CopyRootFilePathFromContainer lib epub none
  EPUB3InitFromOPF lib cfg epub heap opfPath

/-! ## Reference counting of the spine -/

/-- The call `EPUB3SpineItemRelease` on a non-`NULL` item: `none` when the
    count reaches 0 and the item is freed. -/
def EPUB3SpineItemRelease (item : EPUB3SpineItem) : Option EPUB3SpineItem :=
  if item.refCount - 1 = 0 then none
  else some { item with refCount := item.refCount - 1 }

/-- The loop of `EPUB3SpineRetain`: every item reached from `ptr` is retained;
    the result is the arena afterwards. -/
def EPUB3SpineRetainLoop (nodes : List EPUB3SpineItemListItem) :
    Nat → Option Nat → Except Fault (List EPUB3SpineItemListItem)
  | _, none => .ok nodes
  | 0, some _ => .error Fault.nonTermination
  | fuel + 1, some p =>
    match nodes[p]? with
    | none => .error Fault.invalidPointer
    | some node =>
      EPUB3SpineRetainLoop (nodes.set p { node with item := EPUB3SpineItemRetain node.item })
        fuel node.next

/-- The function `EPUB3SpineRetain` on a non-`NULL` spine. -/
def EPUB3SpineRetain (spine : EPUB3Spine) : Except Fault EPUB3Spine := do
  let nodes1 ← EPUB3SpineRetainLoop spine.nodes spine.nodes.length spine.head
  pure { spine with nodes := nodes1, refCount := spine.refCount + 1 }

/-- The loop of `EPUB3SpineRelease`, entered at count 1: every item is released
    and its node freed; the result lists what became of the items, in order. -/
def EPUB3SpineReleaseLoop (nodes : List EPUB3SpineItemListItem) :
    Nat → Int → Option Nat → Except Fault (List (Option EPUB3SpineItem))
  | _, _, none => .ok []
  | 0, _, some _ => .error Fault.nonTermination
  | fuel + 1, totalItemsToFree, some p =>
    if totalItemsToFree - 1 ≥ 0 then
      match nodes[p]? with
      | none => .error Fault.invalidPointer
      | some node => do
        let rest ← EPUB3SpineReleaseLoop nodes fuel (totalItemsToFree - 1) node.next
        pure (EPUB3SpineItemRelease node.item :: rest)
    else .error Fault.assertion

/-- The function `EPUB3SpineRelease` on a non-`NULL` spine: the spine
    afterwards, `none` when it was freed, and then what became of its items.
    The items are released only when the spine's count is 1. -/
def EPUB3SpineRelease (spine : EPUB3Spine) :
    Except Fault (Option EPUB3Spine × List (Option EPUB3SpineItem)) :=
  if spine.refCount = 1 then do
    let released ← EPUB3SpineReleaseLoop spine.nodes spine.nodes.length spine.itemCount spine.head
    pure (none, released)
  else
    pure (some { spine with refCount := spine.refCount - 1 }, [])

/-! ## Release of a publication -/

/-- The call `EPUB3MetadataRelease` on a non-`NULL` object: `none` when the
    count reaches 0 and the object is freed with its strings. -/
def EPUB3MetadataRelease (metadata : EPUB3Metadata) : Option EPUB3Metadata :=
  if metadata.refCount - 1 = 0 then none
  else some { metadata with refCount := metadata.refCount - 1 }

/-- The inner loop of `EPUB3ManifestRelease` over one chain: the item of every
    node is released. -/
def EPUB3ManifestReleaseChain (heap : ItemHeap) : List Nat → Except Fault ItemHeap
  | [] => .ok heap
  | item :: rest => do
    let heap1 ← EPUB3ManifestItemRelease heap item
    EPUB3ManifestReleaseChain heap1 rest

/-- The outer loop of `EPUB3ManifestRelease` over the buckets listed. -/
def EPUB3ManifestReleaseBuckets (manifest : EPUB3Manifest) (heap : ItemHeap) :
    List Nat → Except Fault ItemHeap
  | [] => .ok heap
  | i :: rest => do
    let heap1 ← EPUB3ManifestReleaseChain heap (manifest.itemTable i)
    EPUB3ManifestReleaseBuckets manifest heap1 rest

/-- The function `EPUB3ManifestRelease` on a non-`NULL` manifest: every item is
    released once; at count 1 the chain nodes and then the manifest are freed
    (`none`), otherwise the count drops by one. -/
def EPUB3ManifestRelease (cfg : HashConfig) (heap : ItemHeap) (manifest : EPUB3Manifest) :
    Except Fault (ItemHeap × Option EPUB3Manifest) := do
  let heap1 ← EPUB3ManifestReleaseBuckets manifest heap (List.range cfg.MANIFEST_HASH_SIZE)
  if manifest.refCount = 1 then
    pure (heap1, none)
  else
    pure (heap1, some { manifest with refCount := manifest.refCount - 1 })

/-- What a call of `EPUB3Release` leaves behind: the publication, its three
    children, the spine items released and the heap of manifest items. An
    object that was freed is `none`, and so is a child that was `NULL`. -/
structure EPUB3Released where
  epub : Option EPUB3
  metadata : Option EPUB3Metadata
  manifest : Option EPUB3Manifest
  spine : Option EPUB3Spine
  spineItems : List (Option EPUB3SpineItem)
  heap : ItemHeap

/-- The function `EPUB3Release` on a non-`NULL` publication. At count 1 the
    archive is closed and the path freed; the three children are released; then
    the publication itself is released. The child fields of a publication that
    survives show the children as the call leaves them. -/
def EPUB3Release (cfg : HashConfig) (heap : ItemHeap) (epub : EPUB3) :
    Except Fault EPUB3Released := do
  let epub1 : EPUB3 :=
    if epub.refCount = 1 then { epub with archive := none, archivePath := none } else epub
  let metadata1 := epub1.metadata.bind EPUB3MetadataRelease
  let (heap1, manifest1) ←
    match epub1.manifest with
    | none => pure (heap, none)
    | some manifest => EPUB3ManifestRelease cfg heap manifest
  let (spine1, spineItems) ←
    match epub1.spine with
    | none => pure (none, [])
    | some spine => EPUB3SpineRelease spine
  let epub2 : EPUB3 :=
    { epub1 with metadata := metadata1, manifest := manifest1, spine := spine1,
                 refCount := epub1.refCount - 1 }
  pure { epub := if epub2.refCount = 0 then none else some epub2,
         metadata := metadata1, manifest := manifest1, spine := spine1,
         spineItems := spineItems, heap := heap1 }

/-! ## Specification-side definitions -/

/-- The item a lookup by identifier yields: `EPUB3ManifestFindItemWithId`
    followed by `itemPtr->item`, as the callers of the lookup read it. -/
def manifestLookup (cfg : HashConfig) (heap : ItemHeap) (manifest : EPUB3Manifest)
    (itemId : Option String) : Except Fault (Option Nat) := do
  let r ← EPUB3ManifestFindItemWithId cfg heap manifest itemId
  match r with
  | none => pure none
  | some node => do
    let p ← manifest.nodeItem node
    pure (some p)

/-- A sequence of `EPUB3ManifestInsertItem` calls, one per item pointer. -/
def insertItems (cfg : HashConfig) :
    ItemHeap → EPUB3Manifest → List Nat → Except Fault (ItemHeap × EPUB3Manifest)
  | heap, manifest, [] => .ok (heap, manifest)
  | heap, manifest, item :: rest => do
    let (heap1, manifest1) ← EPUB3ManifestInsertItem cfg heap manifest item
    insertItems cfg heap1 manifest1 rest

/-- An object that `EPUB3ManifestInsertItem` accepts: live, with an
    identifier, and referenced at least once. -/
def ItemHeap.insertable (heap : ItemHeap) (p : Nat) : Bool :=
  match heap[p]? with
  | some (some it) => it.itemId.isSome && decide (1 ≤ it.refCount)
  | _ => false

/-- The identifier of the live object at `p`, `none` for a freed or invalid
    pointer or an object without identifier. -/
def ItemHeap.idOf (heap : ItemHeap) (p : Nat) : Option String :=
  match heap[p]? with
  | some (some it) => it.itemId
  | _ => none

/-- Position of the first entry equal to `some id`. -/
def chainIndex (id : String) : List (Option String) → Option Nat
  | [] => none
  | x :: xs => if x = some id then some 0 else (chainIndex id xs).map (· + 1)

/-- The invariant of the manifest table over a heap: every chain node points
    to a live item that the table holds a reference to, the item sits in the
    bucket of its identifier, and no identifier occurs twice in a chain. -/
def ManifestInv (cfg : HashConfig) (heap : ItemHeap) (m : EPUB3Manifest) : Prop :=
  (∀ (b p : Nat), p ∈ m.itemTable b →
    ∃ (it : EPUB3ManifestItem) (id : String), heap[p]? = some (some it) ∧ 2 ≤ it.refCount ∧ it.itemId = some id ∧
      cfg.bucket id = b) ∧
  (∀ b, ((m.itemTable b).map heap.idOf).Nodup)

/-- Every live object of `h` is live in `h'` with the same strings, and keeps
    a positive reference count. -/
def HeapStable (h h' : ItemHeap) : Prop :=
  ∀ (p : Nat) (it : EPUB3ManifestItem), h[p]? = some (some it) →
    ∃ it' : EPUB3ManifestItem, h'[p]? = some (some it') ∧ it'.itemId = it.itemId ∧ it'.href = it.href ∧
      it'.mediaType = it.mediaType ∧ it'.properties = it.properties ∧
      (1 ≤ it.refCount → 1 ≤ it'.refCount)

/-- A hash configuration for the examples: the hash of a string is its
    length, the table has four buckets. -/
def exampleConfig : HashConfig :=
  { SuperFastHash := fun s => s.length, MANIFEST_HASH_SIZE := 4 }

/-- Three unowned items; the first and the third share an identifier that
    lands in the same bucket as the second's. -/
def exampleHeap : ItemHeap :=
  [ some { refCount := 1, itemId := some "a", href := some "a.xhtml",
           mediaType := some "application/xhtml+xml", properties := none },
    some { refCount := 1, itemId := some "b", href := some "b.xhtml",
           mediaType := some "application/xhtml+xml", properties := none },
    some { refCount := 1, itemId := some "a", href := some "a2.xhtml",
           mediaType := some "image/png", properties := none } ]

/-- The linked list of the spine is well formed: the nodes were linked in
    the order of their allocation, `head` is the first and `tail` the last. -/
def SpineWF (sp : EPUB3Spine) : Prop :=
  sp.head = (if sp.nodes.length = 0 then none else some 0) ∧
  sp.tail = (if sp.nodes.length = 0 then none else some (sp.nodes.length - 1)) ∧
  ∀ (i : Nat) (node : EPUB3SpineItemListItem), sp.nodes[i]? = some node →
    node.next = if i + 1 < sp.nodes.length then some (i + 1) else none

/-- The state of the current parse context. -/
def OPFParse.state? (st : OPFParse) : Option EPUB3OPFParseState :=
  st.contextStack.head?.map (fun c => c.state)

/-- The node is a self-closing `<itemref>` met in the Spine state: the step
    that appends a spine item. -/
def appendsItemref (st : OPFParse) (n : XMLNode) : Bool :=
  decide (st.state? = some kEPUB3OPFStateSpine) &&
  decide (n.nodeType = XML_READER_TYPE_ELEMENT) && n.isEmptyElement &&
  decide (n.localName = some "itemref")

/-- The node is a self-closing `<item>` met in the Manifest state: the step
    that inserts a manifest item. -/
def insertsItem (st : OPFParse) (n : XMLNode) : Bool :=
  decide (st.state? = some kEPUB3OPFStateManifest) &&
  decide (n.nodeType = XML_READER_TYPE_ELEMENT) && n.isEmptyElement &&
  decide (n.localName = some "item")

/-- The `linear` attribute is absent or is exactly `yes`. -/
def itemrefIsLinear (n : XMLNode) : Bool :=
  decide (xmlTextReaderGetAttribute n "linear" = none ∨
    xmlTextReaderGetAttribute n "linear" = some "yes")

/-- The manifest item an `idref` resolves to in the current manifest, `none`
    when the attribute is missing or no item has that identifier. -/
def resolveIdref (cfg : HashConfig) (heap : ItemHeap) (m : EPUB3Manifest)
    (idref : Option String) : Option Nat :=
  match idref with
  | none => none
  | some id =>
    match manifestLookup cfg heap m (some id) with
    | .ok r => r
    | .error _ => none

/-- The spine item the parser builds for an `<itemref>` node, as the spine
    holds it (created with count 1, retained once by the append). -/
def spineItemOf (cfg : HashConfig) (heap : ItemHeap) (m : EPUB3Manifest) (n : XMLNode) :
    EPUB3SpineItem :=
  { refCount := 2, isLinear := itemrefIsLinear n,
    idref := xmlTextReaderGetAttribute n "idref",
    manifestItem := resolveIdref cfg heap m (xmlTextReaderGetAttribute n "idref") }

/-- The manifest item the parser builds for an `<item>` node, before the
    insertion retains it. -/
def manifestItemOf (n : XMLNode) : EPUB3ManifestItem :=
  { refCount := 1, itemId := xmlTextReaderGetAttribute n "id",
    href := xmlTextReaderGetAttribute n "href",
    mediaType := xmlTextReaderGetAttribute n "media-type", properties := none }

/-- A step that leaves heap, manifest and spine alone. -/
def SameModel (st st' : OPFParse) : Prop :=
  st'.heap = st.heap ∧ st'.epub.manifest = st.epub.manifest ∧ st'.epub.spine = st.epub.spine

/-- The invariant of the model during a parse: manifest and spine exist and
    are well formed, the spine's counters agree with its list, and every
    resolved back reference of a spine item points to a live object. -/
def ParseInv (cfg : HashConfig) (st : OPFParse) : Prop :=
  ∃ (m : EPUB3Manifest) (sp : EPUB3Spine),
    st.epub.manifest = some m ∧ st.epub.spine = some sp ∧
    ManifestInv cfg st.heap m ∧ SpineWF sp ∧
    sp.linearItemCount =
      (((sp.nodes.map (fun x => x.item)).filter (fun S => S.isLinear)).length : Int) ∧
    sp.itemCount = (sp.nodes.length : Int) ∧
    ∀ S ∈ sp.nodes.map (fun x => x.item), ∀ (p : Nat), S.manifestItem = some p →
      ∃ it : EPUB3ManifestItem, st.heap[p]? = some (some it)

/-- The `<itemref>` nodes of a stream that the parser processes as
    self-closing elements in the Spine state, in the order of processing. -/
def processedItemrefs (cfg : HashConfig) : OPFParse → List XMLNode → List XMLNode
  | _, [] => []
  | st, n :: rest =>
    match EPUB3ParseXMLReaderNodeForOPF cfg st n with
    | .ok (_, st') =>
      (if appendsItemref st n then [n] else []) ++ processedItemrefs cfg st' rest
    | .error _ => []

/-- No manifest item is inserted once the first spine item has been appended;
    `seen` tells whether a spine item was appended before this stream. -/
def manifestBeforeSpine (cfg : HashConfig) : Bool → OPFParse → List XMLNode → Bool
  | _, _, [] => true
  | seen, st, n :: rest =>
    if seen && insertsItem st n then false
    else
      match EPUB3ParseXMLReaderNodeForOPF cfg st n with
      | .ok (_, st') => manifestBeforeSpine cfg (seen || appendsItemref st n) st' rest
      | .error _ => true

/-- The href of the live object at `p`. -/
def ItemHeap.hrefOf (heap : ItemHeap) (p : Nat) : Option String :=
  match heap[p]? with
  | some (some it) => it.href
  | _ => none

/-- Every spine item whose `idref` is the identifier of an item in the
    manifest points to that item. -/
def SpineResolved (heap : ItemHeap) (m : EPUB3Manifest) (items : List EPUB3SpineItem) : Prop :=
  ∀ S ∈ items, ∀ (b p : Nat) (id : String), p ∈ m.itemTable b → heap.idOf p = some id →
    S.idref = some id → S.manifestItem = some p

/-- An element-start node. -/
def elementNode (name : String) (attrs : List (String × String)) (empty : Bool) : XMLNode :=
  { nodeType := XML_READER_TYPE_ELEMENT, name := some name, localName := some name,
    isEmptyElement := empty, attributes := attrs, value := none }

/-- A text node. -/
def textNode (v : String) : XMLNode :=
  { nodeType := XML_READER_TYPE_TEXT, name := some "#text", localName := some "#text",
    isEmptyElement := false, attributes := [], value := some v }

/-- An element-end node. -/
def endElementNode (name : String) : XMLNode :=
  { nodeType := XML_READER_TYPE_END_ELEMENT, name := some name, localName := some name,
    isEmptyElement := false, attributes := [], value := none }

/-- Scenario 2: a manifest with items a, b, c and a spine that lists a,
    b (`linear="no"`) and c (`linear="yes"`). -/
def scenario2 : List XMLNode :=
  [ elementNode "package" [("unique-identifier", "pub-id")] false,
    elementNode "manifest" [] false,
    elementNode "item" [("id", "a"), ("href", "a.xhtml")] true,
    elementNode "item" [("id", "b"), ("href", "b.xhtml")] true,
    elementNode "item" [("id", "c"), ("href", "c.xhtml")] true,
    endElementNode "manifest",
    elementNode "spine" [] false,
    elementNode "itemref" [("idref", "a")] true,
    elementNode "itemref" [("idref", "b"), ("linear", "no")] true,
    elementNode "itemref" [("idref", "c"), ("linear", "yes")] true,
    endElementNode "spine",
    endElementNode "package" ]

/-- A stream that leaves the parser inside `<spine>` with an empty manifest. -/
def spineOpened : List XMLNode :=
  [ elementNode "package" [("unique-identifier", "pub-id")] false,
    elementNode "spine" [] false ]

/-- An `<itemref>` whose `idref` names no manifest item. -/
def danglingItemref : XMLNode :=
  elementNode "itemref" [("idref", "missing")] true

/-- The second `<itemref>` of scenario 2. -/
def nonLinearItemref : XMLNode :=
  elementNode "itemref" [("idref", "b"), ("linear", "no")] true

/-- An OPF whose `<spine>` comes before its `<manifest>`. -/
def spineBeforeManifest : List XMLNode :=
  [ elementNode "package" [("unique-identifier", "pub-id")] false,
    elementNode "spine" [] false,
    elementNode "itemref" [("idref", "a")] true,
    endElementNode "spine",
    elementNode "manifest" [] false,
    elementNode "item" [("id", "a"), ("href", "a.xhtml")] true,
    endElementNode "manifest",
    endElementNode "package" ]

/-- The nodes of `<name attrs>text</name>`. -/
def simpleElement (name : String) (attrs : List (String × String)) (text : String) :
    List XMLNode :=
  [elementNode name attrs false, textNode text, endElementNode name]

/-- The nodes of a `<title>` (flag set) or `<language>` element with text. -/
def titleOrLanguage (x : Bool × String) : List XMLNode :=
  simpleElement (if x.1 then "title" else "language") [] x.2

/-- The OPF of Scenario 1 with identifier `X`, title `T`, language `L` and
    unique-identifier `U`, preceded inside `<metadata>` by any number of further
    `<title>` and `<language>` elements. -/
def minimalOPF (U X T L : String) (earlier : List (Bool × String)) : List XMLNode :=
  [elementNode "package" [("unique-identifier", U)] false, elementNode "metadata" [] false] ++
  (simpleElement "identifier" [("id", U)] X ++
  ((earlier.map titleOrLanguage).flatten ++
  (simpleElement "title" [] T ++ (simpleElement "language" [] L ++
  [endElementNode "metadata", elementNode "manifest" [] true, elementNode "spine" [] true,
   endElementNode "package"]))))

/-- An OPF with the primary `<identifier>` followed by one that has no
    attributes at all. -/
def identifierWithoutAttributes : List XMLNode :=
  [ elementNode "package" [("unique-identifier", "pub-id")] false,
    elementNode "metadata" [] false ] ++
  simpleElement "identifier" [("id", "pub-id")] "urn:uuid:X" ++
  simpleElement "identifier" [] "urn:isbn:other" ++
  [ endElementNode "metadata", endElementNode "package" ]

/-- The same OPF where the second `<identifier>` has an attribute, but not
    `id`. -/
def identifierWithoutId : List XMLNode :=
  [ elementNode "package" [("unique-identifier", "pub-id")] false,
    elementNode "metadata" [] false ] ++
  simpleElement "identifier" [("id", "pub-id")] "urn:uuid:X" ++
  simpleElement "identifier" [("scheme", "ISBN")] "urn:isbn:other" ++
  [ endElementNode "metadata", endElementNode "package" ]

/-- The parse state inside `<metadata>`, directly below the root. -/
def inMetadata (epub : EPUB3) (heap : ItemHeap) (root : EPUB3OPFParseContext)
    (md : EPUB3Metadata) : OPFParse :=
  { epub := { epub with metadata := some md }, heap := heap,
    contextStack := [{ state := kEPUB3OPFStateMetadata, tagName := some "metadata",
                       attributeCount := 0, attributes := none, shouldParseTextNode := true },
                     root] }

/-- The node is an element-start whose local name is `rootfile`. -/
def isRootfileElement (n : XMLNode) : Bool :=
  decide (n.nodeType = XML_READER_TYPE_ELEMENT) && decide (n.localName = some "rootfile")

/-- A libxml2 that delivers the reader `r` for every buffer that is not
    `NULL`. -/
def readerLib (r : xmlTextReader) : LibXML2 :=
  { xmlReaderForMemory := fun buffer _ _ _ => buffer.map (fun _ => r) }

/-- An entry that the unzip library reads without error. -/
def plainEntry (name : String) (contents : String) : unzEntry :=
  { name := name, contents := contents.toList.map Char.toNat,
    infoOK := true, opens := true, readOK := true }

/-- An archive with a mimetype record, a container document and an OPF. -/
def exampleArchive : unzFile :=
  { entries := [ plainEntry "mimetype" "application/epub+zip",
                 plainEntry "META-INF/container.xml" "<container/>",
                 plainEntry "OEBPS/content.opf" "<package/>" ] }

/-- A publication opened on the example archive, as `EPUB3CreateWithArchiveAtPath`
    returns it. -/
def examplePublication : EPUB3 :=
  { EPUB3Create with archive := some exampleArchive, archivePath := some "book.epub",
                     archiveFileCount := 3 }

/-- A container document whose first `rootfile` has a `full-path`, followed by
    a second `rootfile`. -/
def containerWithRootfile : List XMLNode :=
  [ elementNode "container" [("version", "1.0")] false,
    elementNode "rootfiles" [] false,
    elementNode "rootfile" [("full-path", "OEBPS/content.opf")] true,
    elementNode "rootfile" [("full-path", "OEBPS/other.opf")] true,
    endElementNode "rootfiles",
    endElementNode "container" ]

/-- A container document whose only `rootfile` has no `full-path`. -/
def containerWithoutFullPath : List XMLNode :=
  [ elementNode "container" [("version", "1.0")] false,
    elementNode "rootfiles" [] false,
    elementNode "rootfile" [("media-type", "application/oebps-package+xml")] true,
    endElementNode "rootfiles",
    endElementNode "container" ]

/-- A well-formed container document without any `rootfile`. -/
def containerWithoutRootfile : List XMLNode :=
  [ elementNode "container" [("version", "1.0")] false,
    elementNode "rootfiles" [] true,
    endElementNode "container" ]

/-- The first entry of the archive can be read and its first 20 bytes are the
    literal `application/epub+zip`. -/
def firstEntryIsMimetype (archive : unzFile) : Bool :=
  match archive.entries.head? with
  | some entry =>
    entry.opens && entry.readOK && decide (entry.contents.take 20 = requiredMimetype)
  | none => false

/-- A publication opened on an archive that holds the single entry given. -/
def publicationWithFirstEntry (contents : String) : EPUB3 :=
  { EPUB3Create with archive := some { entries := [plainEntry "mimetype" contents] },
                     archivePath := some "book.epub", archiveFileCount := 1 }

/-- A stream that leaves the parser inside `<manifest>` with an empty
    manifest. -/
def manifestOpened : List XMLNode :=
  [ elementNode "package" [("unique-identifier", "pub-id")] false,
    elementNode "manifest" [] false ]

/-- An `<item>` without `id`. -/
def itemWithoutId : XMLNode :=
  elementNode "item" [("href", "a.xhtml"), ("media-type", "application/xhtml+xml")] true

/-- An `<item>` with the four attributes `id`, `href`, `media-type` and
    `properties`. -/
def itemWithProperties : XMLNode :=
  elementNode "item"
    [("id", "nav-doc"), ("href", "nav.xhtml"), ("media-type", "application/xhtml+xml"),
     ("properties", "nav")] true

/-- The parser state before the first node of an OPF, for a publication just
    created. -/
def parseStart : OPFParse :=
  OPFParseStart (freshPublication none none 0) [] ⟨[], false⟩

/-- The states of the context stack, current frame first. -/
def OPFParse.states (st : OPFParse) : List EPUB3OPFParseState :=
  st.contextStack.map (fun c => c.state)

/-- A list node whose item has been retained once more. -/
def retainedNode (node : EPUB3SpineItemListItem) : EPUB3SpineItemListItem :=
  { node with item := EPUB3SpineItemRetain node.item }

/-- The reference counts of the spine items, in arena order. -/
def EPUB3Spine.itemRefCounts (spine : EPUB3Spine) : List Int :=
  spine.nodes.map (fun node => node.item.refCount)

/-- The bottom frame of the context stack is the Root frame and every frame
    above it has another state. -/
def StackRooted (st : OPFParse) : Prop :=
  ∃ above, st.states = above ++ [kEPUB3OPFStateRoot] ∧ kEPUB3OPFStateRoot ∉ above

/-- A run that does not stop with a pop below `contextStack[0]`. -/
def NoUnderflow {α : Type} (r : Except Fault α) : Prop :=
  r ≠ .error Fault.stackUnderflow

/-- The outcome of a parser step that keeps the stack rooted: either the step
    returns with a rooted stack, or it stops for another reason than a pop
    below `contextStack[0]`. -/
def KeepsStackRooted (r : Except Fault (EPUB3Error × OPFParse)) : Prop :=
  match r with
  | .ok (_, st) => StackRooted st
  | .error f => f ≠ Fault.stackUnderflow

/-- A stream that is not well formed: end tags without start tags, at the top
    level and inside `<manifest>`. -/
def strayEndTags : List XMLNode :=
  [ endElementNode "package",
    elementNode "package" [("unique-identifier", "pub-id")] false,
    endElementNode "metadata",
    elementNode "manifest" [] false,
    endElementNode "item",
    endElementNode "manifest",
    endElementNode "package",
    endElementNode "package" ]

/-- A stream that opens `<package>` and `<metadata>` and then `k` nested
    elements, none of them closed. -/
def nestedElements (k : Nat) : List XMLNode :=
  elementNode "package" [("unique-identifier", "pub-id")] false ::
    elementNode "metadata" [] false ::
    List.replicate k (elementNode "meta" [] false)

/-- An `<item>` as it may occur inside an element within `<spine>`. -/
def nestedItem : XMLNode :=
  elementNode "item" [("id", "x"), ("href", "x.xhtml")] true

/-- The chain nodes of the table, bucket by bucket: each node is given by the
    item it points to. -/
def EPUB3Manifest.chainNodes (cfg : HashConfig) (m : EPUB3Manifest) : List Nat :=
  ((List.range cfg.MANIFEST_HASH_SIZE).map m.itemTable).flatten

/-- The counter `itemCount` is the number of chain nodes, all of which are in
    the buckets `0 .. MANIFEST_HASH_SIZE - 1`. -/
def TableCounted (cfg : HashConfig) (m : EPUB3Manifest) : Prop :=
  (∀ b, cfg.MANIFEST_HASH_SIZE ≤ b → m.itemTable b = []) ∧
  m.itemCount = ((m.chainNodes cfg).length : Int)

/-- A libxml2 that reads the container document (opened with the URL `""`) as
    `containerWithRootfile` and the OPF (opened without URL) as scenario 2. -/
def exampleLib : LibXML2 :=
  { xmlReaderForMemory := fun buffer _ url _ =>
      buffer.bind (fun _ =>
        match url with
        | some _ => some ⟨containerWithRootfile, false⟩
        | none => some ⟨scenario2, false⟩) }

/-- The reference counts of the objects of the item heap; `none` is a freed
    object. -/
def ItemHeap.refCounts (heap : ItemHeap) : List (Option Int) :=
  heap.map (fun cell => cell.map (fun it => it.refCount))

/-! ## Theorems -/

/-! ### Heap and chain lookups -/

theorem deref_eq_ok {heap : ItemHeap} {p : Nat} {it : EPUB3ManifestItem} :
    heap.deref p = .ok it ↔ heap[p]? = some (some it) := by
  unfold ItemHeap.deref
  split
  · next it' h => simp [h]
  · next h =>
    constructor
    · intro h'; cases h'
    · intro h'; exact absurd h' (h it)

theorem deref_of_live {heap : ItemHeap} {p : Nat} {it : EPUB3ManifestItem}
    (h : heap[p]? = some (some it)) : heap.deref p = .ok it := deref_eq_ok.2 h

theorem idOf_eq_some {heap : ItemHeap} {p : Nat} {id : String} :
    heap.idOf p = some id ↔ ∃ it, heap[p]? = some (some it) ∧ it.itemId = some id := by
  unfold ItemHeap.idOf
  split
  · next it h => simp [h]
  · next h =>
    constructor
    · intro h'; cases h'
    · rintro ⟨it, h1, _⟩; exact absurd h1 (h it)

theorem findInChain_eq (heap : ItemHeap) (id : String) (chain : List Nat)
    (hc : ∀ p ∈ chain, ∃ id', heap.idOf p = some id') :
    EPUB3ManifestFindInChain heap id chain = .ok (chainIndex id (chain.map heap.idOf)) := by
  induction chain with
  | nil => rfl
  | cons p rest ih =>
    obtain ⟨id', hid⟩ := hc p (List.mem_cons_self _ _)
    obtain ⟨it, hlive, hit⟩ := idOf_eq_some.1 hid
    have ih' := ih (fun q hq => hc q (List.mem_cons_of_mem _ hq))
    simp only [EPUB3ManifestFindInChain, deref_of_live hlive, bind, Except.bind, hit, ih',
      List.map_cons, chainIndex, hid, pure, Except.pure]
    by_cases h : id = id'
    · subst h; simp
    · have : ¬ (some id' = some id) := fun h' => h (Option.some.inj h').symm
      simp [h, this]

theorem chainIndex_some {id : String} {ids : List (Option String)} {i : Nat}
    (h : chainIndex id ids = some i) : ids[i]? = some (some id) := by
  induction ids generalizing i with
  | nil => simp [chainIndex] at h
  | cons x xs ih =>
    simp only [chainIndex] at h
    split at h
    · next hx => cases h; simp [hx]
    · cases hr : chainIndex id xs with
      | none => simp [hr] at h
      | some j =>
        simp [hr] at h
        subst h
        simpa using ih hr

theorem chainIndex_none {id : String} {ids : List (Option String)}
    (h : chainIndex id ids = none) : some id ∉ ids := by
  induction ids with
  | nil => simp
  | cons x xs ih =>
    simp only [chainIndex] at h
    split at h
    · cases h
    · next hx =>
      cases hr : chainIndex id xs with
      | none =>
        intro hmem
        rcases List.mem_cons.1 hmem with h1 | h1
        · exact hx h1.symm
        · exact ih hr h1
      | some j => simp [hr] at h

theorem chainIndex_of_mem {id : String} {ids : List (Option String)}
    (h : some id ∈ ids) : ∃ i, chainIndex id ids = some i := by
  cases hr : chainIndex id ids with
  | none => exact absurd h (chainIndex_none hr)
  | some i => exact ⟨i, rfl⟩

theorem chainIndex_lt {id : String} {ids : List (Option String)} {i : Nat}
    (h : chainIndex id ids = some i) : i < ids.length := by
  have := chainIndex_some h
  exact (List.getElem?_eq_some.1 this).1

theorem HeapStable.refl (h : ItemHeap) : HeapStable h h :=
  fun _ it hp => ⟨it, hp, rfl, rfl, rfl, rfl, id⟩

theorem HeapStable.trans {h1 h2 h3 : ItemHeap} (a : HeapStable h1 h2) (b : HeapStable h2 h3) :
    HeapStable h1 h3 := by
  intro p it hp
  obtain ⟨it2, hp2, e1, e2, e3, e4, e5⟩ := a p it hp
  obtain ⟨it3, hp3, f1, f2, f3, f4, f5⟩ := b p it2 hp2
  exact ⟨it3, hp3, f1.trans e1, f2.trans e2, f3.trans e3, f4.trans e4, fun h => f5 (e5 h)⟩

theorem HeapStable.idOf {h h' : ItemHeap} (hs : HeapStable h h') {p : Nat} {id : String}
    (hid : h.idOf p = some id) : h'.idOf p = some id := by
  obtain ⟨it, hl, hi⟩ := idOf_eq_some.1 hid
  obtain ⟨it', hl', e1, _⟩ := hs p it hl
  exact idOf_eq_some.2 ⟨it', hl', e1.trans hi⟩

/-- Overwriting a live cell with an object that has the same strings. -/
theorem HeapStable.set {h : ItemHeap} {p : Nat} {it it' : EPUB3ManifestItem}
    (hl : h[p]? = some (some it)) (e1 : it'.itemId = it.itemId) (e2 : it'.href = it.href)
    (e3 : it'.mediaType = it.mediaType) (e4 : it'.properties = it.properties)
    (e5 : 1 ≤ it.refCount → 1 ≤ it'.refCount) : HeapStable h (h.set p (some it')) := by
  intro q x hq
  by_cases hqp : q = p
  · subst hqp
    have hlt : q < h.length := (List.getElem?_eq_some.1 hq).1
    rw [hl] at hq
    cases hq
    exact ⟨it', by simp [List.getElem?_set, hlt], e1, e2, e3, e4, e5⟩
  · refine ⟨x, ?_, rfl, rfl, rfl, rfl, id⟩
    rw [List.getElem?_set_ne (Ne.symm hqp)]
    exact hq

theorem map_idOf_congr {h h' : ItemHeap} (hs : HeapStable h h') (chain : List Nat)
    (hc : ∀ p ∈ chain, ∃ id, h.idOf p = some id) :
    chain.map h'.idOf = chain.map h.idOf := by
  apply List.map_congr_left
  intro p hp
  obtain ⟨id, hid⟩ := hc p hp
  rw [hid, hs.idOf hid]

theorem ManifestInv.chain_ids {cfg : HashConfig} {heap : ItemHeap} {m : EPUB3Manifest}
    (hinv : ManifestInv cfg heap m) (b : Nat) :
    ∀ p ∈ m.itemTable b, ∃ id, heap.idOf p = some id := by
  intro p hp
  obtain ⟨it, id, hl, _, hid, _⟩ := hinv.1 b p hp
  exact ⟨id, idOf_eq_some.2 ⟨it, hl, hid⟩⟩

theorem find_eq {cfg : HashConfig} {heap : ItemHeap} {m : EPUB3Manifest}
    (hinv : ManifestInv cfg heap m) (id : String) :
    EPUB3ManifestFindItemWithId cfg heap m (some id) =
      .ok ((chainIndex id ((m.itemTable (cfg.bucket id)).map heap.idOf)).map
        (fun i => (cfg.bucket id, i))) := by
  simp only [EPUB3ManifestFindItemWithId, findInChain_eq heap id _ (hinv.chain_ids _), bind,
    Except.bind, pure, Except.pure]

theorem retain_eq {heap : ItemHeap} {p : Nat} {it : EPUB3ManifestItem}
    (hl : heap[p]? = some (some it)) :
    EPUB3ManifestItemRetain heap p =
      .ok (heap.set p (some { it with refCount := it.refCount + 1 })) := by
  simp [EPUB3ManifestItemRetain, deref_of_live hl, bind, Except.bind, pure, Except.pure]

theorem release_eq {heap : ItemHeap} {p : Nat} {it : EPUB3ManifestItem}
    (hl : heap[p]? = some (some it)) (hrc : 2 ≤ it.refCount) :
    EPUB3ManifestItemRelease heap p =
      .ok (heap.set p (some { it with refCount := it.refCount - 1 })) := by
  have : ¬ (it.refCount - 1 = 0) := by omega
  simp [EPUB3ManifestItemRelease, deref_of_live hl, bind, Except.bind, pure, Except.pure, this]

theorem getElem?_set_live {h : ItemHeap} {q : Nat} {y0 : EPUB3ManifestItem}
    (hq : h[q]? = some (some y0)) (y : EPUB3ManifestItem) (p : Nat) :
    (h.set q (some y))[p]? = if p = q then some (some y) else h[p]? := by
  have hlt : q < h.length := (List.getElem?_eq_some.1 hq).1
  by_cases hpq : p = q
  · subst hpq; simp [List.getElem?_set, hlt]
  · simp [hpq, List.getElem?_set_ne (Ne.symm hpq)]

theorem idOf_set_live {h : ItemHeap} {q : Nat} {y0 : EPUB3ManifestItem}
    (hq : h[q]? = some (some y0)) (y : EPUB3ManifestItem) (hy : y.itemId = y0.itemId) (p : Nat) :
    ItemHeap.idOf (h.set q (some y)) p = h.idOf p := by
  unfold ItemHeap.idOf
  rw [getElem?_set_live hq]
  by_cases hpq : p = q
  · subst hpq; simp [hq, hy]
  · simp [hpq]

theorem idOf_set_fun {h : ItemHeap} {q : Nat} {y0 : EPUB3ManifestItem}
    (hq : h[q]? = some (some y0)) (y : EPUB3ManifestItem) (hy : y.itemId = y0.itemId) :
    ItemHeap.idOf (h.set q (some y)) = h.idOf :=
  funext (idOf_set_live hq y hy)

/-- What `EPUB3ManifestInsertItem` does when the identifier is new. -/
theorem insert_new {cfg : HashConfig} {heap : ItemHeap} {m : EPUB3Manifest} {item : Nat}
    {it : EPUB3ManifestItem} {id : String}
    (hinv : ManifestInv cfg heap m) (hl : heap[item]? = some (some it))
    (hid : it.itemId = some id) (hrc : 1 ≤ it.refCount)
    (hnew : chainIndex id ((m.itemTable (cfg.bucket id)).map heap.idOf) = none) :
    ∃ heap' m', EPUB3ManifestInsertItem cfg heap m item = .ok (heap', m') ∧
      heap' = heap.set item (some { it with refCount := it.refCount + 1 }) ∧
      (∀ b, m'.itemTable b =
        if b = cfg.bucket id then item :: m.itemTable b else m.itemTable b) ∧
      m'.itemCount = m.itemCount + 1 ∧ m'.refCount = m.refCount ∧
      ManifestInv cfg heap' m' := by
  have hidf := idOf_set_fun hl { it with refCount := it.refCount + 1 } rfl
  have hl1 := getElem?_set_live hl { it with refCount := it.refCount + 1 }
  have hinv1 : ManifestInv cfg (heap.set item (some { it with refCount := it.refCount + 1 })) m := by
    refine ⟨?_, ?_⟩
    · intro b p hp
      obtain ⟨x, idx, hx, hx2, hxid, hxb⟩ := hinv.1 b p hp
      by_cases hpi : p = item
      · subst hpi
        rw [hl] at hx; cases hx
        exact ⟨{ it with refCount := it.refCount + 1 }, idx, by rw [hl1]; simp,
          by simp; omega, hxid, hxb⟩
      · exact ⟨x, idx, by rw [hl1]; simp [hpi, hx], hx2, hxid, hxb⟩
    · intro b; rw [hidf]; exact hinv.2 b
  refine ⟨heap.set item (some { it with refCount := it.refCount + 1 }),
    { m with
      itemTable := fun b =>
        if b = cfg.bucket id then item :: m.itemTable (cfg.bucket id) else m.itemTable b
      itemCount := m.itemCount + 1 }, ?_, rfl, ?_, ?_, ?_, ?_⟩
  · have hfind := find_eq hinv1 id
    rw [hidf, hnew] at hfind
    simp only [EPUB3ManifestInsertItem, deref_of_live hl, bind, Except.bind]
    rw [hid]
    simp only [retain_eq hl, hfind, Option.map_none', pure, Except.pure]
    rw [hid]
  · intro b
    by_cases hb : b = cfg.bucket id
    · subst hb; simp
    · simp [hb]
  · rfl
  · rfl
  · refine ⟨?_, ?_⟩
    · intro b p hp
      simp only at hp
      by_cases hb : b = cfg.bucket id
      · subst hb
        simp only [if_true] at hp
        rcases List.mem_cons.1 hp with h1 | h1
        · subst h1
          exact ⟨{ it with refCount := it.refCount + 1 }, id, by rw [hl1]; simp,
            by simp; omega, hid, rfl⟩
        · exact hinv1.1 _ p h1
      · simp only [hb, if_false] at hp
        exact hinv1.1 b p hp
    · intro b
      simp only
      by_cases hb : b = cfg.bucket id
      · subst hb
        simp only [if_true, List.map_cons, hidf]
        refine List.nodup_cons.2 ⟨?_, hinv.2 _⟩
        have : heap.idOf item = some id := idOf_eq_some.2 ⟨it, hl, hid⟩
        rw [this]
        exact chainIndex_none hnew
      · simp only [hb, if_false]
        exact hinv1.2 b

theorem set_self_of_getElem? {α : Type} {l : List α} {i : Nat} {a : α}
    (h : l[i]? = some a) : l.set i a = l := by
  apply List.ext_getElem?
  intro j
  rw [List.getElem?_set]
  by_cases hij : i = j
  · subst hij
    have hlt : i < l.length := (List.getElem?_eq_some.1 h).1
    simp [hlt, h]
  · simp [hij]

theorem nodup_index_unique {α : Type} {l : List α} (hn : l.Nodup) {i j : Nat} {a : α}
    (hi : l[i]? = some a) (hj : l[j]? = some a) : i = j := by
  have hil : i < l.length := (List.getElem?_eq_some.1 hi).1
  have hjl : j < l.length := (List.getElem?_eq_some.1 hj).1
  rcases Nat.lt_trichotomy i j with h | h | h
  · exact absurd (hi.trans hj.symm) (List.nodup_iff_getElem?_ne_getElem?.1 hn i j h hjl)
  · exact h
  · exact absurd (hj.trans hi.symm) (List.nodup_iff_getElem?_ne_getElem?.1 hn j i h hil)

theorem mem_set_cases {α : Type} {l : List α} {i : Nat} {a p : α}
    (h : p ∈ l.set i a) : p = a ∨ ∃ j, j ≠ i ∧ l[j]? = some p := by
  obtain ⟨j, hj⟩ := List.mem_iff_getElem?.1 h
  rw [List.getElem?_set] at hj
  by_cases hij : i = j
  · subst hij
    by_cases hlt : i < l.length
    · simp [hlt] at hj; exact Or.inl hj.symm
    · simp [hlt] at hj
  · simp [hij] at hj
    exact Or.inr ⟨j, fun h' => hij h'.symm, hj⟩

/-- What `EPUB3ManifestInsertItem` does when the identifier is already in the
    table, at position `i` of its chain. -/
theorem insert_existing {cfg : HashConfig} {heap : ItemHeap} {m : EPUB3Manifest} {item : Nat}
    {it : EPUB3ManifestItem} {id : String} {i : Nat}
    (hinv : ManifestInv cfg heap m) (hl : heap[item]? = some (some it))
    (hid : it.itemId = some id) (hrc : 1 ≤ it.refCount)
    (hold : chainIndex id ((m.itemTable (cfg.bucket id)).map heap.idOf) = some i) :
    ∃ heap' m', EPUB3ManifestInsertItem cfg heap m item = .ok (heap', m') ∧
      HeapStable heap heap' ∧ heap'.length = heap.length ∧
      (∀ b, m'.itemTable b =
        if b = cfg.bucket id then (m.itemTable b).set i item else m.itemTable b) ∧
      heap'.idOf = heap.idOf ∧
      m'.itemCount = m.itemCount ∧ m'.refCount = m.refCount ∧
      ManifestInv cfg heap' m' := by
  -- the node found and the item it holds
  have hi := chainIndex_some hold
  rw [List.getElem?_map] at hi
  obtain ⟨old, hci, hoid⟩ := Option.map_eq_some'.1 hi
  have holdmem : old ∈ m.itemTable (cfg.bucket id) := List.mem_iff_getElem?.2 ⟨i, hci⟩
  obtain ⟨x, idx, hx, hx2, hxid, hxb⟩ := hinv.1 _ old holdmem
  have hnode : m.nodeItem (cfg.bucket id, i) = .ok old := by
    simp [EPUB3Manifest.nodeItem, hci]
  -- the heap after the retain
  have hidf := idOf_set_fun hl { it with refCount := it.refCount + 1 } rfl
  have hl1 := getElem?_set_live hl { it with refCount := it.refCount + 1 }
  have hs1 : HeapStable heap (heap.set item (some { it with refCount := it.refCount + 1 })) :=
    HeapStable.set hl rfl rfl rfl rfl (fun _ => by simp; omega)
  have hinv1 : ManifestInv cfg (heap.set item (some { it with refCount := it.refCount + 1 })) m := by
    refine ⟨?_, ?_⟩
    · intro b p hp
      obtain ⟨x, idx, hx, hx2, hxid, hxb⟩ := hinv.1 b p hp
      by_cases hpi : p = item
      · subst hpi
        rw [hl] at hx; cases hx
        exact ⟨{ it with refCount := it.refCount + 1 }, idx, by rw [hl1]; simp,
          by simp; omega, hxid, hxb⟩
      · exact ⟨x, idx, by rw [hl1]; simp [hpi, hx], hx2, hxid, hxb⟩
    · intro b; rw [hidf]; exact hinv.2 b
  have hfind := find_eq hinv1 id
  rw [hidf, hold] at hfind
  -- the object released
  obtain ⟨y, hy, hy2, hyid, hyeq⟩ :
      ∃ y : EPUB3ManifestItem,
        (heap.set item (some { it with refCount := it.refCount + 1 }))[old]? = some (some y) ∧
        2 ≤ y.refCount ∧ y.itemId = some id ∧
        (old = item → y.refCount = it.refCount + 1 ∧ 2 ≤ it.refCount ∧ y.href = it.href ∧
          y.mediaType = it.mediaType ∧ y.properties = it.properties) ∧
        (old ≠ item → y = x) := by
    by_cases hoi : old = item
    · subst hoi
      rw [hl] at hx; cases hx
      exact ⟨{ it with refCount := it.refCount + 1 }, by rw [hl1]; simp, by simp; omega, hid,
        fun _ => ⟨rfl, hx2, rfl, rfl, rfl⟩, fun h => absurd rfl h⟩
    · refine ⟨x, by rw [hl1]; simp [hoi, hx], hx2, ?_, fun h => absurd h hoi, fun _ => rfl⟩
      have := idOf_eq_some.2 ⟨x, hx, hxid⟩
      rw [hoid] at this
      rw [hxid]; exact this.symm
  have hl2 := getElem?_set_live hy { y with refCount := y.refCount - 1 }
  have hidf2 := idOf_set_fun hy { y with refCount := y.refCount - 1 } rfl
  have hs2 := @HeapStable.set _ _ _ { y with refCount := y.refCount - 1 } hy rfl rfl rfl rfl
    (fun _ => by simp; omega)
  refine ⟨(heap.set item (some { it with refCount := it.refCount + 1 })).set old
      (some { y with refCount := y.refCount - 1 }),
    { m with
      itemTable := fun b =>
        if b = cfg.bucket id then (m.itemTable (cfg.bucket id)).set i item
        else m.itemTable b }, ?_, hs1.trans hs2, by simp, ?_, by rw [hidf2, hidf], rfl, rfl, ?_⟩
  · simp only [EPUB3ManifestInsertItem, deref_of_live hl, bind, Except.bind]
    rw [hid]
    simp only [retain_eq hl, hfind, Option.map_some', hnode, release_eq hy hy2, pure, Except.pure]
    rw [hid]
  · intro b
    by_cases hb : b = cfg.bucket id
    · subst hb; simp
    · simp [hb]
  · have hitem : ∃ it' : EPUB3ManifestItem,
        ((heap.set item (some { it with refCount := it.refCount + 1 })).set old
          (some { y with refCount := y.refCount - 1 }))[item]? = some (some it') ∧
        2 ≤ it'.refCount ∧ it'.itemId = some id := by
      by_cases hoi : item = old
      · refine ⟨{ y with refCount := y.refCount - 1 }, by rw [hl2]; simp [hoi], ?_, hyid⟩
        have := (hyeq.1 hoi.symm)
        simp only; omega
      · exact ⟨{ it with refCount := it.refCount + 1 }, by rw [hl2, hl1]; simp [hoi],
          by simp only; omega, hid⟩
    have hother : ∀ p, p ≠ old → p ≠ item →
        ((heap.set item (some { it with refCount := it.refCount + 1 })).set old
          (some { y with refCount := y.refCount - 1 }))[p]? = heap[p]? := by
      intro p h1 h2
      rw [hl2, hl1]; simp [h1, h2]
    refine ⟨?_, ?_⟩
    · intro b p hp
      simp only at hp
      by_cases hb : b = cfg.bucket id
      · subst hb
        simp only [if_true] at hp
        rcases mem_set_cases hp with h1 | ⟨j, hji, hj⟩
        · subst h1
          obtain ⟨it', h1, h2, h3⟩ := hitem
          exact ⟨it', id, h1, h2, h3, rfl⟩
        · have hpmem : p ∈ m.itemTable (cfg.bucket id) := List.mem_iff_getElem?.2 ⟨j, hj⟩
          obtain ⟨xp, idp, hxp, hxp2, hxpid, hxpb⟩ := hinv.1 _ p hpmem
          have hpo : p ≠ old := by
            intro hpo
            subst hpo
            have e1 : ((m.itemTable (cfg.bucket id)).map heap.idOf)[j]? = some (heap.idOf p) := by
              rw [List.getElem?_map, hj]; rfl
            have e2 : ((m.itemTable (cfg.bucket id)).map heap.idOf)[i]? = some (heap.idOf p) := by
              rw [List.getElem?_map, hci]; rfl
            exact hji (nodup_index_unique (hinv.2 _) e1 e2)
          by_cases hpi : p = item
          · subst hpi
            obtain ⟨it', h1, h2, h3⟩ := hitem
            exact ⟨it', id, h1, h2, h3, rfl⟩
          · exact ⟨xp, idp, by rw [hother p hpo hpi]; exact hxp, hxp2, hxpid, hxpb⟩
      · simp only [hb, if_false] at hp
        obtain ⟨xp, idp, hxp, hxp2, hxpid, hxpb⟩ := hinv.1 _ p hp
        have hpo : p ≠ old := by
          intro hpo
          subst hpo
          rw [hx] at hxp; cases hxp
          rw [hxid] at hxpid; cases hxpid
          exact hb (hxpb.symm.trans hxb)
        have hpi : p ≠ item := by
          intro hpi
          subst hpi
          rw [hl] at hxp; cases hxp
          rw [hid] at hxpid; cases hxpid
          exact hb hxpb.symm
        exact ⟨xp, idp, by rw [hother p hpo hpi]; exact hxp, hxp2, hxpid, hxpb⟩
    · intro b
      rw [hidf2, hidf]
      simp only
      by_cases hb : b = cfg.bucket id
      · subst hb
        simp only [if_true, List.map_set]
        have h1 : heap.idOf item = some id := idOf_eq_some.2 ⟨it, hl, hid⟩
        rw [h1, set_self_of_getElem? (chainIndex_some hold)]
        exact hinv.2 _
      · simp only [hb, if_false]
        exact hinv.2 b

theorem insertable_iff {heap : ItemHeap} {p : Nat} :
    heap.insertable p = true ↔
      ∃ (it : EPUB3ManifestItem) (id : String),
        heap[p]? = some (some it) ∧ it.itemId = some id ∧ 1 ≤ it.refCount := by
  unfold ItemHeap.insertable
  split
  · next it h =>
    constructor
    · intro h'
      simp only [Bool.and_eq_true, decide_eq_true_eq, Option.isSome_iff_exists] at h'
      obtain ⟨⟨id, hid⟩, hrc⟩ := h'
      exact ⟨it, id, h, hid, hrc⟩
    · rintro ⟨it', id, h1, h2, h3⟩
      rw [h] at h1
      cases h1
      simp [h2, h3]
  · next h =>
    constructor
    · intro h'; cases h'
    · rintro ⟨it', id, h1, _⟩; exact absurd h1 (h it')

theorem HeapStable.insertable {h h' : ItemHeap} (hs : HeapStable h h') {p : Nat}
    (hp : h.insertable p = true) : h'.insertable p = true := by
  obtain ⟨it, id, h1, h2, h3⟩ := insertable_iff.1 hp
  obtain ⟨it', g1, g2, _, _, _, g6⟩ := hs p it h1
  exact insertable_iff.2 ⟨it', id, g1, g2.trans h2, g6 h3⟩

theorem ManifestInv_create (cfg : HashConfig) (heap : ItemHeap) :
    ManifestInv cfg heap EPUB3ManifestCreate := by
  refine ⟨?_, ?_⟩
  · intro b p hp; simp [EPUB3ManifestCreate] at hp
  · intro b; simp [EPUB3ManifestCreate]

theorem lookup_eq {cfg : HashConfig} {heap : ItemHeap} {m : EPUB3Manifest}
    (hinv : ManifestInv cfg heap m) (id : String) :
    manifestLookup cfg heap m (some id) =
      .ok ((chainIndex id ((m.itemTable (cfg.bucket id)).map heap.idOf)).bind
        (fun i => (m.itemTable (cfg.bucket id))[i]?)) := by
  simp only [manifestLookup, find_eq hinv, bind, Except.bind]
  cases hc : chainIndex id ((m.itemTable (cfg.bucket id)).map heap.idOf) with
  | none => rfl
  | some i =>
    have hi := chainIndex_some hc
    rw [List.getElem?_map] at hi
    obtain ⟨q, hq, _⟩ := Option.map_eq_some'.1 hi
    simp [EPUB3Manifest.nodeItem, hq, pure, Except.pure, Except.bind]

/-- The effect of one `EPUB3ManifestInsertItem` on a well-formed table. -/
theorem insert_spec {cfg : HashConfig} {heap : ItemHeap} {m : EPUB3Manifest} {item : Nat}
    {it : EPUB3ManifestItem} {id : String}
    (hinv : ManifestInv cfg heap m) (hl : heap[item]? = some (some it))
    (hid : it.itemId = some id) (hrc : 1 ≤ it.refCount) :
    ∃ heap' m', EPUB3ManifestInsertItem cfg heap m item = .ok (heap', m') ∧
      ManifestInv cfg heap' m' ∧ HeapStable heap heap' ∧ heap'.length = heap.length ∧
      (∀ b x, x ∈ (m.itemTable b).map heap.idOf → x ∈ (m'.itemTable b).map heap'.idOf) ∧
      manifestLookup cfg heap' m' (some id) = .ok (some item) ∧
      (m'.itemCount =
        if chainIndex id ((m.itemTable (cfg.bucket id)).map heap.idOf) = none
        then m.itemCount + 1 else m.itemCount) ∧
      m'.refCount = m.refCount := by
  cases hc : chainIndex id ((m.itemTable (cfg.bucket id)).map heap.idOf) with
  | none =>
    obtain ⟨heap', m', hrun, hheap, htab, hcnt, hrcm, hinv'⟩ := insert_new hinv hl hid hrc hc
    have hidf : heap'.idOf = heap.idOf := by
      rw [hheap]; exact idOf_set_fun hl _ rfl
    have hitem : heap.idOf item = some id := idOf_eq_some.2 ⟨it, hl, hid⟩
    refine ⟨heap', m', hrun, hinv', ?_, ?_, ?_, ?_, by simp [hcnt], hrcm⟩
    · rw [hheap]; exact HeapStable.set hl rfl rfl rfl rfl (fun _ => by simp; omega)
    · rw [hheap]; simp
    · intro b x hx
      rw [hidf, htab]
      by_cases hb : b = cfg.bucket id
      · simp only [hb, if_true, List.map_cons]
        rw [hb] at hx
        exact List.mem_cons_of_mem _ hx
      · simpa [hb] using hx
    · rw [lookup_eq hinv', hidf, htab]
      simp [hitem, chainIndex]
  | some i =>
    obtain ⟨heap', m', hrun, hs, hlen, htab, hidf, hcnt, hrcm, hinv'⟩ :=
      insert_existing hinv hl hid hrc hc
    have hi := chainIndex_lt hc
    rw [List.length_map] at hi
    have hmap : ∀ b, (m'.itemTable b).map heap'.idOf = (m.itemTable b).map heap.idOf := by
      intro b
      rw [hidf, htab]
      by_cases hb : b = cfg.bucket id
      · subst hb
        simp only [if_true, List.map_set]
        have h1 : heap.idOf item = some id := idOf_eq_some.2 ⟨it, hl, hid⟩
        rw [h1, set_self_of_getElem? (chainIndex_some hc)]
      · simp [hb]
    refine ⟨heap', m', hrun, hinv', hs, hlen, ?_, ?_, by simp [hcnt], hrcm⟩
    · intro b x hx; rw [hmap]; exact hx
    · rw [lookup_eq hinv', hmap, hc, htab]
      simp [List.getElem?_set, hi]

theorem lookup_some {cfg : HashConfig} {heap : ItemHeap} {m : EPUB3Manifest}
    (hinv : ManifestInv cfg heap m) {id : String} {q : Nat}
    (h : manifestLookup cfg heap m (some id) = .ok (some q)) :
    q ∈ m.itemTable (cfg.bucket id) ∧ heap.idOf q = some id := by
  rw [lookup_eq hinv] at h
  cases hc : chainIndex id ((m.itemTable (cfg.bucket id)).map heap.idOf) with
  | none => rw [hc] at h; cases h
  | some i =>
    rw [hc] at h
    have hq : (m.itemTable (cfg.bucket id))[i]? = some q := by simpa using h
    have hi := chainIndex_some hc
    rw [List.getElem?_map, hq] at hi
    exact ⟨List.mem_iff_getElem?.2 ⟨i, hq⟩, by simpa using hi⟩

theorem find_of_mem {cfg : HashConfig} {heap : ItemHeap} {m : EPUB3Manifest}
    (hinv : ManifestInv cfg heap m) {id : String}
    (h : some id ∈ (m.itemTable (cfg.bucket id)).map heap.idOf) :
    ∃ node q it, EPUB3ManifestFindItemWithId cfg heap m (some id) = .ok (some node) ∧
      m.nodeItem node = .ok q ∧ heap.deref q = .ok it ∧ it.itemId = some id := by
  obtain ⟨i, hc⟩ := chainIndex_of_mem h
  have hi := chainIndex_some hc
  rw [List.getElem?_map] at hi
  obtain ⟨q, hq, hqid⟩ := Option.map_eq_some'.1 hi
  obtain ⟨it, hl, hid⟩ := idOf_eq_some.1 hqid
  refine ⟨(cfg.bucket id, i), q, it, ?_, ?_, deref_of_live hl, hid⟩
  · rw [find_eq hinv, hc]; rfl
  · simp [EPUB3Manifest.nodeItem, hq]

theorem insertItems_spec (cfg : HashConfig) (items : List Nat) :
    ∀ (heap : ItemHeap) (m : EPUB3Manifest), ManifestInv cfg heap m →
      (∀ p ∈ items, heap.insertable p = true) →
      ∃ heap' m', insertItems cfg heap m items = .ok (heap', m') ∧
        ManifestInv cfg heap' m' ∧ HeapStable heap heap' ∧
        (∀ b x, x ∈ (m.itemTable b).map heap.idOf → x ∈ (m'.itemTable b).map heap'.idOf) ∧
        (∀ p ∈ items, ∀ id, heap.idOf p = some id →
          some id ∈ (m'.itemTable (cfg.bucket id)).map heap'.idOf) := by
  induction items with
  | nil =>
    intro heap m hinv _
    exact ⟨heap, m, rfl, hinv, HeapStable.refl _, fun _ _ h => h, fun p hp => by cases hp⟩
  | cons p ps ih =>
    intro heap m hinv hitems
    obtain ⟨it, id, hl, hid, hrc⟩ := insertable_iff.1 (hitems p (List.mem_cons_self _ _))
    obtain ⟨heap1, m1, hrun1, hinv1, hs1, _, hmono1, hlook1, _, _⟩ :=
      insert_spec hinv hl hid hrc
    obtain ⟨heap2, m2, hrun2, hinv2, hs2, hmono2, hall2⟩ :=
      ih heap1 m1 hinv1 (fun q hq => hs1.insertable (hitems q (List.mem_cons_of_mem _ hq)))
    refine ⟨heap2, m2, ?_, hinv2, hs1.trans hs2, fun b x hx => hmono2 b x (hmono1 b x hx), ?_⟩
    · simp only [insertItems, hrun1, bind, Except.bind]
      exact hrun2
    · intro q hq id' hid'
      rcases List.mem_cons.1 hq with h | h
      · subst h
        have e : id' = id := by
          have := idOf_eq_some.2 ⟨it, hl, hid⟩
          rw [hid'] at this
          exact Option.some.inj this
        subst e
        have hmem := lookup_some hinv1 hlook1
        apply hmono2
        exact List.mem_map.2 ⟨q, hmem.1, hmem.2⟩
      · exact hall2 q h id' (hs1.idOf hid')

/-- C3: after any sequence of `EPUB3ManifestInsertItem` calls on a fresh
    manifest, with items that satisfy the function's assertions, the calls all
    return, and for every identifier that was inserted
    `EPUB3ManifestFindItemWithId` returns a node (not `NULL`) whose item is live
    and has that identifier. -/
theorem C3_find_returns_inserted_identifier (cfg : HashConfig) (heap0 : ItemHeap)
    (items : List Nat) (hitems : ∀ p ∈ items, heap0.insertable p = true) :
    ∃ heap m, insertItems cfg heap0 EPUB3ManifestCreate items = .ok (heap, m) ∧
      ∀ p ∈ items, ∀ id, heap0.idOf p = some id →
        ∃ node q it, EPUB3ManifestFindItemWithId cfg heap m (some id) = .ok (some node) ∧
          m.nodeItem node = .ok q ∧ heap.deref q = .ok it ∧ it.itemId = some id := by
  obtain ⟨heap, m, hrun, hinv, _, _, hall⟩ :=
    insertItems_spec cfg items heap0 EPUB3ManifestCreate (ManifestInv_create cfg heap0) hitems
  exact ⟨heap, m, hrun, fun p hp id hid => find_of_mem hinv (hall p hp id hid)⟩

/-- The hypothesis of C3 holds for the three example items, two of which share an
    identifier. -/
theorem C3_find_returns_inserted_identifier_witness :
    (∀ p ∈ [0, 1, 2], exampleHeap.insertable p = true) ∧
    ∃ heap m, insertItems exampleConfig exampleHeap EPUB3ManifestCreate [0, 1, 2]
        = .ok (heap, m) ∧
      ∀ p ∈ [0, 1, 2], ∀ id, exampleHeap.idOf p = some id →
        ∃ node q it, EPUB3ManifestFindItemWithId exampleConfig heap m (some id) = .ok (some node) ∧
          m.nodeItem node = .ok q ∧ heap.deref q = .ok it ∧ it.itemId = some id :=
  ⟨by decide, C3_find_returns_inserted_identifier exampleConfig exampleHeap [0, 1, 2] (by decide)⟩

/-- C4: on a manifest built by any sequence of insertions, inserting a
    further item makes a lookup of its identifier return that very item, with
    its href and media type; if the identifier was already present `itemCount`
    is unchanged, if it was new `itemCount` grows by exactly one. -/
theorem C4_insert_replaces_or_counts (cfg : HashConfig) (heap0 : ItemHeap)
    (items : List Nat) (item : Nat)
    (hitems : ∀ p ∈ items, heap0.insertable p = true)
    (hitem : heap0.insertable item = true) :
    ∃ heap m heap' m' it it',
      insertItems cfg heap0 EPUB3ManifestCreate items = .ok (heap, m) ∧
      heap.deref item = .ok it ∧
      EPUB3ManifestInsertItem cfg heap m item = .ok (heap', m') ∧
      manifestLookup cfg heap' m' it.itemId = .ok (some item) ∧
      heap'.deref item = .ok it' ∧ it'.itemId = it.itemId ∧ it'.href = it.href ∧
      it'.mediaType = it.mediaType ∧
      (((∃ q, manifestLookup cfg heap m it.itemId = .ok (some q)) ∧
          m'.itemCount = m.itemCount) ∨
        (manifestLookup cfg heap m it.itemId = .ok none ∧
          m'.itemCount = m.itemCount + 1)) := by
  obtain ⟨heap, m, hrun, hinv, hs, _, _⟩ :=
    insertItems_spec cfg items heap0 EPUB3ManifestCreate (ManifestInv_create cfg heap0) hitems
  obtain ⟨it, id, hl, hid, hrc⟩ := insertable_iff.1 (hs.insertable hitem)
  obtain ⟨heap', m', hins, _, hs', _, _, hlook, hcnt, _⟩ := insert_spec hinv hl hid hrc
  obtain ⟨it', hl', e1, e2, e3, _, _⟩ := hs' item it hl
  refine ⟨heap, m, heap', m', it, it', hrun, deref_of_live hl, hins, by rw [hid]; exact hlook,
    deref_of_live hl', e1, e2, e3, ?_⟩
  rw [hid, lookup_eq hinv]
  cases hc : chainIndex id ((m.itemTable (cfg.bucket id)).map heap.idOf) with
  | none =>
    right
    rw [hc] at hcnt
    exact ⟨rfl, by simpa using hcnt⟩
  | some i =>
    left
    rw [hc] at hcnt
    have hi := chainIndex_some hc
    rw [List.getElem?_map] at hi
    obtain ⟨q, hq, _⟩ := Option.map_eq_some'.1 hi
    exact ⟨⟨q, by simp [hq]⟩, by simpa using hcnt⟩

/-- The hypotheses of C4 hold when the third example item replaces the first. -/
theorem C4_insert_replaces_or_counts_witness :
    (∀ p ∈ [0, 1], exampleHeap.insertable p = true) ∧ exampleHeap.insertable 2 = true ∧
    ∃ heap m heap' m' it it',
      insertItems exampleConfig exampleHeap EPUB3ManifestCreate [0, 1]
        = .ok (heap, m) ∧
      heap.deref 2 = .ok it ∧
      EPUB3ManifestInsertItem exampleConfig heap m 2 = .ok (heap', m') ∧
      manifestLookup exampleConfig heap' m' it.itemId = .ok (some 2) ∧
      heap'.deref 2 = .ok it' ∧ it'.itemId = it.itemId ∧ it'.href = it.href ∧
      it'.mediaType = it.mediaType ∧
      (((∃ q, manifestLookup exampleConfig heap m it.itemId = .ok (some q)) ∧
          m'.itemCount = m.itemCount) ∨
        (manifestLookup exampleConfig heap m it.itemId = .ok none ∧
          m'.itemCount = m.itemCount + 1)) :=
  ⟨by decide, by decide,
    C4_insert_replaces_or_counts exampleConfig exampleHeap [0, 1] 2 (by decide) (by decide)⟩

/-! ### The spine list -/

theorem traverse_eq (nodes : List EPUB3SpineItemListItem)
    (hnext : ∀ (i : Nat) (node : EPUB3SpineItemListItem), nodes[i]? = some node →
      node.next = if i + 1 < nodes.length then some (i + 1) else none) :
    ∀ (fuel k : Nat), nodes.length - k ≤ fuel →
      spineTraverse nodes fuel (if k < nodes.length then some k else none) =
        .ok ((nodes.drop k).map (fun n => n.item)) := by
  intro fuel
  induction fuel with
  | zero =>
    intro k hk
    have : ¬ k < nodes.length := by omega
    simp only [this, if_false, spineTraverse]
    rw [List.drop_eq_nil_of_le (by omega)]; rfl
  | succ f ih =>
    intro k hk
    by_cases hlt : k < nodes.length
    · simp only [hlt, if_true, spineTraverse]
      have hk' : nodes[k]? = some nodes[k] := List.getElem?_eq_getElem hlt
      rw [hk']
      simp only [hnext k _ hk', ih (k + 1) (by omega), bind, Except.bind, pure, Except.pure]
      rw [List.drop_eq_getElem_cons hlt]; rfl
    · simp only [hlt, if_false, spineTraverse]
      rw [List.drop_eq_nil_of_le (by omega)]; rfl

theorem items_eq {sp : EPUB3Spine} (hwf : SpineWF sp) :
    sp.items = .ok (sp.nodes.map (fun n => n.item)) := by
  have h := traverse_eq sp.nodes hwf.2.2 sp.nodes.length 0 (by omega)
  unfold EPUB3Spine.items
  rw [hwf.1]
  by_cases h0 : sp.nodes.length = 0
  · simp only [h0, if_true]
    have : sp.nodes = [] := List.length_eq_zero.1 h0
    rw [this]; rfl
  · have hpos : 0 < sp.nodes.length := by omega
    simp only [hpos, if_true, List.drop_zero] at h
    simp only [h0, if_false]
    exact h

theorem SpineWF_create : SpineWF EPUB3SpineCreate := by
  refine ⟨rfl, rfl, ?_⟩
  intro i node h
  simp [EPUB3SpineCreate] at h

/-- The effect of `EPUB3SpineAppendItem` on a well-formed list. -/
theorem append_spec (sp : EPUB3Spine) (hwf : SpineWF sp) (item : EPUB3SpineItem) :
    ∃ sp', EPUB3SpineAppendItem sp item = .ok sp' ∧ SpineWF sp' ∧
      sp'.nodes.map (fun n => n.item) =
        sp.nodes.map (fun n => n.item) ++ [EPUB3SpineItemRetain item] ∧
      sp'.itemCount = sp.itemCount + 1 ∧ sp'.linearItemCount = sp.linearItemCount ∧
      sp'.refCount = sp.refCount := by
  obtain ⟨hhead, htail, hnext⟩ := hwf
  by_cases h0 : sp.nodes.length = 0
  · have hnil : sp.nodes = [] := List.length_eq_zero.1 h0
    simp only [h0, if_true] at hhead htail
    refine ⟨{ sp with nodes := sp.nodes ++ [{ item := EPUB3SpineItemRetain item, next := none }],
                      head := some sp.nodes.length, tail := some sp.nodes.length,
                      itemCount := sp.itemCount + 1 },
      by simp only [EPUB3SpineAppendItem, hhead], ⟨?_, ?_, ?_⟩, ?_, rfl, rfl, rfl⟩
    · simp [hnil]
    · simp [hnil]
    · intro i node h
      simp only [hnil, List.nil_append] at h ⊢
      cases i with
      | zero => simp at h; subst h; simp
      | succ j => simp at h
    · simp [hnil]
  · simp only [h0, if_false] at hhead htail
    have hlt : sp.nodes.length - 1 < sp.nodes.length := by omega
    have hget : (sp.nodes ++ [{ item := EPUB3SpineItemRetain item, next := none }])[sp.nodes.length - 1]?
        = some sp.nodes[sp.nodes.length - 1] := by
      rw [List.getElem?_append_left hlt, List.getElem?_eq_getElem hlt]
    refine ⟨{ sp with
        nodes := (sp.nodes ++
            [({ item := EPUB3SpineItemRetain item, next := none } : EPUB3SpineItemListItem)]).set
          (sp.nodes.length - 1)
          { sp.nodes[sp.nodes.length - 1] with next := some sp.nodes.length },
        tail := some sp.nodes.length, itemCount := sp.itemCount + 1 },
      by simp only [EPUB3SpineAppendItem, hhead, htail, hget], ⟨?_, ?_, ?_⟩, ?_, rfl, rfl, rfl⟩
    · simp [hhead]
    · simp
    · intro i node h
      simp only [List.length_set, List.length_append, List.length_singleton] at h ⊢
      rw [List.getElem?_set] at h
      by_cases hi : sp.nodes.length - 1 = i
      · subst hi
        simp only [List.length_append, List.length_singleton, if_true] at h
        have : sp.nodes.length - 1 < sp.nodes.length + 1 := by omega
        simp only [this, if_true, Option.some.injEq] at h
        subst h
        have e : sp.nodes.length - 1 + 1 = sp.nodes.length := by omega
        simp [e]
      · simp only [hi, if_false] at h
        by_cases hil : i < sp.nodes.length
        · rw [List.getElem?_append_left hil] at h
          have := hnext i node h
          rw [this]
          have h1 : i + 1 < sp.nodes.length := by omega
          have h2 : i + 1 < sp.nodes.length + 1 := by omega
          simp [h1, h2]
        · rw [List.getElem?_append_right (by omega)] at h
          have hi2 : i - sp.nodes.length = 0 := by
            by_contra hne
            have : 1 ≤ i - sp.nodes.length := by omega
            rw [List.getElem?_eq_none (by simpa using this)] at h
            cases h
          rw [hi2] at h
          simp at h
          subst h
          have : ¬ (i + 1 < sp.nodes.length + 1) := by omega
          simp [this]
    · apply List.ext_getElem?
      intro i
      simp only [List.getElem?_map, List.getElem?_set, List.length_append, List.length_singleton]
      by_cases hi : sp.nodes.length - 1 = i
      · subst hi
        have : sp.nodes.length - 1 < sp.nodes.length + 1 := by omega
        simp only [this, if_true, Option.map_some', List.map_append, List.map_cons, List.map_nil]
        rw [List.getElem?_append_left (by simpa using hlt)]
        simp [List.getElem?_eq_getElem hlt]
      · simp only [hi, if_false, List.map_append, List.map_cons, List.map_nil]
        rw [← List.getElem?_map, List.map_append]
        rfl

/-! ### Single parser steps -/

theorem appendsItemref_iff {st : OPFParse} {n : XMLNode} :
    appendsItemref st n = true ↔
      (∃ top rest, st.contextStack = top :: rest ∧ top.state = kEPUB3OPFStateSpine) ∧
      n.nodeType = XML_READER_TYPE_ELEMENT ∧ n.isEmptyElement = true ∧
      n.localName = some "itemref" := by
  unfold appendsItemref OPFParse.state?
  simp only [Bool.and_eq_true, decide_eq_true_eq, and_assoc]
  constructor
  · rintro ⟨h1, h2, h3, h4⟩
    refine ⟨?_, h2, h3, h4⟩
    cases hs : st.contextStack with
    | nil => simp [hs] at h1
    | cons top rest => simp [hs] at h1; exact ⟨top, rest, rfl, h1⟩
  · rintro ⟨⟨top, rest, hs, ht⟩, h2, h3, h4⟩
    exact ⟨by simp [hs, ht], h2, h3, h4⟩

/-- The step for a self-closing `<itemref>` in the Spine state. -/
theorem step_itemref {cfg : HashConfig} {st : OPFParse} {n : XMLNode}
    (ha : appendsItemref st n = true) {m : EPUB3Manifest} {sp : EPUB3Spine}
    (hm : st.epub.manifest = some m) (hsp : st.epub.spine = some sp)
    (hinv : ManifestInv cfg st.heap m) (hwf : SpineWF sp) :
    ∃ sp', EPUB3ParseXMLReaderNodeForOPF cfg st n =
        .ok (kEPUB3Success, { st with epub := { st.epub with spine := some sp' } }) ∧
      SpineWF sp' ∧
      sp'.nodes.map (fun x => x.item) =
        sp.nodes.map (fun x => x.item) ++ [spineItemOf cfg st.heap m n] ∧
      sp'.itemCount = sp.itemCount + 1 ∧
      sp'.linearItemCount = sp.linearItemCount + (if itemrefIsLinear n then 1 else 0) ∧
      sp'.refCount = sp.refCount := by
  obtain ⟨⟨top, rest, hs, ht⟩, h2, h3, h4⟩ := appendsItemref_iff.1 ha
  have hstep : EPUB3ParseXMLReaderNodeForOPF cfg st n =
      EPUB3ProcessXMLReaderNodeForSpineInOPF cfg st n := by
    simp [EPUB3ParseXMLReaderNodeForOPF, hs, ht, h2, h4, xmlStrEqual]
  rw [hstep]
  have hclean : EPUB3ProcessXMLReaderNodeForSpineInOPF cfg st n = (do
      let spine2 ← EPUB3SpineAppendItem
        { sp with linearItemCount :=
            sp.linearItemCount + (if itemrefIsLinear n then 1 else 0) }
        { refCount := 1, isLinear := itemrefIsLinear n,
          idref := xmlTextReaderGetAttribute n "idref",
          manifestItem := resolveIdref cfg st.heap m (xmlTextReaderGetAttribute n "idref") }
      pure (kEPUB3Success, { st with epub := { st.epub with spine := some spine2 } })) := by
    unfold EPUB3ProcessXMLReaderNodeForSpineInOPF
    simp only [h2, h3, h4, hsp, hm, xmlStrEqual, Bool.not_true, Bool.false_eq_true, if_false,
      decide_True, if_true, EPUB3SpineItemCreate, decide_eq_true_eq]
    have hlinear : itemrefIsLinear n = decide (xmlTextReaderGetAttribute n "linear" = none ∨
        xmlTextReaderGetAttribute n "linear" = some "yes") := rfl
    cases hidref : xmlTextReaderGetAttribute n "idref" with
    | none =>
      by_cases hlin : (xmlTextReaderGetAttribute n "linear" = none ∨
          xmlTextReaderGetAttribute n "linear" = some "yes")
      · simp only [hlinear, hlin, decide_True, if_true, resolveIdref, ne_eq, not_true_eq_false,
          if_false, bind, Except.bind, pure, Except.pure]
      · simp only [hlinear, hlin, decide_False, if_false, resolveIdref, ne_eq, not_true_eq_false,
          Bool.false_eq_true, add_zero, bind, Except.bind, pure, Except.pure]
    | some id =>
      have hq : ∀ i, chainIndex id ((m.itemTable (cfg.bucket id)).map st.heap.idOf) = some i →
          ∃ q, (m.itemTable (cfg.bucket id))[i]? = some q := by
        intro i hc
        have hi := chainIndex_some hc
        rw [List.getElem?_map] at hi
        obtain ⟨q, hq, _⟩ := Option.map_eq_some'.1 hi
        exact ⟨q, hq⟩
      by_cases hlin : (xmlTextReaderGetAttribute n "linear" = none ∨
          xmlTextReaderGetAttribute n "linear" = some "yes")
      · simp only [hlinear, hlin, decide_True, if_true, resolveIdref, ne_eq, not_false_eq_true,
          reduceCtorEq, find_eq hinv, lookup_eq hinv, bind, Except.bind, pure, Except.pure]
        cases hc : chainIndex id ((m.itemTable (cfg.bucket id)).map st.heap.idOf) with
        | none => simp only [Option.map_none', Option.none_bind]
        | some i =>
          obtain ⟨q, hq⟩ := hq i hc
          simp only [Option.map_some', Option.some_bind, EPUB3Manifest.nodeItem, hq]
      · simp only [hlinear, hlin, decide_False, if_false, resolveIdref, ne_eq, not_false_eq_true,
          reduceCtorEq, if_true, Bool.false_eq_true, add_zero,
          find_eq hinv, lookup_eq hinv, bind, Except.bind, pure, Except.pure]
        cases hc : chainIndex id ((m.itemTable (cfg.bucket id)).map st.heap.idOf) with
        | none => simp only [Option.map_none', Option.none_bind]
        | some i =>
          obtain ⟨q, hq⟩ := hq i hc
          simp only [Option.map_some', Option.some_bind, EPUB3Manifest.nodeItem, hq]
  obtain ⟨sp', happ, hwf', hitems, hcnt, hlin, hrc⟩ :=
    append_spec { sp with linearItemCount :=
      sp.linearItemCount + (if itemrefIsLinear n then 1 else 0) } hwf
      { refCount := 1, isLinear := itemrefIsLinear n,
        idref := xmlTextReaderGetAttribute n "idref",
        manifestItem := resolveIdref cfg st.heap m (xmlTextReaderGetAttribute n "idref") }
  refine ⟨sp', ?_, hwf', hitems, hcnt, hlin, hrc⟩
  rw [hclean]
  simp only [bind, Except.bind, happ, pure, Except.pure]

theorem insertsItem_iff {st : OPFParse} {n : XMLNode} :
    insertsItem st n = true ↔
      (∃ top rest, st.contextStack = top :: rest ∧ top.state = kEPUB3OPFStateManifest) ∧
      n.nodeType = XML_READER_TYPE_ELEMENT ∧ n.isEmptyElement = true ∧
      n.localName = some "item" := by
  unfold insertsItem OPFParse.state?
  simp only [Bool.and_eq_true, decide_eq_true_eq, and_assoc]
  constructor
  · rintro ⟨h1, h2, h3, h4⟩
    refine ⟨?_, h2, h3, h4⟩
    cases hs : st.contextStack with
    | nil => simp [hs] at h1
    | cons top rest => simp [hs] at h1; exact ⟨top, rest, rfl, h1⟩
  · rintro ⟨⟨top, rest, hs, ht⟩, h2, h3, h4⟩
    exact ⟨by simp [hs, ht], h2, h3, h4⟩

theorem HeapStable_append (h : ItemHeap) (x : Option EPUB3ManifestItem) :
    HeapStable h (h ++ [x]) := by
  intro p it hp
  have hlt : p < h.length := (List.getElem?_eq_some.1 hp).1
  exact ⟨it, by rw [List.getElem?_append_left hlt]; exact hp, rfl, rfl, rfl, rfl, id⟩

theorem ManifestInv_append {cfg : HashConfig} {h : ItemHeap} {m : EPUB3Manifest}
    (hinv : ManifestInv cfg h m) (x : Option EPUB3ManifestItem) :
    ManifestInv cfg (h ++ [x]) m := by
  refine ⟨?_, ?_⟩
  · intro b p hp
    obtain ⟨it, id, hl, h2, h3, h4⟩ := hinv.1 b p hp
    have hlt : p < h.length := (List.getElem?_eq_some.1 hl).1
    exact ⟨it, id, by rw [List.getElem?_append_left hlt]; exact hl, h2, h3, h4⟩
  · intro b
    rw [map_idOf_congr (HeapStable_append h x) _ (hinv.chain_ids b)]
    exact hinv.2 b

/-- The step for a self-closing `<item>` in the Manifest state. -/
theorem step_item {cfg : HashConfig} {st : OPFParse} {n : XMLNode}
    (hi : insertsItem st n = true) {m : EPUB3Manifest}
    (hm : st.epub.manifest = some m) (hinv : ManifestInv cfg st.heap m) :
    (xmlTextReaderGetAttribute n "id" = none →
      EPUB3ParseXMLReaderNodeForOPF cfg st n = .error Fault.assertion) ∧
    (∀ id, xmlTextReaderGetAttribute n "id" = some id →
      ∃ heap' m', EPUB3ParseXMLReaderNodeForOPF cfg st n =
          .ok (kEPUB3Success,
            { st with heap := heap', epub := { st.epub with manifest := some m' } }) ∧
        EPUB3ManifestInsertItem cfg (st.heap ++ [some (manifestItemOf n)]) m st.heap.length
          = .ok (heap', m') ∧
        ManifestInv cfg heap' m' ∧ HeapStable st.heap heap' ∧
        heap'.length = st.heap.length + 1 ∧
        manifestLookup cfg heap' m' (some id) = .ok (some st.heap.length)) := by
  obtain ⟨⟨top, rest, hs, ht⟩, h2, h3, h4⟩ := insertsItem_iff.1 hi
  have hstep : EPUB3ParseXMLReaderNodeForOPF cfg st n =
      EPUB3ProcessXMLReaderNodeForManifestInOPF cfg st n := by
    simp [EPUB3ParseXMLReaderNodeForOPF, hs, ht, h2, h4, xmlStrEqual]
  rw [hstep]
  have hset : ∀ (x y : Option EPUB3ManifestItem),
      (st.heap ++ [x]).set st.heap.length y = st.heap ++ [y] := by
    intro x y
    rw [List.set_append_right _ _ (Nat.le_refl _)]
    simp
  have hhandler : EPUB3ProcessXMLReaderNodeForManifestInOPF cfg st n = (do
      let (heap3, manifest1) ←
        EPUB3ManifestInsertItem cfg (st.heap ++ [some (manifestItemOf n)]) m st.heap.length
      pure (kEPUB3Success,
        { st with heap := heap3, epub := { st.epub with manifest := some manifest1 } })) := by
    unfold EPUB3ProcessXMLReaderNodeForManifestInOPF
    simp only [h2, h3, h4, hm, xmlStrEqual, EPUB3ManifestItemCreate, hset,
      Bool.not_true, Bool.false_eq_true, if_false, decide_True, if_true,
      List.getElem?_concat_length]
    rfl
  rw [hhandler]
  have hl : (st.heap ++ [some (manifestItemOf n)])[st.heap.length]? =
      some (some (manifestItemOf n)) := by simp
  constructor
  · intro hid
    have : (manifestItemOf n).itemId = none := hid
    simp [EPUB3ManifestInsertItem, deref_of_live hl, this, bind, Except.bind]
  · intro id hid
    have hid' : (manifestItemOf n).itemId = some id := hid
    obtain ⟨heap', m', hins, hinv', hs', hlen, _, hlook, _, _⟩ :=
      insert_spec (ManifestInv_append hinv _) hl hid' (by simp [manifestItemOf])
    refine ⟨heap', m', ?_, hins, hinv', (HeapStable_append _ _).trans hs', by simp [hlen], hlook⟩
    simp only [hins, bind, Except.bind, pure, Except.pure]

theorem metadata_frame {st : OPFParse} {n : XMLNode} {e : EPUB3Error} {st' : OPFParse}
    (h : EPUB3ProcessXMLReaderNodeForMetadataInOPF st n = .ok (e, st')) :
    e = kEPUB3Success ∧ SameModel st st' := by
  unfold EPUB3ProcessXMLReaderNodeForMetadataInOPF at h
  simp only [bind, Except.bind, pure, Except.pure] at h
  repeat' split at h
  all_goals first
    | (cases h; done)
    | (cases h; exact ⟨rfl, rfl, rfl, rfl⟩)


theorem manifest_frame {cfg : HashConfig} {st : OPFParse} {n : XMLNode} {e : EPUB3Error}
    {st' : OPFParse}
    (hn : ¬ (n.nodeType = XML_READER_TYPE_ELEMENT ∧ n.isEmptyElement = true ∧
      n.localName = some "item"))
    (h : EPUB3ProcessXMLReaderNodeForManifestInOPF cfg st n = .ok (e, st')) :
    e = kEPUB3Success ∧ SameModel st st' := by
  unfold EPUB3ProcessXMLReaderNodeForManifestInOPF at h
  simp only [bind, Except.bind, pure, Except.pure, xmlStrEqual, decide_eq_true_eq] at h
  split at h
  · split at h
    · split at h
      · cases h
      · cases h; exact ⟨rfl, rfl, rfl, rfl⟩
    · split at h
      · next h1 h2 h3 =>
        exfalso
        apply hn
        refine ⟨h1, ?_, h3⟩
        simpa using h2
      · cases h; exact ⟨rfl, rfl, rfl, rfl⟩
  · cases h; exact ⟨rfl, rfl, rfl, rfl⟩
  · split at h
    · cases h
    · cases h; exact ⟨rfl, rfl, rfl, rfl⟩
  · cases h; exact ⟨rfl, rfl, rfl, rfl⟩

theorem spine_frame {cfg : HashConfig} {st : OPFParse} {n : XMLNode} {e : EPUB3Error}
    {st' : OPFParse}
    (hn : ¬ (n.nodeType = XML_READER_TYPE_ELEMENT ∧ n.isEmptyElement = true ∧
      n.localName = some "itemref"))
    (h : EPUB3ProcessXMLReaderNodeForSpineInOPF cfg st n = .ok (e, st')) :
    e = kEPUB3Success ∧ SameModel st st' := by
  unfold EPUB3ProcessXMLReaderNodeForSpineInOPF at h
  simp only [bind, Except.bind, pure, Except.pure, xmlStrEqual, decide_eq_true_eq] at h
  split at h
  · split at h
    · split at h
      · cases h
      · cases h; exact ⟨rfl, rfl, rfl, rfl⟩
    · split at h
      · next h1 h2 h3 =>
        exfalso
        apply hn
        refine ⟨h1, ?_, h3⟩
        simpa using h2
      · cases h; exact ⟨rfl, rfl, rfl, rfl⟩
  · cases h; exact ⟨rfl, rfl, rfl, rfl⟩
  · split at h
    · cases h
    · cases h; exact ⟨rfl, rfl, rfl, rfl⟩
  · cases h; exact ⟨rfl, rfl, rfl, rfl⟩


/-- Every step other than the two that build the model leaves heap, manifest
    and spine unchanged. -/
theorem step_other {cfg : HashConfig} {st : OPFParse} {n : XMLNode} {e : EPUB3Error}
    {st' : OPFParse} (ha : appendsItemref st n = false) (hi : insertsItem st n = false)
    (h : EPUB3ParseXMLReaderNodeForOPF cfg st n = .ok (e, st')) :
    e = kEPUB3Success ∧ SameModel st st' := by
  unfold EPUB3ParseXMLReaderNodeForOPF at h
  cases hs : st.contextStack with
  | nil => simp only [hs] at h; cases h
  | cons top rest =>
    simp only [hs] at h
    split at h
    · cases hst : top.state with
      | kEPUB3OPFStateRoot =>
        simp only [hst, bind, Except.bind, pure, Except.pure] at h
        repeat' split at h
        all_goals first
          | (cases h; done)
          | (cases h; exact ⟨rfl, rfl, rfl, rfl⟩)
      | kEPUB3OPFStateMetadata =>
        simp only [hst, bind, Except.bind, pure, Except.pure] at h
        split at h
        · split at h
          · cases h
          · cases h; exact ⟨rfl, rfl, rfl, rfl⟩
        · exact metadata_frame h
      | kEPUB3OPFStateManifest =>
        simp only [hst, bind, Except.bind, pure, Except.pure] at h
        split at h
        · split at h
          · cases h
          · cases h; exact ⟨rfl, rfl, rfl, rfl⟩
        · refine manifest_frame ?_ h
          rintro ⟨h1, h2, h3⟩
          have : insertsItem st n = true :=
            insertsItem_iff.2 ⟨⟨top, rest, hs, hst⟩, h1, h2, h3⟩
          rw [hi] at this; cases this
      | kEPUB3OPFStateSpine =>
        simp only [hst, bind, Except.bind, pure, Except.pure] at h
        split at h
        · split at h
          · cases h
          · cases h; exact ⟨rfl, rfl, rfl, rfl⟩
        · refine spine_frame ?_ h
          rintro ⟨h1, h2, h3⟩
          have : appendsItemref st n = true :=
            appendsItemref_iff.2 ⟨⟨top, rest, hs, hst⟩, h1, h2, h3⟩
          rw [ha] at this; cases this
    · cases h; exact ⟨rfl, rfl, rfl, rfl⟩

theorem resolveIdref_live {cfg : HashConfig} {heap : ItemHeap} {m : EPUB3Manifest}
    (hinv : ManifestInv cfg heap m) {idref : Option String} {p : Nat}
    (h : resolveIdref cfg heap m idref = some p) :
    ∃ id, idref = some id ∧ p ∈ m.itemTable (cfg.bucket id) ∧ heap.idOf p = some id := by
  cases idref with
  | none => simp [resolveIdref] at h
  | some id =>
    simp only [resolveIdref, lookup_eq hinv] at h
    have hl : manifestLookup cfg heap m (some id) = .ok (some p) := by
      rw [lookup_eq hinv, h]
    exact ⟨id, rfl, lookup_some hinv hl⟩

theorem insertsItem_false_of_appends {st : OPFParse} {n : XMLNode}
    (ha : appendsItemref st n = true) : insertsItem st n = false := by
  obtain ⟨⟨top, rest, hs, ht⟩, _, _, _⟩ := appendsItemref_iff.1 ha
  cases hi : insertsItem st n with
  | false => rfl
  | true =>
    obtain ⟨⟨top', rest', hs', ht'⟩, _, _, _⟩ := insertsItem_iff.1 hi
    rw [hs] at hs'
    cases hs'
    rw [ht] at ht'
    cases ht'

/-- What one step of the parser does to the model, on a state that satisfies
    the invariant. -/
theorem step_inv {cfg : HashConfig} {st : OPFParse} {n : XMLNode} {e : EPUB3Error}
    {st' : OPFParse} (hinv : ParseInv cfg st)
    (h : EPUB3ParseXMLReaderNodeForOPF cfg st n = .ok (e, st')) :
    e = kEPUB3Success ∧ ParseInv cfg st' ∧ HeapStable st.heap st'.heap ∧
    (∀ m sp, st.epub.manifest = some m → st.epub.spine = some sp →
      ∃ sp', st'.epub.spine = some sp' ∧
        sp'.nodes.map (fun x => x.item) = sp.nodes.map (fun x => x.item) ++
          (if appendsItemref st n then [spineItemOf cfg st.heap m n] else []) ∧
        sp'.itemCount = sp.itemCount + (if appendsItemref st n then 1 else 0) ∧
        sp'.linearItemCount = sp.linearItemCount +
          (if appendsItemref st n = true ∧ itemrefIsLinear n = true then 1 else 0)) ∧
    (insertsItem st n = false →
      st'.heap = st.heap ∧ st'.epub.manifest = st.epub.manifest) := by
  obtain ⟨m, sp, hm, hsp, hminv, hwf, hlin, hcnt, hlive⟩ := hinv
  by_cases ha : appendsItemref st n = true
  · obtain ⟨sp', hstep, hwf', hitems, hcnt', hlin', _⟩ := step_itemref ha hm hsp hminv hwf
    rw [hstep] at h
    cases h
    have hlen : sp'.nodes.length = sp.nodes.length + 1 := by
      have := congrArg List.length hitems
      simpa using this
    refine ⟨rfl, ⟨m, sp', hm, rfl, hminv, hwf', ?_, ?_, ?_⟩, HeapStable.refl _, ?_,
      fun _ => ⟨rfl, rfl⟩⟩
    · rw [hlin', hitems, List.filter_append, List.length_append, hlin]
      cases hl : itemrefIsLinear n <;> simp [spineItemOf, hl]
    · rw [hcnt', hlen, hcnt]; simp
    · intro S hS p hp
      rw [hitems] at hS
      rcases List.mem_append.1 hS with h1 | h1
      · exact hlive S h1 p hp
      · simp only [List.mem_singleton] at h1
        subst h1
        obtain ⟨id, _, hmem, _⟩ := resolveIdref_live hminv hp
        obtain ⟨it, _, hl, _⟩ := hminv.1 _ p hmem
        exact ⟨it, hl⟩
    · intro m0 sp0 hm0 hsp0
      have e0 : sp0 = sp := by rw [hsp] at hsp0; exact (Option.some.inj hsp0).symm
      have e1 : m0 = m := by rw [hm] at hm0; exact (Option.some.inj hm0).symm
      subst e0 e1
      refine ⟨sp', rfl, by simp [ha, hitems], by simp [ha, hcnt'], ?_⟩
      rw [hlin']
      cases hl : itemrefIsLinear n <;> simp [ha]
  · have ha' : appendsItemref st n = false := by simpa using ha
    by_cases hi : insertsItem st n = true
    · obtain ⟨hnone, hsome⟩ := step_item hi hm hminv
      cases hid : xmlTextReaderGetAttribute n "id" with
      | none => rw [hnone hid] at h; cases h
      | some id =>
        obtain ⟨heap', m', hstep, _, hminv', hs', _, _⟩ := hsome id hid
        rw [hstep] at h
        cases h
        refine ⟨rfl, ⟨m', sp, rfl, hsp, hminv', hwf, hlin, hcnt, ?_⟩, hs', ?_,
          fun hf => by rw [hi] at hf; cases hf⟩
        · intro S hS p hp
          obtain ⟨it, hl⟩ := hlive S hS p hp
          obtain ⟨it', hl', _⟩ := hs' p it hl
          exact ⟨it', hl'⟩
        · intro m0 sp0 _ hsp0
          have e0 : sp0 = sp := by rw [hsp] at hsp0; exact (Option.some.inj hsp0).symm
          subst e0
          exact ⟨sp0, hsp, by simp [ha'], by simp [ha'], by simp [ha']⟩
    · have hi' : insertsItem st n = false := by simpa using hi
      obtain ⟨he, hh, hm', hsp'⟩ := step_other ha' hi' h
      refine ⟨he, ⟨m, sp, hm'.trans hm, hsp'.trans hsp, by rw [hh]; exact hminv, hwf, hlin, hcnt,
        by rw [hh]; exact hlive⟩, by rw [hh]; exact HeapStable.refl _, ?_, fun _ => ⟨hh, hm'⟩⟩
      intro m0 sp0 _ hsp0
      have e0 : sp0 = sp := by rw [hsp] at hsp0; exact (Option.some.inj hsp0).symm
      subst e0
      exact ⟨sp0, hsp'.trans hsp, by simp [ha'], by simp [ha'], by simp [ha']⟩

/-! ### Invariants of the parse loop -/

theorem ParseInv_start (cfg : HashConfig) (archive : Option unzFile) (path : Option String)
    (count : Nat) (heap : ItemHeap) (r : xmlTextReader) :
    ParseInv cfg (OPFParseStart (freshPublication archive path count) heap r) := by
  refine ⟨EPUB3ManifestCreate, EPUB3SpineCreate, rfl, rfl, ManifestInv_create cfg heap,
    SpineWF_create, by simp [EPUB3SpineCreate], by simp [EPUB3SpineCreate], ?_⟩
  intro S hS
  simp [EPUB3SpineCreate] at hS

/-- The invariant holds after any number of steps; the spine list grows by
    exactly the items of the processed `<itemref>` nodes. -/
theorem loop_inv (cfg : HashConfig) (evs : List XMLNode) :
    ∀ (st : OPFParse) (e0 e : EPUB3Error) (st' : OPFParse), ParseInv cfg st →
      EPUB3ParseLoop cfg st e0 evs = .ok (e, st') →
      ParseInv cfg st' ∧ HeapStable st.heap st'.heap ∧ (e0 = kEPUB3Success → e = kEPUB3Success) ∧
      ∀ sp sp', st.epub.spine = some sp → st'.epub.spine = some sp' →
        (sp'.nodes.map (fun x => x.item)).map (fun S => (S.idref, S.isLinear)) =
          (sp.nodes.map (fun x => x.item)).map (fun S => (S.idref, S.isLinear)) ++
            (processedItemrefs cfg st evs).map
              (fun n => (xmlTextReaderGetAttribute n "idref", itemrefIsLinear n)) := by
  induction evs with
  | nil =>
    intro st e0 e st' hinv h
    simp only [EPUB3ParseLoop] at h
    cases h
    refine ⟨hinv, HeapStable.refl _, id, ?_⟩
    intro sp sp' h1 h2
    rw [h1] at h2; cases h2
    simp [processedItemrefs]
  | cons n rest ih =>
    intro st e0 e st' hinv h
    simp only [EPUB3ParseLoop, bind, Except.bind] at h
    cases hstep : EPUB3ParseXMLReaderNodeForOPF cfg st n with
    | error f => rw [hstep] at h; cases h
    | ok r =>
      obtain ⟨e1, st1⟩ := r
      rw [hstep] at h
      simp only at h
      obtain ⟨he1, hinv1, hs1, hspine1, _⟩ := step_inv hinv hstep
      obtain ⟨hinv2, hs2, he2, hspine2⟩ := ih st1 e1 e st' hinv1 h
      refine ⟨hinv2, hs1.trans hs2, fun _ => he2 he1, ?_⟩
      intro sp sp' h1 h2
      obtain ⟨m, sp0, hm, hsp0, _⟩ := hinv
      obtain ⟨sp1, hsp1, hitems1, _, _⟩ := hspine1 m sp hm h1
      rw [hspine2 sp1 sp' hsp1 h2, hitems1]
      simp only [processedItemrefs, hstep, List.map_append, List.append_assoc]
      congr 1
      by_cases ha : appendsItemref st n = true
      · simp [ha, spineItemOf]
      · simp [ha]

/-- C6: starting from a freshly created spine, after any number of parser
    steps on any event stream, `linearItemCount` is the number of items in the
    spine list whose `isLinear` flag is set, and is at most `itemCount`. -/
theorem C6_linearItemCount_counts_linear_items (cfg : HashConfig) (archive : Option unzFile)
    (path : Option String) (count : Nat) (heap0 : ItemHeap) (r : xmlTextReader)
    (evs : List XMLNode) (e : EPUB3Error) (st : OPFParse)
    (h : EPUB3ParseLoop cfg (OPFParseStart (freshPublication archive path count) heap0 r)
      kEPUB3Success evs = .ok (e, st)) :
    ∃ sp items, st.epub.spine = some sp ∧ sp.items = .ok items ∧
      sp.linearItemCount = ((items.filter (fun S => S.isLinear)).length : Int) ∧
      sp.linearItemCount ≤ sp.itemCount := by
  obtain ⟨⟨m, sp, _, hsp, _, hwf, hlin, hcnt, _⟩, _⟩ :=
    loop_inv cfg evs _ _ _ _ (ParseInv_start cfg archive path count heap0 r) h
  refine ⟨sp, _, hsp, items_eq hwf, hlin, ?_⟩
  rw [hlin, hcnt]
  have := List.length_filter_le (fun S : EPUB3SpineItem => S.isLinear)
    (sp.nodes.map (fun x => x.item))
  simp only [List.length_map] at this
  exact_mod_cast this

/-- The hypothesis of C6 holds for scenario 2. -/
theorem C6_linearItemCount_counts_linear_items_witness :
    ∃ e st, EPUB3ParseLoop exampleConfig
        (OPFParseStart (freshPublication none none 0) [] ⟨scenario2, false⟩)
        kEPUB3Success scenario2 = .ok (e, st) ∧
      ∃ sp items, st.epub.spine = some sp ∧ sp.items = .ok items ∧
        sp.linearItemCount = ((items.filter (fun S => S.isLinear)).length : Int) ∧
        sp.linearItemCount ≤ sp.itemCount :=
  ⟨_, _, rfl, C6_linearItemCount_counts_linear_items exampleConfig none none 0 []
    ⟨scenario2, false⟩ scenario2 _ _ rfl⟩

/-- C5: after the parser has run over any event stream, traversing the spine
    from `head` along `next` yields one item per self-closing `<itemref>`
    processed in the Spine state, in the order of processing: the k-th item
    carries the `idref` and the linear flag of the k-th such node. -/
theorem C5_spine_order_is_itemref_order (cfg : HashConfig) (archive : Option unzFile)
    (path : Option String) (count : Nat) (heap0 : ItemHeap) (r : xmlTextReader)
    (evs : List XMLNode) (e : EPUB3Error) (st : OPFParse)
    (h : EPUB3ParseLoop cfg (OPFParseStart (freshPublication archive path count) heap0 r)
      kEPUB3Success evs = .ok (e, st)) :
    ∃ sp items, st.epub.spine = some sp ∧ sp.items = .ok items ∧
      items.map (fun S => (S.idref, S.isLinear)) =
        (processedItemrefs cfg (OPFParseStart (freshPublication archive path count) heap0 r) evs).map
          (fun n => (xmlTextReaderGetAttribute n "idref", itemrefIsLinear n)) := by
  obtain ⟨⟨m, sp, _, hsp, _, hwf, _, _, _⟩, _, _, hitems⟩ :=
    loop_inv cfg evs _ _ _ _ (ParseInv_start cfg archive path count heap0 r) h
  refine ⟨sp, _, hsp, items_eq hwf, ?_⟩
  have := hitems EPUB3SpineCreate sp rfl hsp
  simpa [EPUB3SpineCreate] using this

/-- The hypothesis of C5 holds for scenario 2. -/
theorem C5_spine_order_is_itemref_order_witness :
    ∃ e st, EPUB3ParseLoop exampleConfig
        (OPFParseStart (freshPublication none none 0) [] ⟨scenario2, false⟩)
        kEPUB3Success scenario2 = .ok (e, st) ∧
      ∃ sp items, st.epub.spine = some sp ∧ sp.items = .ok items ∧
        items.map (fun S => (S.idref, S.isLinear)) =
          (processedItemrefs exampleConfig
            (OPFParseStart (freshPublication none none 0) [] ⟨scenario2, false⟩) scenario2).map
            (fun n => (xmlTextReaderGetAttribute n "idref", itemrefIsLinear n)) :=
  ⟨_, _, rfl, C5_spine_order_is_itemref_order exampleConfig none none 0 []
    ⟨scenario2, false⟩ scenario2 _ _ rfl⟩

/-- C7: on any state the parser can reach, a self-closing `<itemref>` in the
    Spine state is appended as a new last spine item that is linear exactly
    when the `linear` attribute is absent or equals `yes`; `itemCount` grows by
    one, and `linearItemCount` is unchanged for a non-linear item (it grows by
    one for a linear item). -/
theorem C7_itemref_linear_flag (cfg : HashConfig) (archive : Option unzFile)
    (path : Option String) (count : Nat) (heap0 : ItemHeap) (r : xmlTextReader)
    (evs : List XMLNode) (e : EPUB3Error) (st : OPFParse) (n : XMLNode)
    (h : EPUB3ParseLoop cfg (OPFParseStart (freshPublication archive path count) heap0 r)
      kEPUB3Success evs = .ok (e, st))
    (hn : appendsItemref st n = true) :
    ∃ sp items st' sp' new,
      st.epub.spine = some sp ∧ sp.items = .ok items ∧
      EPUB3ParseXMLReaderNodeForOPF cfg st n = .ok (kEPUB3Success, st') ∧
      st'.epub.spine = some sp' ∧ sp'.items = .ok (items ++ [new]) ∧
      (new.isLinear = true ↔
        (xmlTextReaderGetAttribute n "linear" = none ∨
          xmlTextReaderGetAttribute n "linear" = some "yes")) ∧
      sp'.itemCount = sp.itemCount + 1 ∧
      (new.isLinear = false → sp'.linearItemCount = sp.linearItemCount) ∧
      (new.isLinear = true → sp'.linearItemCount = sp.linearItemCount + 1) := by
  obtain ⟨⟨m, sp, hm, hsp, hminv, hwf, _, _, _⟩, _⟩ :=
    loop_inv cfg evs _ _ _ _ (ParseInv_start cfg archive path count heap0 r) h
  obtain ⟨sp', hstep, hwf', hitems, hcnt', hlin', _⟩ := step_itemref hn hm hsp hminv hwf
  refine ⟨sp, _, _, sp', spineItemOf cfg st.heap m n, hsp, items_eq hwf, hstep, rfl,
    by rw [items_eq hwf', hitems], ?_, hcnt', ?_, ?_⟩
  · simp [spineItemOf, itemrefIsLinear]
  · intro hl
    have hl' : itemrefIsLinear n = false := hl
    rw [hlin', hl']; simp
  · intro hl
    have hl' : itemrefIsLinear n = true := hl
    rw [hlin', hl']; simp

/-- The hypotheses of C7 hold in scenario 2 at the `<itemref>` with `linear="no"`. -/
theorem C7_itemref_linear_flag_witness :
    ∃ e st, EPUB3ParseLoop exampleConfig
        (OPFParseStart (freshPublication none none 0) [] ⟨scenario2, false⟩)
        kEPUB3Success (scenario2.take 8) = .ok (e, st) ∧
      appendsItemref st nonLinearItemref = true ∧
      ∃ sp items st' sp' new,
        st.epub.spine = some sp ∧ sp.items = .ok items ∧
        EPUB3ParseXMLReaderNodeForOPF exampleConfig st nonLinearItemref
          = .ok (kEPUB3Success, st') ∧
        st'.epub.spine = some sp' ∧ sp'.items = .ok (items ++ [new]) ∧
        (new.isLinear = true ↔
          (xmlTextReaderGetAttribute nonLinearItemref "linear" = none ∨
            xmlTextReaderGetAttribute nonLinearItemref "linear" = some "yes")) ∧
        sp'.itemCount = sp.itemCount + 1 ∧
        (new.isLinear = false → sp'.linearItemCount = sp.linearItemCount) ∧
        (new.isLinear = true → sp'.linearItemCount = sp.linearItemCount + 1) :=
  ⟨_, _, rfl, rfl, C7_itemref_linear_flag exampleConfig none none 0 []
    ⟨scenario2, false⟩ (scenario2.take 8) _ _ nonLinearItemref rfl rfl⟩

theorem resolveIdref_none_of_absent {cfg : HashConfig} {heap : ItemHeap} {m : EPUB3Manifest}
    (hinv : ManifestInv cfg heap m) {id : String}
    (habs : ∀ b p, p ∈ m.itemTable b → heap.idOf p ≠ some id) :
    resolveIdref cfg heap m (some id) = none := by
  cases hr : resolveIdref cfg heap m (some id) with
  | none => rfl
  | some p =>
    obtain ⟨id', hid', hmem, hidp⟩ := resolveIdref_live hinv hr
    cases hid'
    exact absurd hidp (habs _ p hmem)

/-- C9: on any state the parser can reach, a self-closing `<itemref>` in the
    Spine state whose `idref` is missing, or is the identifier of no manifest
    item, is still appended as the new last spine item with a null
    `manifestItem`; `itemCount` grows by one and the step returns Success. -/
theorem C9_dangling_itemref_is_appended (cfg : HashConfig) (archive : Option unzFile)
    (path : Option String) (count : Nat) (heap0 : ItemHeap) (r : xmlTextReader)
    (evs : List XMLNode) (e : EPUB3Error) (st : OPFParse) (n : XMLNode)
    (h : EPUB3ParseLoop cfg (OPFParseStart (freshPublication archive path count) heap0 r)
      kEPUB3Success evs = .ok (e, st))
    (hn : appendsItemref st n = true)
    (hid : xmlTextReaderGetAttribute n "idref" = none ∨
      ∃ m id, st.epub.manifest = some m ∧ xmlTextReaderGetAttribute n "idref" = some id ∧
        ∀ b p, p ∈ m.itemTable b → st.heap.idOf p ≠ some id) :
    ∃ sp items st' sp' new,
      st.epub.spine = some sp ∧ sp.items = .ok items ∧
      EPUB3ParseXMLReaderNodeForOPF cfg st n = .ok (kEPUB3Success, st') ∧
      st'.epub.spine = some sp' ∧ sp'.items = .ok (items ++ [new]) ∧
      new.idref = xmlTextReaderGetAttribute n "idref" ∧ new.manifestItem = none ∧
      sp'.itemCount = sp.itemCount + 1 := by
  obtain ⟨⟨m, sp, hm, hsp, hminv, hwf, _, _, _⟩, _⟩ :=
    loop_inv cfg evs _ _ _ _ (ParseInv_start cfg archive path count heap0 r) h
  obtain ⟨sp', hstep, hwf', hitems, hcnt', _, _⟩ := step_itemref hn hm hsp hminv hwf
  refine ⟨sp, _, _, sp', spineItemOf cfg st.heap m n, hsp, items_eq hwf, hstep, rfl,
    by rw [items_eq hwf', hitems], rfl, ?_, hcnt'⟩
  rcases hid with hid | ⟨m0, id, hm0, hid, habs⟩
  · simp [spineItemOf, hid, resolveIdref]
  · have e0 : m0 = m := by rw [hm] at hm0; exact (Option.some.inj hm0).symm
    subst e0
    simp only [spineItemOf, hid]
    exact resolveIdref_none_of_absent hminv habs

/-- The hypotheses of C9 hold for an `<itemref>` whose `idref` names no manifest
    item. -/
theorem C9_dangling_itemref_is_appended_witness :
    ∃ e st, EPUB3ParseLoop exampleConfig
        (OPFParseStart (freshPublication none none 0) [] ⟨[], false⟩) kEPUB3Success spineOpened
          = .ok (e, st) ∧
      appendsItemref st danglingItemref = true ∧
      (xmlTextReaderGetAttribute danglingItemref "idref" = none ∨
        ∃ m id, st.epub.manifest = some m ∧
          xmlTextReaderGetAttribute danglingItemref "idref" = some id ∧
          ∀ b p, p ∈ m.itemTable b → st.heap.idOf p ≠ some id) ∧
      ∃ sp items st' sp' new,
        st.epub.spine = some sp ∧ sp.items = .ok items ∧
        EPUB3ParseXMLReaderNodeForOPF exampleConfig st danglingItemref
          = .ok (kEPUB3Success, st') ∧
        st'.epub.spine = some sp' ∧ sp'.items = .ok (items ++ [new]) ∧
        new.idref = xmlTextReaderGetAttribute danglingItemref "idref" ∧
        new.manifestItem = none ∧
        sp'.itemCount = sp.itemCount + 1 :=
  ⟨_, _, rfl, rfl,
    Or.inr ⟨_, "missing", rfl, rfl, fun _ _ hp => absurd hp (List.not_mem_nil _)⟩,
    C9_dangling_itemref_is_appended exampleConfig none none 0 [] ⟨[], false⟩ spineOpened _ _
      danglingItemref rfl rfl
      (Or.inr ⟨_, "missing", rfl, rfl, fun _ _ hp => absurd hp (List.not_mem_nil _)⟩)⟩

theorem getPaths_eq (heap : ItemHeap) (nodes : List EPUB3SpineItemListItem)
    (hnext : ∀ (i : Nat) (node : EPUB3SpineItemListItem), nodes[i]? = some node →
      node.next = if i + 1 < nodes.length then some (i + 1) else none)
    (hres : ∀ S ∈ nodes.map (fun x => x.item), S.isLinear = true →
      ∃ (p : Nat) (it : EPUB3ManifestItem), S.manifestItem = some p ∧
        heap[p]? = some (some it)) :
    ∀ (fuel k : Nat), nodes.length - k ≤ fuel →
      EPUB3GetPathsLoop heap nodes fuel (if k < nodes.length then some k else none) =
        .ok ((((nodes.drop k).map (fun x => x.item)).filter (fun S => S.isLinear)).map
          (fun S => S.manifestItem.bind heap.hrefOf)) := by
  intro fuel
  induction fuel with
  | zero =>
    intro k hk
    have : ¬ k < nodes.length := by omega
    simp only [this, if_false, EPUB3GetPathsLoop]
    rw [List.drop_eq_nil_of_le (by omega)]; rfl
  | succ f ih =>
    intro k hk
    by_cases hlt : k < nodes.length
    · simp only [hlt, if_true, EPUB3GetPathsLoop]
      have hk' : nodes[k]? = some nodes[k] := List.getElem?_eq_getElem hlt
      rw [hk']
      have hdrop : (nodes.drop k).map (fun x => x.item) =
          nodes[k].item :: (nodes.drop (k + 1)).map (fun x => x.item) := by
        rw [List.drop_eq_getElem_cons hlt]; rfl
      simp only [hnext k _ hk', ih (k + 1) (by omega)]
      rw [hdrop]
      by_cases hl : nodes[k].item.isLinear = true
      · have hmem : nodes[k].item ∈ nodes.map (fun x => x.item) :=
          List.mem_map.2 ⟨nodes[k], List.getElem_mem _, rfl⟩
        obtain ⟨p, it, hp, hlive⟩ := hres _ hmem hl
        have hh : heap.hrefOf p = it.href := by simp [ItemHeap.hrefOf, hlive]
        rw [List.filter_cons_of_pos hl, List.map_cons]
        simp only [hl, if_true, hp, deref_of_live hlive, bind, Except.bind, pure, Except.pure,
          Option.bind, hh]
      · rw [List.filter_cons_of_neg hl]
        simp only [hl, if_false, Bool.false_eq_true]
    · simp only [hlt, if_false, EPUB3GetPathsLoop]
      rw [List.drop_eq_nil_of_le (by omega)]; rfl

/-- C2: for the publication any OPF parse produces, if every linear spine
    item has a resolved manifest item then `EPUB3GetPathsOfSequentialResources`
    returns Success and writes exactly `EPUB3CountOfSequentialResources`
    entries, entry k being the href of the manifest item of the k-th linear
    spine item in spine order. -/
theorem C2_paths_of_sequential_resources (cfg : HashConfig) (archive : Option unzFile)
    (path : Option String) (count : Nat) (heap0 : ItemHeap) (r : xmlTextReader)
    (e : EPUB3Error) (epub : EPUB3) (heap : ItemHeap) (sp : EPUB3Spine)
    (items : List EPUB3SpineItem)
    (h : EPUB3ParseFromOPFData cfg (freshPublication archive path count) heap0 (some r)
      = .ok (e, epub, heap))
    (hsp : epub.spine = some sp) (hitems : sp.items = .ok items)
    (hres : ∀ S ∈ items, S.isLinear = true → S.manifestItem ≠ none) :
    ∃ written, EPUB3GetPathsOfSequentialResources heap epub = .ok (kEPUB3Success, written) ∧
      EPUB3CountOfSequentialResources epub = .ok (written.length : Int) ∧
      written = (items.filter (fun S => S.isLinear)).map
        (fun S => S.manifestItem.bind heap.hrefOf) := by
  simp only [EPUB3ParseFromOPFData, bind, Except.bind] at h
  cases hloop : EPUB3ParseLoop cfg (OPFParseStart (freshPublication archive path count) heap0 r)
      kEPUB3Success r.nodes with
  | error f => rw [hloop] at h; cases h
  | ok res =>
    obtain ⟨e1, st⟩ := res
    rw [hloop] at h
    have hst : epub = st.epub ∧ heap = st.heap := by
      simp only [pure, Except.pure] at h
      split at h <;> (cases h; exact ⟨rfl, rfl⟩)
    obtain ⟨rfl, rfl⟩ := hst
    obtain ⟨⟨m, sp0, _, hsp0, _, hwf, hlin, _, hlive⟩, _⟩ :=
      loop_inv cfg r.nodes _ _ _ _ (ParseInv_start cfg archive path count heap0 r) hloop
    have e0 : sp0 = sp := by rw [hsp] at hsp0; exact (Option.some.inj hsp0).symm
    subst e0
    have hi : items = sp0.nodes.map (fun x => x.item) := by
      rw [items_eq hwf] at hitems
      cases hitems; rfl
    subst hi
    have hres' : ∀ S ∈ sp0.nodes.map (fun x => x.item), S.isLinear = true →
        ∃ (p : Nat) (it : EPUB3ManifestItem), S.manifestItem = some p ∧
          st.heap[p]? = some (some it) := by
      intro S hS hl
      cases hp : S.manifestItem with
      | none => exact absurd hp (hres S hS hl)
      | some p =>
        obtain ⟨it, hit⟩ := hlive S hS p hp
        exact ⟨p, it, rfl, hit⟩
    have hpaths := getPaths_eq st.heap sp0.nodes hwf.2.2 hres' sp0.nodes.length 0 (by omega)
    refine ⟨_, ?_, ?_, rfl⟩
    · simp only [EPUB3GetPathsOfSequentialResources, hsp]
      by_cases hpos : sp0.linearItemCount > 0
      · have hne : sp0.nodes.length ≠ 0 := by
          intro h0
          have : sp0.nodes = [] := List.length_eq_zero.1 h0
          rw [this] at hlin
          simp at hlin
          omega
        have hlt : 0 < sp0.nodes.length := by omega
        simp only [hlt, if_true, List.drop_zero] at hpaths
        simp only [hpos, if_true, hwf.1, hne, if_false, hpaths, bind, Except.bind, pure,
          Except.pure]
      · have hz : ((sp0.nodes.map (fun x => x.item)).filter (fun S => S.isLinear)) = [] := by
          apply List.eq_nil_of_length_eq_zero
          have : sp0.linearItemCount ≥ 0 := by rw [hlin]; exact Int.natCast_nonneg _
          have h0 : sp0.linearItemCount = 0 := by omega
          rw [hlin] at h0
          exact_mod_cast h0
        simp only [hpos, if_false, hz, List.map_nil, pure, Except.pure]
    · simp only [EPUB3CountOfSequentialResources, hsp, hlin, List.length_map]

/-- The hypotheses of C2 hold for scenario 2. -/
theorem C2_paths_of_sequential_resources_witness :
    ∃ e epub heap sp items,
      EPUB3ParseFromOPFData exampleConfig (freshPublication none none 0) [] (some ⟨scenario2, false⟩)
        = .ok (e, epub, heap) ∧
      epub.spine = some sp ∧ sp.items = .ok items ∧
      (∀ S ∈ items, S.isLinear = true → S.manifestItem ≠ none) ∧
      ∃ written,
        EPUB3GetPathsOfSequentialResources heap epub = .ok (kEPUB3Success, written) ∧
        EPUB3CountOfSequentialResources epub = .ok (written.length : Int) ∧
        written = (items.filter (fun S => S.isLinear)).map
          (fun S => S.manifestItem.bind heap.hrefOf) :=
  ⟨_, _, _, _, _, rfl, rfl, rfl, by decide,
    C2_paths_of_sequential_resources exampleConfig none none 0 [] ⟨scenario2, false⟩ _ _ _ _ _
      rfl rfl rfl (by decide)⟩

/-- Scenario 2 evaluated: the paths written are the hrefs of a and c. -/
theorem scenario2_paths :
    (EPUB3ParseFromOPFData exampleConfig (freshPublication none none 0) [] (some ⟨scenario2, false⟩)
      >>= fun res => EPUB3GetPathsOfSequentialResources res.2.2 res.2.1) =
    .ok (kEPUB3Success, [some "a.xhtml", some "c.xhtml"]) := rfl

theorem resolveIdref_of_mem {cfg : HashConfig} {heap : ItemHeap} {m : EPUB3Manifest}
    (hinv : ManifestInv cfg heap m) {b p : Nat} {id : String}
    (hmem : p ∈ m.itemTable b) (hid : heap.idOf p = some id) :
    resolveIdref cfg heap m (some id) = some p := by
  obtain ⟨it, id', hl, _, hid', hb⟩ := hinv.1 b p hmem
  have e0 : id' = id := by
    have := idOf_eq_some.2 ⟨it, hl, hid'⟩
    rw [hid] at this
    exact (Option.some.inj this).symm
  subst e0
  subst hb
  obtain ⟨j, hj⟩ := List.mem_iff_getElem?.1 hmem
  have hj' : ((m.itemTable (cfg.bucket id')).map heap.idOf)[j]? = some (some id') := by
    rw [List.getElem?_map, hj]; simp [hid]
  have hin : some id' ∈ (m.itemTable (cfg.bucket id')).map heap.idOf :=
    List.mem_iff_getElem?.2 ⟨j, hj'⟩
  obtain ⟨i, hc⟩ := chainIndex_of_mem hin
  have hij : i = j := nodup_index_unique (hinv.2 _) (chainIndex_some hc) hj'
  subst hij
  simp [resolveIdref, lookup_eq hinv, hc, hj]

theorem resolved_loop (cfg : HashConfig) (evs : List XMLNode) :
    ∀ (seen : Bool) (st : OPFParse) (e0 e : EPUB3Error) (st' : OPFParse), ParseInv cfg st →
      (∀ m sp, st.epub.manifest = some m → st.epub.spine = some sp →
        (seen = false → sp.nodes = []) ∧
        SpineResolved st.heap m (sp.nodes.map (fun x => x.item))) →
      manifestBeforeSpine cfg seen st evs = true →
      EPUB3ParseLoop cfg st e0 evs = .ok (e, st') →
      ∀ m' sp', st'.epub.manifest = some m' → st'.epub.spine = some sp' →
        SpineResolved st'.heap m' (sp'.nodes.map (fun x => x.item)) := by
  induction evs with
  | nil =>
    intro seen st e0 e st' _ hres _ h m' sp' hm' hsp'
    simp only [EPUB3ParseLoop] at h
    cases h
    exact (hres m' sp' hm' hsp').2
  | cons n rest ih =>
    intro seen st e0 e st' hinv hres hord h
    simp only [EPUB3ParseLoop, bind, Except.bind] at h
    cases hstep : EPUB3ParseXMLReaderNodeForOPF cfg st n with
    | error f => rw [hstep] at h; cases h
    | ok r =>
      obtain ⟨e1, st1⟩ := r
      rw [hstep] at h
      simp only at h
      obtain ⟨_, hinv1, _, hspine1, hframe⟩ := step_inv hinv hstep
      obtain ⟨m, sp, hm, hsp, hminv, _⟩ := hinv
      obtain ⟨hempty, hresolved⟩ := hres m sp hm hsp
      obtain ⟨sp1, hsp1, hitems1, _, _⟩ := hspine1 m sp hm hsp
      simp only [manifestBeforeSpine, hstep] at hord
      by_cases hi : insertsItem st n = true
      · -- an insertion: only allowed while the spine is still empty
        have hseen : seen = false := by
          cases seen with
          | false => rfl
          | true => simp [hi] at hord
        subst hseen
        have ha : appendsItemref st n = false := by
          cases ha : appendsItemref st n with
          | false => rfl
          | true => rw [insertsItem_false_of_appends ha] at hi; cases hi
        simp only [hi, ha, Bool.false_and, Bool.false_eq_true, if_false, Bool.or_false] at hord
        have hnil : sp1.nodes = [] := by
          have := congrArg List.length hitems1
          simp [ha, hempty rfl] at this
          exact this
        refine ih false st1 e1 e st' hinv1 ?_ hord h
        intro m1 sp1' _ hsp1'
        have e0 : sp1' = sp1 := by rw [hsp1] at hsp1'; exact (Option.some.inj hsp1').symm
        subst e0
        refine ⟨fun _ => hnil, ?_⟩
        rw [hnil]
        intro S hS
        simp at hS
      · have hi' : insertsItem st n = false := by simpa using hi
        obtain ⟨hheap, hman⟩ := hframe hi'
        simp only [hi', Bool.and_false, Bool.false_eq_true, if_false] at hord
        refine ih (seen || appendsItemref st n) st1 e1 e st' hinv1 ?_ hord h
        intro m1 sp1' hm1 hsp1'
        have e0 : sp1' = sp1 := by rw [hsp1] at hsp1'; exact (Option.some.inj hsp1').symm
        subst e0
        have e1 : m1 = m := by
          rw [hman, hm] at hm1; exact (Option.some.inj hm1).symm
        subst e1
        constructor
        · intro hs
          have hseen : seen = false := by
            cases seen with
            | false => rfl
            | true => simp at hs
          have ha : appendsItemref st n = false := by
            cases ha : appendsItemref st n with
            | false => rfl
            | true => simp [ha] at hs
          have := congrArg List.length hitems1
          simp [ha, hempty hseen] at this
          exact this
        · rw [hheap, hitems1]
          intro S hS b p id hmem hid hidref
          rcases List.mem_append.1 hS with h1 | h1
          · exact hresolved S h1 b p id hmem hid hidref
          · by_cases ha : appendsItemref st n = true
            · simp only [ha, if_true, List.mem_singleton] at h1
              subst h1
              simp only [spineItemOf] at hidref ⊢
              rw [hidref]
              exact resolveIdref_of_mem hminv hmem hid
            · simp [ha] at h1

/-- C8 fails as stated: when `<spine>` precedes `<manifest>`, the parse ends
    with a spine item whose `idref` is the identifier of a manifest item but
    whose `manifestItem` is null. -/
theorem C8_counterexample_spine_before_manifest :
    ∃ e epub heap m sp items,
      EPUB3ParseFromOPFData exampleConfig (freshPublication none none 0) []
        (some ⟨spineBeforeManifest, false⟩) = .ok (e, epub, heap) ∧
      epub.manifest = some m ∧ epub.spine = some sp ∧ sp.items = .ok items ∧
      ¬ SpineResolved heap m items :=
  ⟨_, _, _, _, _, _, rfl, rfl, rfl, rfl, fun hres =>
    absurd (hres ⟨2, true, some "a", none⟩ (by decide) 1 0 "a" (by decide) (by decide) rfl)
      (by decide)⟩

/-- C8, amended: after any number of parser steps on an event stream in which
    no manifest item is inserted once the first spine item has been appended,
    every spine item whose `idref` is the identifier of an item in the manifest
    has that item as its `manifestItem`. -/
theorem C8_idref_resolved_when_manifest_first (cfg : HashConfig) (archive : Option unzFile)
    (path : Option String) (count : Nat) (heap0 : ItemHeap) (r : xmlTextReader)
    (evs : List XMLNode) (e : EPUB3Error) (st : OPFParse) (m : EPUB3Manifest)
    (sp : EPUB3Spine) (items : List EPUB3SpineItem)
    (h : EPUB3ParseLoop cfg (OPFParseStart (freshPublication archive path count) heap0 r)
      kEPUB3Success evs = .ok (e, st))
    (hord : manifestBeforeSpine cfg false
      (OPFParseStart (freshPublication archive path count) heap0 r) evs = true)
    (hm : st.epub.manifest = some m) (hsp : st.epub.spine = some sp)
    (hitems : sp.items = .ok items) :
    SpineResolved st.heap m items := by
  obtain ⟨⟨_, sp0, _, hsp0, _, hwf, _, _, _⟩, _⟩ :=
    loop_inv cfg evs _ _ _ _ (ParseInv_start cfg archive path count heap0 r) h
  have e0 : sp0 = sp := by rw [hsp] at hsp0; exact (Option.some.inj hsp0).symm
  subst e0
  have hi : items = sp0.nodes.map (fun x => x.item) := by
    rw [items_eq hwf] at hitems
    cases hitems; rfl
  subst hi
  refine resolved_loop cfg evs false _ _ _ _ (ParseInv_start cfg archive path count heap0 r)
    ?_ hord h m sp0 hm hsp
  intro m1 sp1 _ hsp1
  have e1 : sp1 = EPUB3SpineCreate := (Option.some.inj hsp1).symm
  subst e1
  refine ⟨fun _ => rfl, ?_⟩
  intro S hS
  simp [EPUB3SpineCreate] at hS

/-- The hypotheses of the amended C8 hold for scenario 2. -/
theorem C8_idref_resolved_when_manifest_first_witness :
    ∃ e st m sp items,
      EPUB3ParseLoop exampleConfig (OPFParseStart (freshPublication none none 0) [] ⟨scenario2, false⟩)
        kEPUB3Success scenario2 = .ok (e, st) ∧
      manifestBeforeSpine exampleConfig false
        (OPFParseStart (freshPublication none none 0) [] ⟨scenario2, false⟩) scenario2 = true ∧
      st.epub.manifest = some m ∧ st.epub.spine = some sp ∧ sp.items = .ok items ∧
      SpineResolved st.heap m items :=
  ⟨_, _, _, _, _, rfl, rfl, rfl, rfl, rfl,
    C8_idref_resolved_when_manifest_first exampleConfig none none 0 [] ⟨scenario2, false⟩
      scenario2 _ _ _ _ _ rfl rfl rfl rfl rfl⟩

/-! ### Metadata -/

/-- C1 at the failing input: an `<identifier>` without any attribute that
    follows the primary one replaces `Metadata.identifier`. -/
theorem C1_identifier_without_attributes_is_selected :
    (EPUB3ParseFromOPFData exampleConfig (freshPublication none none 0) []
        (some ⟨identifierWithoutAttributes, false⟩)
      >>= fun res => EPUB3CopyIdentifier res.2.1) = .ok (some "urn:isbn:other") := rfl

/-- The sibling path: an `<identifier>` that has attributes but no `id` is not
    selected. -/
theorem identifier_without_id_not_selected :
    (EPUB3ParseFromOPFData exampleConfig (freshPublication none none 0) []
        (some ⟨identifierWithoutId, false⟩)
      >>= fun res => EPUB3CopyIdentifier res.2.1) = .ok (some "urn:uuid:X") := rfl

theorem parseLoop_append (cfg : HashConfig) (xs ys : List XMLNode) :
    ∀ (st : OPFParse) (e : EPUB3Error),
      EPUB3ParseLoop cfg st e (xs ++ ys) =
        (EPUB3ParseLoop cfg st e xs >>= fun res => EPUB3ParseLoop cfg res.2 res.1 ys) := by
  induction xs with
  | nil => intro st e; rfl
  | cons x xs ih =>
    intro st e
    simp only [List.cons_append, EPUB3ParseLoop, bind, Except.bind]
    cases EPUB3ParseXMLReaderNodeForOPF cfg st x with
    | error f => rfl
    | ok r =>
      obtain ⟨e1, st1⟩ := r
      have := ih st1 e1
      simp only [bind, Except.bind] at this
      exact this

theorem loop_title (cfg : HashConfig) (epub : EPUB3) (heap : ItemHeap)
    (root : EPUB3OPFParseContext) (md : EPUB3Metadata) (e : EPUB3Error) (T : String) :
    EPUB3ParseLoop cfg (inMetadata epub heap root md) e (simpleElement "title" [] T) =
      .ok (kEPUB3Success, inMetadata epub heap root { md with title := some T }) := by
  simp [simpleElement, EPUB3ParseLoop, EPUB3ParseXMLReaderNodeForOPF, inMetadata, elementNode,
    textNode, endElementNode, EPUB3ProcessXMLReaderNodeForMetadataInOPF, xmlStrEqual,
    EPUB3SaveParseContext, EPUB3PopAndFreeParseContext, PARSE_CONTEXT_STACK_DEPTH,
    EPUB3MetadataSetTitle, EPUB3SetStringValue, bind, Except.bind, pure, Except.pure]


theorem loop_language (cfg : HashConfig) (epub : EPUB3) (heap : ItemHeap)
    (root : EPUB3OPFParseContext) (md : EPUB3Metadata) (e : EPUB3Error) (L : String) :
    EPUB3ParseLoop cfg (inMetadata epub heap root md) e (simpleElement "language" [] L) =
      .ok (kEPUB3Success, inMetadata epub heap root { md with language := some L }) := by
  simp [simpleElement, EPUB3ParseLoop, EPUB3ParseXMLReaderNodeForOPF, inMetadata, elementNode,
    textNode, endElementNode, EPUB3ProcessXMLReaderNodeForMetadataInOPF, xmlStrEqual,
    EPUB3SaveParseContext, EPUB3PopAndFreeParseContext, PARSE_CONTEXT_STACK_DEPTH,
    EPUB3MetadataSetLanguage, EPUB3SetStringValue, bind, Except.bind, pure, Except.pure]

theorem loop_identifier (cfg : HashConfig) (epub : EPUB3) (heap : ItemHeap)
    (root : EPUB3OPFParseContext) (md : EPUB3Metadata) (e : EPUB3Error) (U X : String)
    (hU : md._uniqueIdentifierID = some U) :
    EPUB3ParseLoop cfg (inMetadata epub heap root md) e
        (simpleElement "identifier" [("id", U)] X) =
      .ok (kEPUB3Success, inMetadata epub heap root { md with identifier := some X }) := by
  simp [simpleElement, EPUB3ParseLoop, EPUB3ParseXMLReaderNodeForOPF, inMetadata, elementNode,
    textNode, endElementNode, EPUB3ProcessXMLReaderNodeForMetadataInOPF, xmlStrEqual,
    EPUB3SaveParseContext, EPUB3PopAndFreeParseContext, PARSE_CONTEXT_STACK_DEPTH,
    EPUB3MetadataSetIdentifier, EPUB3SetStringValue, xmlTextReaderHasAttributes,
    xmlTextReaderGetAttribute, hU, bind, Except.bind, pure, Except.pure]

theorem loop_earlier (cfg : HashConfig) (epub : EPUB3) (heap : ItemHeap)
    (root : EPUB3OPFParseContext) (rest : List XMLNode) (earlier : List (Bool × String)) :
    ∀ (md : EPUB3Metadata) (e : EPUB3Error),
      ∃ md' : EPUB3Metadata, md'.identifier = md.identifier ∧
        EPUB3ParseLoop cfg (inMetadata epub heap root md) e
            ((earlier.map titleOrLanguage).flatten ++ rest) =
          EPUB3ParseLoop cfg (inMetadata epub heap root md')
            (if earlier = [] then e else kEPUB3Success) rest := by
  induction earlier with
  | nil => intro md e; exact ⟨md, rfl, rfl⟩
  | cons x xs ih =>
    intro md e
    obtain ⟨isTitle, text⟩ := x
    cases isTitle with
    | true =>
      obtain ⟨md', hid, hrun⟩ := ih { md with title := some text } kEPUB3Success
      refine ⟨md', hid, ?_⟩
      simp only [List.map_cons, List.flatten_cons, List.append_assoc, titleOrLanguage, if_true]
      rw [parseLoop_append, loop_title]
      simp only [bind, Except.bind, reduceCtorEq, if_false]
      rw [hrun]
      split <;> rfl
    | false =>
      obtain ⟨md', hid, hrun⟩ := ih { md with language := some text } kEPUB3Success
      refine ⟨md', hid, ?_⟩
      simp only [List.map_cons, List.flatten_cons, List.append_assoc, titleOrLanguage,
        Bool.false_eq_true, if_false]
      rw [parseLoop_append, loop_language]
      simp only [bind, Except.bind, reduceCtorEq, if_false]
      rw [hrun]
      split <;> rfl

theorem loop_head (cfg : HashConfig) (epub : EPUB3) (heap : ItemHeap) (r : xmlTextReader)
    (md : EPUB3Metadata) (hmd : epub.metadata = some md) (U : String) :
    EPUB3ParseLoop cfg (OPFParseStart epub heap r) kEPUB3Success
        [elementNode "package" [("unique-identifier", U)] false,
         elementNode "metadata" [] false] =
      .ok (kEPUB3Success, inMetadata epub heap (rootContext r)
        { md with _uniqueIdentifierID := some U }) := by
  simp [EPUB3ParseLoop, EPUB3ParseXMLReaderNodeForOPF, OPFParseStart, rootContext, inMetadata,
    elementNode, xmlStrEqual, xmlTextReaderHasAttributes, xmlTextReaderGetAttribute, hmd,
    EPUB3SaveParseContext, PARSE_CONTEXT_STACK_DEPTH, bind, Except.bind, pure, Except.pure]

theorem loop_tail (cfg : HashConfig) (epub : EPUB3) (heap : ItemHeap)
    (root : EPUB3OPFParseContext) (hroot : root.state = kEPUB3OPFStateRoot)
    (md : EPUB3Metadata) (e : EPUB3Error) :
    EPUB3ParseLoop cfg (inMetadata epub heap root md) e
        [endElementNode "metadata", elementNode "manifest" [] true,
         elementNode "spine" [] true, endElementNode "package"] =
      .ok (kEPUB3Success,
        { epub := { epub with metadata := some md }, heap := heap, contextStack := [root] }) := by
  simp [EPUB3ParseLoop, EPUB3ParseXMLReaderNodeForOPF, inMetadata, elementNode, endElementNode,
    xmlStrEqual, hroot, EPUB3ProcessXMLReaderNodeForManifestInOPF,
    EPUB3SaveParseContext, EPUB3PopAndFreeParseContext, PARSE_CONTEXT_STACK_DEPTH,
    bind, Except.bind, pure, Except.pure]

theorem loop_minimal (cfg : HashConfig) (archive : Option unzFile) (path : Option String)
    (count : Nat) (heap0 : ItemHeap) (r0 : xmlTextReader) (U X T L : String)
    (earlier : List (Bool × String)) :
    ∃ md' : EPUB3Metadata, md'.identifier = some X ∧
      EPUB3ParseLoop cfg (OPFParseStart (freshPublication archive path count) heap0 r0)
        kEPUB3Success (minimalOPF U X T L earlier) =
      .ok (kEPUB3Success,
        { epub := { freshPublication archive path count with
                    metadata := some { md' with title := some T, language := some L } },
          heap := heap0, contextStack := [rootContext r0] }) := by
  obtain ⟨md', hid, hrun⟩ := loop_earlier cfg (freshPublication archive path count) heap0
    (rootContext r0)
    (simpleElement "title" [] T ++ (simpleElement "language" [] L ++
      [endElementNode "metadata", elementNode "manifest" [] true, elementNode "spine" [] true,
       endElementNode "package"])) earlier
    { EPUB3MetadataCreate with _uniqueIdentifierID := some U, identifier := some X }
    kEPUB3Success
  refine ⟨md', hid, ?_⟩
  have h1 := loop_head cfg (freshPublication archive path count) heap0 r0 EPUB3MetadataCreate rfl U
  have h2 := loop_identifier cfg (freshPublication archive path count) heap0 (rootContext r0)
    { EPUB3MetadataCreate with _uniqueIdentifierID := some U } kEPUB3Success U X rfl
  have h3 := loop_title cfg (freshPublication archive path count) heap0 (rootContext r0) md'
    kEPUB3Success T
  have h4 := loop_language cfg (freshPublication archive path count) heap0 (rootContext r0)
    { md' with title := some T } kEPUB3Success L
  have h5 := loop_tail cfg (freshPublication archive path count) heap0 (rootContext r0) rfl
    { md' with title := some T, language := some L } kEPUB3Success
  have hif : (if earlier = [] then kEPUB3Success else kEPUB3Success) = kEPUB3Success := by
    split <;> rfl
  rw [hif] at hrun
  rw [minimalOPF, parseLoop_append, h1]
  simp only [bind, Except.bind]
  rw [parseLoop_append, h2]
  simp only [bind, Except.bind]
  rw [hrun, parseLoop_append, h3]
  simp only [bind, Except.bind]
  rw [parseLoop_append, h4]
  simp only [bind, Except.bind]
  exact h5

/-- C10: for the OPF of Scenario 1, with any unique-identifier `U`, identifier
    text `X`, title `T` and language `L`, and with any further `<title>` and
    `<language>` elements with text placed before the last ones, the parse
    returns Success and the publication has title `T`, identifier `X`,
    language `L` and no sequential resources. -/
theorem C10_minimal_opf_metadata (cfg : HashConfig) (archive : Option unzFile)
    (path : Option String) (count : Nat) (heap0 : ItemHeap) (U X T L : String)
    (earlier : List (Bool × String)) :
    ∃ epub heap,
      EPUB3ParseFromOPFData cfg (freshPublication archive path count) heap0
        (some ⟨minimalOPF U X T L earlier, false⟩) = .ok (kEPUB3Success, epub, heap) ∧
      EPUB3CopyTitle epub = .ok (some T) ∧
      EPUB3CopyIdentifier epub = .ok (some X) ∧
      EPUB3CopyLanguage epub = .ok (some L) ∧
      EPUB3CountOfSequentialResources epub = .ok 0 := by
  obtain ⟨md', hid, hloop⟩ := loop_minimal cfg archive path count heap0
    ⟨minimalOPF U X T L earlier, false⟩ U X T L earlier
  refine ⟨{ freshPublication archive path count with
              metadata := some { md' with title := some T, language := some L } },
    heap0, ?_, ?_, ?_, ?_, ?_⟩
  · simp only [EPUB3ParseFromOPFData, hloop, bind, Except.bind, pure, Except.pure,
      Bool.false_eq_true, if_false]
  · simp [EPUB3CopyTitle, EPUB3CopyStringValue]
  · simp [EPUB3CopyIdentifier, EPUB3CopyStringValue, hid]
  · simp [EPUB3CopyLanguage, EPUB3CopyStringValue]
  · simp [EPUB3CountOfSequentialResources, freshPublication, EPUB3InitFromOPFChildren,
      EPUB3Create, EPUB3SpineCreate]

/-- Scenario 1 evaluated. -/
theorem scenario1_metadata :
    (EPUB3ParseFromOPFData exampleConfig (freshPublication none none 0) []
        (some ⟨minimalOPF "pub-id" "urn:uuid:X" "Hello" "en" [], false⟩)
      >>= fun res => do
        let t ← EPUB3CopyTitle res.2.1
        let i ← EPUB3CopyIdentifier res.2.1
        let l ← EPUB3CopyLanguage res.2.1
        let c ← EPUB3CountOfSequentialResources res.2.1
        pure (res.1, t, i, l, c)) =
    .ok (kEPUB3Success, some "Hello", some "urn:uuid:X", some "en", 0) := rfl

/-! ### The container resolver -/

theorem isRootfileElement_iff (n : XMLNode) :
    isRootfileElement n = true ↔
      (n.nodeType = XML_READER_TYPE_ELEMENT ∧ xmlStrEqual n.localName (some "rootfile") = true) := by
  simp [isRootfileElement, xmlStrEqual]

theorem containerLoop_no_rootfile (readError : Bool) (error : EPUB3Error)
    (rootPath : Option String) (nodes : List XMLNode)
    (hno : ∀ x ∈ nodes, isRootfileElement x = false) :
    EPUB3ContainerLoop readError error rootPath nodes =
      (if readError then -1 else 0, false, error, rootPath) := by
  induction nodes with
  | nil => rfl
  | cons x xs ih =>
    have hx : ¬ (x.nodeType = XML_READER_TYPE_ELEMENT ∧
        xmlStrEqual x.localName (some "rootfile") = true) := by
      intro h
      have := (isRootfileElement_iff x).2 h
      rw [hno x (List.mem_cons_self _ _)] at this
      cases this
    simp only [EPUB3ContainerLoop, hx, if_false]
    exact ih (fun y hy => hno y (List.mem_cons_of_mem _ hy))

theorem containerLoop_first_rootfile (readError : Bool) (error : EPUB3Error)
    (rootPath : Option String) (pre post : List XMLNode) (n : XMLNode)
    (hpre : ∀ x ∈ pre, isRootfileElement x = false) (hn : isRootfileElement n = true) :
    EPUB3ContainerLoop readError error rootPath (pre ++ n :: post) =
      match xmlTextReaderGetAttribute n "full-path" with
      | some fullPath => (1, true, error, some fullPath)
      | none => (1, false, kEPUB3XMLXDocumentInvalidError, rootPath) := by
  induction pre with
  | nil =>
    have h := (isRootfileElement_iff n).1 hn
    simp only [List.nil_append, EPUB3ContainerLoop, h, and_self, if_true]
  | cons x xs ih =>
    have hx : ¬ (x.nodeType = XML_READER_TYPE_ELEMENT ∧
        xmlStrEqual x.localName (some "rootfile") = true) := by
      intro h
      have := (isRootfileElement_iff x).2 h
      rw [hpre x (List.mem_cons_self _ _)] at this
      cases this
    simp only [List.cons_append, EPUB3ContainerLoop, hx, if_false]
    exact ih (fun y hy => hpre y (List.mem_cons_of_mem _ hy))

/-- The resolver once the container document has been read and a reader
    obtained for it. -/
theorem resolver_with_reader {lib : LibXML2} {epub : EPUB3} {rootPath : Option String}
    {buffer : Option (List Nat)} {bufferSize : Nat} {reader : xmlTextReader}
    (hbuf : EPUB3CopyFileIntoBuffer epub none 0 (some "META-INF/container.xml")
      = .ok (kEPUB3Success, buffer, bufferSize))
    (hreader : lib.xmlReaderForMemory buffer bufferSize (some "") XML_PARSE_RECOVER
      = some reader) :
    EPUB3CopyRootFilePathFromContainer lib epub rootPath =
      .ok ((if !(EPUB3ContainerLoop reader.readError kEPUB3Success rootPath reader.nodes).2.1
            then kEPUB3XMLXElementNotFoundError
            else if (EPUB3ContainerLoop reader.readError kEPUB3Success rootPath reader.nodes).1 < 0
            then kEPUB3XMLParseError
            else (EPUB3ContainerLoop reader.readError kEPUB3Success rootPath reader.nodes).2.2.1),
           (EPUB3ContainerLoop reader.readError kEPUB3Success rootPath reader.nodes).2.2.2) := by
  cases ha : epub.archive with
  | none =>
    simp [EPUB3CopyFileIntoBuffer, ha] at hbuf
  | some a =>
    simp only [EPUB3CopyRootFilePathFromContainer, ha, hbuf, hreader, bind, Except.bind, pure,
      Except.pure, if_true]

/-- Reading the container document of the example archive succeeds. -/
theorem example_container_read :
    EPUB3CopyFileIntoBuffer examplePublication none 0 (some "META-INF/container.xml")
      = .ok (kEPUB3Success, some ("<container/>".toList.map Char.toNat), 12) := by
  rfl

/-- For every input whose first `rootfile` element-start has no `full-path`
    the resolver returns `kEPUB3XMLXElementNotFoundError`: the assignment of
    `kEPUB3XMLXDocumentInvalidError` inside the loop is overwritten after it. -/
theorem resolver_rootfile_without_full_path (lib : LibXML2) (epub : EPUB3)
    (rootPath : Option String) (buffer : Option (List Nat)) (bufferSize : Nat)
    (reader : xmlTextReader) (pre post : List XMLNode) (n : XMLNode)
    (hbuf : EPUB3CopyFileIntoBuffer epub none 0 (some "META-INF/container.xml")
      = .ok (kEPUB3Success, buffer, bufferSize))
    (hreader : lib.xmlReaderForMemory buffer bufferSize (some "") XML_PARSE_RECOVER
      = some reader)
    (hnodes : reader.nodes = pre ++ n :: post)
    (hpre : ∀ x ∈ pre, isRootfileElement x = false)
    (hn : isRootfileElement n = true)
    (hp : xmlTextReaderGetAttribute n "full-path" = none) :
    EPUB3CopyRootFilePathFromContainer lib epub rootPath
      = .ok (kEPUB3XMLXElementNotFoundError, rootPath) := by
  rw [resolver_with_reader hbuf hreader, hnodes,
    containerLoop_first_rootfile _ _ _ pre post n hpre hn, hp]
  rfl

/-- Claim C11 (the code departs from it): the first `rootfile` of the container
    document has no `full-path` attribute, and `EPUB3CopyRootFilePathFromContainer`
    returns `kEPUB3XMLXElementNotFoundError`, not `kEPUB3XMLXDocumentInvalidError`. -/
theorem C11_rootfile_without_full_path_reports_element_not_found :
    EPUB3CopyRootFilePathFromContainer (readerLib ⟨containerWithoutFullPath, false⟩)
        examplePublication none
      = .ok (kEPUB3XMLXElementNotFoundError, none)
    ∧ (EPUB3ContainerLoop false kEPUB3Success none containerWithoutFullPath).2.2.1
      = kEPUB3XMLXDocumentInvalidError := by
  exact ⟨rfl, rfl⟩

/-- Claim C12: when the reader for `META-INF/container.xml` ends without error
    and delivers no element-start named `rootfile`,
    `EPUB3CopyRootFilePathFromContainer` returns `kEPUB3XMLXElementNotFoundError`
    and the output path keeps the value it had before the call. -/
theorem C12_no_rootfile_is_element_not_found (lib : LibXML2) (epub : EPUB3)
    (rootPath : Option String) (buffer : Option (List Nat)) (bufferSize : Nat)
    (reader : xmlTextReader)
    (hbuf : EPUB3CopyFileIntoBuffer epub none 0 (some "META-INF/container.xml")
      = .ok (kEPUB3Success, buffer, bufferSize))
    (hreader : lib.xmlReaderForMemory buffer bufferSize (some "") XML_PARSE_RECOVER
      = some reader)
    (hend : reader.readError = false)
    (hno : ∀ x ∈ reader.nodes, isRootfileElement x = false) :
    EPUB3CopyRootFilePathFromContainer lib epub rootPath
      = .ok (kEPUB3XMLXElementNotFoundError, rootPath) := by
  rw [resolver_with_reader hbuf hreader, containerLoop_no_rootfile _ _ _ _ hno, hend]
  rfl

/-- The hypotheses of C12 hold for a container document without `rootfile`. -/
theorem C12_no_rootfile_is_element_not_found_witness :
    EPUB3CopyRootFilePathFromContainer (readerLib ⟨containerWithoutRootfile, false⟩)
        examplePublication none
      = .ok (kEPUB3XMLXElementNotFoundError, none) :=
  C12_no_rootfile_is_element_not_found (readerLib ⟨containerWithoutRootfile, false⟩)
    examplePublication none (some ("<container/>".toList.map Char.toNat)) 12
    ⟨containerWithoutRootfile, false⟩ rfl rfl rfl (by decide)

/-- Claim C13: when the first element-start named `rootfile` delivered by the
    reader has a `full-path` attribute with value `p`,
    `EPUB3CopyRootFilePathFromContainer` returns `kEPUB3Success` with output
    path `p`, whatever nodes follow and however the reader would have ended. -/
theorem C13_first_rootfile_full_path_wins (lib : LibXML2) (epub : EPUB3)
    (rootPath : Option String) (buffer : Option (List Nat)) (bufferSize : Nat)
    (reader : xmlTextReader) (pre post : List XMLNode) (n : XMLNode) (p : String)
    (hbuf : EPUB3CopyFileIntoBuffer epub none 0 (some "META-INF/container.xml")
      = .ok (kEPUB3Success, buffer, bufferSize))
    (hreader : lib.xmlReaderForMemory buffer bufferSize (some "") XML_PARSE_RECOVER
      = some reader)
    (hnodes : reader.nodes = pre ++ n :: post)
    (hpre : ∀ x ∈ pre, isRootfileElement x = false)
    (hn : isRootfileElement n = true)
    (hp : xmlTextReaderGetAttribute n "full-path" = some p) :
    EPUB3CopyRootFilePathFromContainer lib epub rootPath = .ok (kEPUB3Success, some p) := by
  rw [resolver_with_reader hbuf hreader, hnodes,
    containerLoop_first_rootfile _ _ _ pre post n hpre hn, hp]
  rfl

/-- The hypotheses of C13 hold for a container document with two `rootfile`
    elements and a reader that would end with an error. -/
theorem C13_first_rootfile_full_path_wins_witness :
    EPUB3CopyRootFilePathFromContainer (readerLib ⟨containerWithRootfile, true⟩)
        examplePublication none
      = .ok (kEPUB3Success, some "OEBPS/content.opf") :=
  C13_first_rootfile_full_path_wins (readerLib ⟨containerWithRootfile, true⟩)
    examplePublication none (some ("<container/>".toList.map Char.toNat)) 12
    ⟨containerWithRootfile, true⟩
    [elementNode "container" [("version", "1.0")] false, elementNode "rootfiles" [] false]
    [elementNode "rootfile" [("full-path", "OEBPS/other.opf")] true,
      endElementNode "rootfiles", endElementNode "container"]
    (elementNode "rootfile" [("full-path", "OEBPS/content.opf")] true)
    "OEBPS/content.opf" rfl rfl rfl (by decide) (by decide) rfl

/-- For every input on which the reader ends with an error before any
    `rootfile` element-start, the resolver returns
    `kEPUB3XMLXElementNotFoundError`: `kEPUB3XMLParseError` is assigned and then
    overwritten. -/
theorem resolver_reader_error (lib : LibXML2) (epub : EPUB3)
    (rootPath : Option String) (buffer : Option (List Nat)) (bufferSize : Nat)
    (reader : xmlTextReader)
    (hbuf : EPUB3CopyFileIntoBuffer epub none 0 (some "META-INF/container.xml")
      = .ok (kEPUB3Success, buffer, bufferSize))
    (hreader : lib.xmlReaderForMemory buffer bufferSize (some "") XML_PARSE_RECOVER
      = some reader)
    (herr : reader.readError = true)
    (hno : ∀ x ∈ reader.nodes, isRootfileElement x = false) :
    (EPUB3ContainerLoop reader.readError kEPUB3Success rootPath reader.nodes).1 < 0
    ∧ EPUB3CopyRootFilePathFromContainer lib epub rootPath
      = .ok (kEPUB3XMLXElementNotFoundError, rootPath) := by
  rw [resolver_with_reader hbuf hreader, containerLoop_no_rootfile _ _ _ _ hno, herr]
  exact ⟨by simp, rfl⟩

/-- Claim C14 (the code departs from it): the reader for the container document
    ends with an error (the last read result is negative), and
    `EPUB3CopyRootFilePathFromContainer` returns `kEPUB3XMLXElementNotFoundError`,
    not `kEPUB3XMLParseError`. -/
theorem C14_reader_error_reports_element_not_found :
    (EPUB3ContainerLoop true kEPUB3Success none
        [elementNode "container" [("version", "1.0")] false]).1 = -1
    ∧ EPUB3CopyRootFilePathFromContainer
        (readerLib ⟨[elementNode "container" [("version", "1.0")] false], true⟩)
        examplePublication none
      = .ok (kEPUB3XMLXElementNotFoundError, none) := by
  exact ⟨rfl, rfl⟩

/-! ### Initialisation after the resolver -/

/-- The scan of the container document either finds a path, with read result 1
    and the error untouched, or leaves the output path as it was. -/
theorem containerLoop_cases (readError : Bool) (error : EPUB3Error)
    (rootPath : Option String) (nodes : List XMLNode) :
    (∃ p, EPUB3ContainerLoop readError error rootPath nodes = (1, true, error, some p))
    ∨ (∃ r e, EPUB3ContainerLoop readError error rootPath nodes = (r, false, e, rootPath)) := by
  induction nodes with
  | nil => exact Or.inr ⟨_, _, rfl⟩
  | cons x xs ih =>
    by_cases hx : x.nodeType = XML_READER_TYPE_ELEMENT ∧
        xmlStrEqual x.localName (some "rootfile") = true
    · cases hp : xmlTextReaderGetAttribute x "full-path" with
      | none =>
        refine Or.inr ⟨1, kEPUB3XMLXDocumentInvalidError, ?_⟩
        simp only [EPUB3ContainerLoop, hx, and_self, if_true, hp]
      | some p =>
        refine Or.inl ⟨p, ?_⟩
        simp only [EPUB3ContainerLoop, hx, and_self, if_true, hp]
    · simp only [EPUB3ContainerLoop, hx, if_false]
      exact ih

/-- Reading a named file never faults. -/
theorem copyFileIntoBuffer_ok (epub : EPUB3) (buffer : Option (List Nat)) (bufferSize : Nat)
    (filename : String) :
    ∃ r, EPUB3CopyFileIntoBuffer epub buffer bufferSize (some filename) = .ok r := by
  unfold EPUB3CopyFileIntoBuffer EPUB3GetUncompressedSizeOfFileInArchive
    EPUB3ValidateFileExistsAndSeekInArchive
  cases epub.archive with
  | none => exact ⟨_, rfl⟩
  | some a =>
    simp only [bind, Except.bind, pure, Except.pure]
    cases hl : unzLocateFile a filename with
    | none => exact ⟨_, rfl⟩
    | some e =>
      cases hi : e.infoOK <;> cases ho : e.opens <;> cases hr : e.readOK <;>
        simp [unzReadCurrentFile, hi, ho, hr]

/-- The resolver never faults. -/
theorem resolver_ok (lib : LibXML2) (epub : EPUB3) (rootPath : Option String) :
    ∃ r, EPUB3CopyRootFilePathFromContainer lib epub rootPath = .ok r := by
  unfold EPUB3CopyRootFilePathFromContainer
  cases epub.archive with
  | none => exact ⟨_, rfl⟩
  | some a =>
    obtain ⟨⟨error, buffer, bufferSize⟩, hr⟩ :=
      copyFileIntoBuffer_ok epub none 0 "META-INF/container.xml"
    simp only [hr, bind, Except.bind, pure, Except.pure]
    by_cases he : error = kEPUB3Success
    · simp only [he, if_true]
      cases lib.xmlReaderForMemory buffer bufferSize (some "") XML_PARSE_RECOVER with
      | none => exact ⟨_, rfl⟩
      | some reader => exact ⟨_, rfl⟩
    · simp only [he, if_false]
      exact ⟨_, rfl⟩

/-- A resolver that was handed a `NULL` output path and did not succeed leaves
    the output path `NULL`. -/
theorem resolver_failure_path (lib : LibXML2) (epub : EPUB3) (error : EPUB3Error)
    (opfPath : Option String)
    (h : EPUB3CopyRootFilePathFromContainer lib epub none = .ok (error, opfPath))
    (hE : error ≠ kEPUB3Success) : opfPath = none := by
  have h0 := h
  unfold EPUB3CopyRootFilePathFromContainer at h
  cases ha : epub.archive with
  | none =>
    rw [ha] at h
    cases h
    rfl
  | some a =>
    rw [ha] at h
    obtain ⟨⟨e0, buffer, bufferSize⟩, hr⟩ :=
      copyFileIntoBuffer_ok epub none 0 "META-INF/container.xml"
    simp only [hr, bind, Except.bind, pure, Except.pure] at h
    by_cases he : e0 = kEPUB3Success
    · subst he
      simp only [if_true] at h
      cases hl : lib.xmlReaderForMemory buffer bufferSize (some "") XML_PARSE_RECOVER with
      | none =>
        rw [hl] at h
        cases h
        rfl
      | some reader =>
        rw [resolver_with_reader hr hl] at h0
        rcases containerLoop_cases reader.readError kEPUB3Success none reader.nodes with
          ⟨p, hp⟩ | ⟨r, e, hp⟩
        · rw [hp] at h0
          simp only [Except.ok.injEq, Prod.mk.injEq] at h0
          exact absurd h0.1.symm (by simpa using hE)
        · rw [hp] at h0
          simp only [Except.ok.injEq, Prod.mk.injEq] at h0
          exact h0.2.symm
    · simp only [he, if_false] at h
      cases h
      rfl

/-- Whenever the resolver does not succeed, `EPUB3InitAndValidate` goes on to
    call `EPUB3InitFromOPF` with a `NULL` file name and stops at the assertion
    `opfFilename != NULL`; the error of the resolver is not returned. -/
theorem initAndValidate_after_resolver_failure (lib : LibXML2) (cfg : HashConfig)
    (epub : EPUB3) (heap : ItemHeap) (error : EPUB3Error) (opfPath : Option String)
    (h : EPUB3CopyRootFilePathFromContainer lib epub none = .ok (error, opfPath))
    (hE : error ≠ kEPUB3Success) :
    EPUB3InitAndValidate lib cfg epub heap = .error Fault.assertion := by
  have hp := resolver_failure_path lib epub error opfPath h hE
  subst hp
  simp only [EPUB3InitAndValidate, h, bind, Except.bind, EPUB3InitFromOPF]

/-- Claim C15 (the code departs from it): the container document has no
    `rootfile`, the resolver fails with `kEPUB3XMLXElementNotFoundError`, and
    `EPUB3InitAndValidate` does not return that error: it calls
    `EPUB3InitFromOPF` with a `NULL` file name, which fails the assertion
    `opfFilename != NULL`. -/
theorem C15_resolver_failure_is_not_returned :
    EPUB3CopyRootFilePathFromContainer (readerLib ⟨containerWithoutRootfile, false⟩)
        examplePublication none
      = .ok (kEPUB3XMLXElementNotFoundError, none)
    ∧ EPUB3InitFromOPF (readerLib ⟨containerWithoutRootfile, false⟩) exampleConfig
        examplePublication [] none = .error Fault.assertion
    ∧ EPUB3InitAndValidate (readerLib ⟨containerWithoutRootfile, false⟩) exampleConfig
        examplePublication [] = .error Fault.assertion := by
  exact ⟨rfl, rfl, rfl⟩

/-! ### Mimetype validation -/

/-- On two byte strings of length `n`, the first without a NUL, the test
    `strncmp(a, b, n) == 0` holds exactly when they are equal. -/
theorem strncmpEqual_iff (n : Nat) : ∀ (a b : List Nat), a.length = n → b.length = n →
    (0 ∉ a) → (strncmpEqual a b n = true ↔ a = b) := by
  induction n with
  | zero =>
    intro a b ha hb _
    rw [List.length_eq_zero] at ha hb
    subst ha
    subst hb
    simp [strncmpEqual]
  | succ n ih =>
    intro a b ha hb h0
    cases a with
    | nil => cases ha
    | cons x xs =>
      cases b with
      | nil => cases hb
      | cons y ys =>
        have hx : x ≠ 0 := fun h => h0 (h ▸ List.mem_cons_self _ _)
        have hxs : 0 ∉ xs := fun h => h0 (List.mem_cons_of_mem _ h)
        have hl : xs.length = n := by simpa using ha
        have hl2 : ys.length = n := by simpa using hb
        by_cases hxy : x = y
        · subst hxy
          simp only [strncmpEqual, if_true, hx, if_false, ih xs ys hl hl2 hxs,
            List.cons.injEq, true_and]
        · simp [strncmpEqual, hxy]

theorem requiredMimetype_length : requiredMimetype.length = 20 := by
  rfl

theorem requiredMimetype_no_nul : 0 ∉ requiredMimetype := by
  decide

/-- The two tests of `EPUB3ValidateMimetype` on the bytes read amount to
    equality with the literal. -/
theorem mimetype_tests_iff (buffer : List Nat) :
    (buffer.length = requiredMimetype.length ∧
      strncmpEqual requiredMimetype buffer requiredMimetype.length = true)
    ↔ buffer = requiredMimetype := by
  constructor
  · rintro ⟨hl, hs⟩
    exact ((strncmpEqual_iff _ _ _ rfl hl requiredMimetype_no_nul).1 hs).symm
  · intro h
    subst h
    exact ⟨rfl, (strncmpEqual_iff _ _ _ rfl rfl requiredMimetype_no_nul).2 rfl⟩

/-- Claim C16: with no archive handle `EPUB3ValidateMimetype` returns
    `kEPUB3ArchiveUnavailableError`; with an open archive it returns
    `kEPUB3Success` exactly when the first entry can be read and its first 20
    bytes equal the literal `application/epub+zip`, and
    `kEPUB3InvalidMimetypeError` otherwise, as for a first entry holding
    `application/zip` or fewer than 20 bytes. -/
theorem C16_validate_mimetype :
    (∀ epub : EPUB3, EPUB3ValidateMimetype epub =
      match epub.archive with
      | none => kEPUB3ArchiveUnavailableError
      | some archive =>
        if firstEntryIsMimetype archive = true then kEPUB3Success
        else kEPUB3InvalidMimetypeError)
    ∧ EPUB3ValidateMimetype (publicationWithFirstEntry "application/epub+zip") = kEPUB3Success
    ∧ EPUB3ValidateMimetype (publicationWithFirstEntry "application/zip")
        = kEPUB3InvalidMimetypeError
    ∧ EPUB3ValidateMimetype (publicationWithFirstEntry "application/epub")
        = kEPUB3InvalidMimetypeError := by
  refine ⟨?_, rfl, rfl, rfl⟩
  intro epub
  unfold EPUB3ValidateMimetype firstEntryIsMimetype unzGoToFirstFile
  cases epub.archive with
  | none => rfl
  | some archive =>
    simp only []
    cases archive.entries.head? with
    | none => rfl
    | some entry =>
      simp only []
      by_cases ho : entry.opens = true
      · by_cases hr : entry.readOK = true
        · have h := mimetype_tests_iff (entry.contents.take 20)
          rw [requiredMimetype_length] at h
          by_cases hb : entry.contents.take 20 = requiredMimetype
          · have h2 := h.2 hb
            rw [hb] at h2
            simp only [unzReadCurrentFile, ho, hr, if_true, requiredMimetype_length, h2.1, h2.2,
              hb, Bool.true_and, decide_True]
          · have h2 : ¬ ((List.take 20 entry.contents).length = 20 ∧
                strncmpEqual requiredMimetype (List.take 20 entry.contents) 20 = true) :=
              fun hh => hb (h.1 hh)
            simp only [unzReadCurrentFile, ho, hr, if_true, requiredMimetype_length, hb,
              Bool.true_and, decide_False, Bool.false_eq_true, if_false]
            by_cases hl : (List.take 20 entry.contents).length = 20
            · have h3 : strncmpEqual requiredMimetype (List.take 20 entry.contents) 20 ≠ true :=
                fun hh => h2 ⟨hl, hh⟩
              simp only [hl, if_true, h3, if_false, Bool.false_eq_true]
            · simp only [hl, if_false]
        · simp [unzReadCurrentFile, ho, hr]
      · simp [ho]

/-! ### Items without id, properties, and empty elements -/

/-- For every state the parser reaches, an `<item>` without `id` met in the
    Manifest state stops the parser at the assertion `item->itemId != NULL` of
    `EPUB3ManifestInsertItem`. -/
theorem item_without_id_asserts (cfg : HashConfig) (archive : Option unzFile)
    (path : Option String) (count : Nat) (heap0 : ItemHeap) (r : xmlTextReader)
    (evs : List XMLNode) (e : EPUB3Error) (st : OPFParse) (n : XMLNode)
    (h : EPUB3ParseLoop cfg (OPFParseStart (freshPublication archive path count) heap0 r)
      kEPUB3Success evs = .ok (e, st))
    (hi : insertsItem st n = true)
    (hid : xmlTextReaderGetAttribute n "id" = none) :
    EPUB3ParseXMLReaderNodeForOPF cfg st n = .error Fault.assertion := by
  obtain ⟨⟨m, _, hm, _, hinv, _⟩, _⟩ :=
    loop_inv cfg evs _ _ _ _ (ParseInv_start cfg archive path count heap0 r) h
  exact (step_item hi hm hinv).1 hid

/-- Claim C17 (the code departs from it): a self-closing `<item>` without `id`
    met in the Manifest state is not skipped. The parser step stops at the
    assertion `item->itemId != NULL` of `EPUB3ManifestInsertItem`, and so does
    the parse of a whole document that holds such an item. -/
theorem C17_item_without_id_fails_assertion :
    (∃ st, EPUB3ParseLoop exampleConfig parseStart kEPUB3Success manifestOpened
        = .ok (kEPUB3Success, st)
      ∧ insertsItem st itemWithoutId = true
      ∧ xmlTextReaderGetAttribute itemWithoutId "id" = none
      ∧ EPUB3ParseXMLReaderNodeForOPF exampleConfig st itemWithoutId = .error Fault.assertion)
    ∧ EPUB3ParseFromOPFData exampleConfig (freshPublication none none 0) []
        (some ⟨manifestOpened ++ [itemWithoutId, endElementNode "manifest",
          endElementNode "package"], false⟩) = .error Fault.assertion := by
  exact ⟨⟨_, rfl, rfl, rfl, rfl⟩, rfl⟩

/-- In the states Metadata, Manifest and Spine a self-closing element never
    pushes: a step that returns leaves the context stack as it was. -/
theorem empty_element_keeps_stack_outside_root (cfg : HashConfig) (st st' : OPFParse)
    (n : XMLNode) (e : EPUB3Error)
    (hn : n.nodeType = XML_READER_TYPE_ELEMENT) (hempty : n.isEmptyElement = true)
    (hstate : st.state? ≠ some kEPUB3OPFStateRoot)
    (h : EPUB3ParseXMLReaderNodeForOPF cfg st n = .ok (e, st')) :
    st'.contextStack = st.contextStack := by
  unfold EPUB3ParseXMLReaderNodeForOPF at h
  cases hs : st.contextStack with
  | nil =>
    rw [hs] at h
    cases h
  | cons top rest =>
    rw [hs] at h
    simp only [] at h
    by_cases hname : n.localName ≠ none ∧ n.nodeType ≠ XML_READER_TYPE_COMMENT
    · rw [if_pos hname] at h
      cases ht : top.state with
      | kEPUB3OPFStateRoot =>
        exact absurd (by simp [OPFParse.state?, hs, ht]) hstate
      | kEPUB3OPFStateMetadata =>
        simp only [ht, hn, false_and, if_false, EPUB3ProcessXMLReaderNodeForMetadataInOPF,
          hempty, Bool.not_true, Bool.false_eq_true, pure, Except.pure, Except.ok.injEq,
          Prod.mk.injEq, reduceCtorEq] at h
        rw [← h.2, hs]
      | kEPUB3OPFStateManifest =>
        simp only [ht, hn, false_and, if_false, EPUB3ProcessXMLReaderNodeForManifestInOPF,
          hempty, Bool.not_true, Bool.false_eq_true, pure, Except.pure, bind, Except.bind,
          reduceCtorEq] at h
        repeat' (split at h)
        all_goals first
          | (cases h; done)
          | (simp only [Except.ok.injEq, Prod.mk.injEq] at h; rw [← h.2, hs])
      | kEPUB3OPFStateSpine =>
        simp only [ht, hn, false_and, if_false, EPUB3ProcessXMLReaderNodeForSpineInOPF,
          hempty, Bool.not_true, Bool.false_eq_true, pure, Except.pure, bind, Except.bind,
          reduceCtorEq] at h
        repeat' (split at h)
        all_goals first
          | (cases h; done)
          | (simp only [Except.ok.injEq, Prod.mk.injEq] at h; rw [← h.2, hs])
    · rw [if_neg hname] at h
      simp only [pure, Except.pure, Except.ok.injEq, Prod.mk.injEq] at h
      rw [← h.2, hs]

/-- Claim C20 (the code departs from it): in the Root state the self-closing
    elements `<metadata/>`, `<manifest/>` and `<spine/>` push a parse context.
    After the step the stack is one frame deeper and the current state is
    Metadata, Manifest or Spine, not Root. -/
theorem C20_root_pushes_on_self_closing_element :
    parseStart.states = [kEPUB3OPFStateRoot]
    ∧ (∃ st, EPUB3ParseXMLReaderNodeForOPF exampleConfig parseStart
          (elementNode "metadata" [] true) = .ok (kEPUB3Success, st)
        ∧ st.states = [kEPUB3OPFStateMetadata, kEPUB3OPFStateRoot])
    ∧ (∃ st, EPUB3ParseXMLReaderNodeForOPF exampleConfig parseStart
          (elementNode "manifest" [] true) = .ok (kEPUB3Success, st)
        ∧ st.states = [kEPUB3OPFStateManifest, kEPUB3OPFStateRoot])
    ∧ (∃ st, EPUB3ParseXMLReaderNodeForOPF exampleConfig parseStart
          (elementNode "spine" [] true) = .ok (kEPUB3Success, st)
        ∧ st.states = [kEPUB3OPFStateSpine, kEPUB3OPFStateRoot]) := by
  exact ⟨rfl, ⟨_, rfl, rfl⟩, ⟨_, rfl, rfl⟩, ⟨_, rfl, rfl⟩⟩

/-- A consequence of the push on `<metadata/>`: the parser stays in the
    Metadata state, so the manifest that follows is not read. -/
theorem self_closing_metadata_hides_manifest :
    ∃ st m, EPUB3ParseLoop exampleConfig parseStart kEPUB3Success
        [ elementNode "package" [("unique-identifier", "pub-id")] false,
          elementNode "metadata" [] true,
          elementNode "manifest" [] false,
          elementNode "item" [("id", "a"), ("href", "a.xhtml")] true,
          endElementNode "manifest",
          endElementNode "package" ] = .ok (kEPUB3Success, st)
      ∧ st.epub.manifest = some m ∧ m.itemCount = 0 ∧ st.heap = [] := by
  exact ⟨_, _, rfl, rfl, rfl, rfl⟩

/-- Claim C18 (the code departs from it): an `<item>` with the attributes `id`,
    `href`, `media-type` and `properties="nav"` is processed in the Manifest
    state. The item found afterwards under its identifier has `href` and
    `mediaType` equal to the attribute values, but its `properties` is `NULL`:
    the handler does not read the attribute. -/
theorem C18_properties_attribute_is_dropped :
    ∃ st st' m,
      EPUB3ParseLoop exampleConfig parseStart kEPUB3Success manifestOpened
        = .ok (kEPUB3Success, st)
      ∧ insertsItem st itemWithProperties = true
      ∧ xmlTextReaderGetAttribute itemWithProperties "properties" = some "nav"
      ∧ EPUB3ParseXMLReaderNodeForOPF exampleConfig st itemWithProperties
        = .ok (kEPUB3Success, st')
      ∧ st'.epub.manifest = some m
      ∧ manifestLookup exampleConfig st'.heap m (some "nav-doc") = .ok (some 0)
      ∧ st'.heap[0]? = some (some
          { refCount := 2, itemId := some "nav-doc", href := some "nav.xhtml",
            mediaType := some "application/xhtml+xml", properties := none }) := by
  exact ⟨_, _, _, rfl, rfl, rfl, rfl, rfl, rfl, rfl⟩

/-- The handler `EPUB3ProcessXMLReaderNodeForManifestInOPF` drops `properties`
    on every input: for a self-closing `<item>` with an `id` met in the Manifest
    state of a parse, the item found afterwards under that identifier has `href`
    and `mediaType` as read from the attributes, and `properties` is `NULL`
    whatever the element carries. -/
theorem item_properties_never_read (cfg : HashConfig) (archive : Option unzFile)
    (path : Option String) (count : Nat) (heap0 : ItemHeap) (r : xmlTextReader)
    (evs : List XMLNode) (e : EPUB3Error) (st : OPFParse) (n : XMLNode) (id : String)
    (h : EPUB3ParseLoop cfg (OPFParseStart (freshPublication archive path count) heap0 r)
      kEPUB3Success evs = .ok (e, st))
    (hi : insertsItem st n = true)
    (hid : xmlTextReaderGetAttribute n "id" = some id) :
    ∃ (st' : OPFParse) (m : EPUB3Manifest) (p : Nat) (it : EPUB3ManifestItem),
      EPUB3ParseXMLReaderNodeForOPF cfg st n = .ok (kEPUB3Success, st')
      ∧ st'.epub.manifest = some m
      ∧ manifestLookup cfg st'.heap m (some id) = .ok (some p)
      ∧ st'.heap[p]? = some (some it)
      ∧ it.itemId = some id
      ∧ it.href = xmlTextReaderGetAttribute n "href"
      ∧ it.mediaType = xmlTextReaderGetAttribute n "media-type"
      ∧ it.properties = none := by
  obtain ⟨⟨m, _, hm, _, hinv, _⟩, _⟩ :=
    loop_inv cfg evs _ _ _ _ (ParseInv_start cfg archive path count heap0 r) h
  obtain ⟨heap1, m1, hstep, hins, _, _, _, hlook⟩ := (step_item hi hm hinv).2 id hid
  have hl : (st.heap ++ [some (manifestItemOf n)])[st.heap.length]?
      = some (some (manifestItemOf n)) := by
    simp
  obtain ⟨heap2, m2, hins2, _, hstable, _⟩ :=
    insert_spec (ManifestInv_append hinv (some (manifestItemOf n))) hl
      (show (manifestItemOf n).itemId = some id from hid) (by simp [manifestItemOf])
  rw [hins] at hins2
  simp only [Except.ok.injEq, Prod.mk.injEq] at hins2
  obtain ⟨hh, _⟩ := hins2
  subst hh
  obtain ⟨it, hit, h1, h2, h3, h4, _⟩ := hstable _ _ hl
  exact ⟨_, m1, st.heap.length, it, hstep, rfl, hlook, hit, h1.trans hid, h2, h3, h4⟩

/-! ### Reference counting of the spine -/

theorem take_set_self {α : Type} (l : List α) (a : α) (k : Nat) (h : k < l.length) :
    (l.set k a).take k = l.take k := by
  rw [List.set_eq_take_append_cons_drop, if_pos h,
    List.take_append_of_le_length (by simp; omega)]
  simp

/-- The loop of `EPUB3SpineRetain` on a well-formed list retains every item
    from the node it starts at. -/
theorem retainLoop_eq : ∀ (fuel : Nat) (nodes : List EPUB3SpineItemListItem) (k : Nat),
    (∀ (i : Nat) (node : EPUB3SpineItemListItem), nodes[i]? = some node →
      node.next = if i + 1 < nodes.length then some (i + 1) else none) →
    nodes.length - k ≤ fuel →
    EPUB3SpineRetainLoop nodes fuel (if k < nodes.length then some k else none) =
      .ok (nodes.take k ++ (nodes.drop k).map retainedNode) := by
  intro fuel
  induction fuel with
  | zero =>
    intro nodes k _ hk
    have hlt : ¬ k < nodes.length := by omega
    simp only [hlt, if_false, EPUB3SpineRetainLoop]
    rw [List.drop_eq_nil_of_le (by omega), List.take_of_length_le (by omega)]
    simp
  | succ f ih =>
    intro nodes k hnext hk
    by_cases hlt : k < nodes.length
    · have hk' : nodes[k]? = some nodes[k] := List.getElem?_eq_getElem hlt
      have hnext' : ∀ (i : Nat) (node : EPUB3SpineItemListItem),
          (nodes.set k (retainedNode nodes[k]))[i]? = some node →
          node.next = if i + 1 < (nodes.set k (retainedNode nodes[k])).length
            then some (i + 1) else none := by
        intro i node hi
        rw [List.length_set]
        by_cases hik : k = i
        · subst hik
          rw [List.getElem?_set_self hlt] at hi
          cases hi
          exact hnext k nodes[k] hk'
        · rw [List.getElem?_set_ne hik] at hi
          exact hnext i node hi
      have hrec := ih (nodes.set k (retainedNode nodes[k])) (k + 1) hnext'
        (by rw [List.length_set]; omega)
      rw [List.length_set] at hrec
      simp only [hlt, if_true, EPUB3SpineRetainLoop, hk']
      show EPUB3SpineRetainLoop (nodes.set k (retainedNode nodes[k])) f nodes[k].next = _
      rw [hnext k nodes[k] hk', hrec, List.drop_set_of_lt _ _ (Nat.lt_succ_self k), List.drop_eq_getElem_cons hlt,
        List.map_cons, List.take_succ, take_set_self _ _ _ hlt, List.getElem?_set_self hlt]
      simp
    · simp only [hlt, if_false, EPUB3SpineRetainLoop]
      rw [List.drop_eq_nil_of_le (by omega), List.take_of_length_le (by omega)]
      simp

/-- The function `EPUB3SpineRetain` on a well-formed spine: every item and the
    spine itself gain one reference. -/
theorem spineRetain_eq (sp : EPUB3Spine) (hwf : SpineWF sp) :
    EPUB3SpineRetain sp =
      .ok { sp with nodes := sp.nodes.map retainedNode, refCount := sp.refCount + 1 } := by
  have h := retainLoop_eq sp.nodes.length sp.nodes 0 hwf.2.2 (by omega)
  unfold EPUB3SpineRetain
  rw [hwf.1]
  by_cases h0 : sp.nodes.length = 0
  · have hnil : sp.nodes = [] := List.length_eq_zero.1 h0
    simp only [h0, if_true]
    rw [hnil]
    rfl
  · have hpos : 0 < sp.nodes.length := by omega
    simp only [hpos, if_true, List.take_zero, List.nil_append, List.drop_zero] at h
    simp only [h0, if_false, h, bind, Except.bind, pure, Except.pure]

/-- On every well-formed spine with a positive count, Retain followed by
    Release restores the count of the spine and leaves every spine item with one
    reference more than before: `EPUB3SpineRelease` releases the items only
    when the spine's count is 1. -/
theorem spine_retain_release (sp : EPUB3Spine) (hwf : SpineWF sp) (hrc : 1 ≤ sp.refCount) :
    ∃ sp1 sp2, EPUB3SpineRetain sp = .ok sp1
      ∧ EPUB3SpineRelease sp1 = .ok (some sp2, [])
      ∧ sp2.refCount = sp.refCount
      ∧ sp2.itemRefCounts = sp.itemRefCounts.map (fun c => c + 1) := by
  refine ⟨_, { sp with nodes := sp.nodes.map retainedNode, refCount := sp.refCount },
    spineRetain_eq sp hwf, ?_, rfl, ?_⟩
  · have hne : ¬ sp.refCount + 1 = 1 := by omega
    simp only [EPUB3SpineRelease, hne, if_false, pure, Except.pure, Int.add_sub_cancel]
  · simp [EPUB3Spine.itemRefCounts, retainedNode, EPUB3SpineItemRetain, Function.comp_def]

/-- Claim C19 (the code departs from it): on a spine with one item and count 1,
    `EPUB3SpineRetain` followed by `EPUB3SpineRelease` restores the count of the
    spine but leaves the count of the spine item at 3, where it was 2 before the
    Retain. -/
theorem C19_spine_retain_release_keeps_item_retained :
    ∃ sp sp1 sp2,
      EPUB3SpineAppendItem EPUB3SpineCreate EPUB3SpineItemCreate = .ok sp
      ∧ sp.refCount = 1 ∧ sp.itemRefCounts = [2]
      ∧ EPUB3SpineRetain sp = .ok sp1
      ∧ sp1.refCount = 2 ∧ sp1.itemRefCounts = [3]
      ∧ EPUB3SpineRelease sp1 = .ok (some sp2, [])
      ∧ sp2.refCount = 1 ∧ sp2.itemRefCounts = [3] := by
  exact ⟨_, _, _, rfl, rfl, rfl, rfl, rfl, rfl, rfl, rfl, rfl⟩

/-! ### The context stack never underflows -/

theorem noUnderflow_ok {α : Type} (a : α) : NoUnderflow (Except.ok a : Except Fault α) := by
  intro h
  cases h

theorem noUnderflow_bind {α β : Type} {x : Except Fault α} {f : α → Except Fault β}
    (hx : NoUnderflow x) (hf : ∀ a, x = .ok a → NoUnderflow (f a)) : NoUnderflow (x >>= f) := by
  cases x with
  | error e =>
    intro h
    apply hx
    simpa [bind, Except.bind] using h
  | ok a => exact hf a rfl

theorem deref_noUnderflow (heap : ItemHeap) (p : Nat) : NoUnderflow (heap.deref p) := by
  unfold ItemHeap.deref
  split <;> (intro h; cases h)

theorem retain_noUnderflow (heap : ItemHeap) (p : Nat) :
    NoUnderflow (EPUB3ManifestItemRetain heap p) := by
  unfold EPUB3ManifestItemRetain
  exact noUnderflow_bind (deref_noUnderflow _ _) (fun _ _ => noUnderflow_ok _)

theorem release_noUnderflow (heap : ItemHeap) (p : Nat) :
    NoUnderflow (EPUB3ManifestItemRelease heap p) := by
  unfold EPUB3ManifestItemRelease
  refine noUnderflow_bind (deref_noUnderflow _ _) (fun _ _ => ?_)
  split <;> exact noUnderflow_ok _

theorem findInChain_noUnderflow (heap : ItemHeap) (id : String) (chain : List Nat) :
    NoUnderflow (EPUB3ManifestFindInChain heap id chain) := by
  induction chain with
  | nil => exact noUnderflow_ok _
  | cons p rest ih =>
    unfold EPUB3ManifestFindInChain
    refine noUnderflow_bind (deref_noUnderflow _ _) (fun it _ => ?_)
    split
    · intro h
      cases h
    · split
      · exact noUnderflow_ok _
      · exact noUnderflow_bind ih (fun _ _ => noUnderflow_ok _)

theorem find_noUnderflow (cfg : HashConfig) (heap : ItemHeap) (m : EPUB3Manifest)
    (id : Option String) : NoUnderflow (EPUB3ManifestFindItemWithId cfg heap m id) := by
  unfold EPUB3ManifestFindItemWithId
  split
  · intro h
    cases h
  · exact noUnderflow_bind (findInChain_noUnderflow _ _ _) (fun _ _ => noUnderflow_ok _)

theorem nodeItem_noUnderflow (m : EPUB3Manifest) (node : Nat × Nat) :
    NoUnderflow (m.nodeItem node) := by
  unfold EPUB3Manifest.nodeItem
  split <;> (intro h; cases h)

theorem insert_noUnderflow (cfg : HashConfig) (heap : ItemHeap) (m : EPUB3Manifest)
    (item : Nat) : NoUnderflow (EPUB3ManifestInsertItem cfg heap m item) := by
  unfold EPUB3ManifestInsertItem
  refine noUnderflow_bind (deref_noUnderflow _ _) (fun it _ => ?_)
  split
  · intro h
    cases h
  · refine noUnderflow_bind (retain_noUnderflow _ _) (fun heap1 _ => ?_)
    refine noUnderflow_bind (find_noUnderflow _ _ _ _) (fun r _ => ?_)
    split
    · exact noUnderflow_ok _
    · refine noUnderflow_bind (nodeItem_noUnderflow _ _) (fun old _ => ?_)
      exact noUnderflow_bind (release_noUnderflow _ _) (fun _ _ => noUnderflow_ok _)

theorem append_noUnderflow (sp : EPUB3Spine) (item : EPUB3SpineItem) :
    NoUnderflow (EPUB3SpineAppendItem sp item) := by
  unfold EPUB3SpineAppendItem
  simp only []
  repeat' split
  all_goals (intro h; cases h)

theorem setTitle_noUnderflow (md : Option EPUB3Metadata) (v : Option String) :
    NoUnderflow (EPUB3MetadataSetTitle md v) := by
  unfold EPUB3MetadataSetTitle
  split <;> (intro h; cases h)

theorem setIdentifier_noUnderflow (md : Option EPUB3Metadata) (v : Option String) :
    NoUnderflow (EPUB3MetadataSetIdentifier md v) := by
  unfold EPUB3MetadataSetIdentifier
  split <;> (intro h; cases h)

theorem setLanguage_noUnderflow (md : Option EPUB3Metadata) (v : Option String) :
    NoUnderflow (EPUB3MetadataSetLanguage md v) := by
  unfold EPUB3MetadataSetLanguage
  split <;> (intro h; cases h)

theorem StackRooted.same {st st' : OPFParse} (h : StackRooted st)
    (hc : st'.contextStack = st.contextStack) : StackRooted st' := by
  obtain ⟨above, ha, hn⟩ := h
  exact ⟨above, by simpa [OPFParse.states, hc] using ha, hn⟩

theorem StackRooted.push {st st' : OPFParse} {f : EPUB3OPFParseContext} (h : StackRooted st)
    (hc : st'.contextStack = f :: st.contextStack) (hf : f.state ≠ kEPUB3OPFStateRoot) :
    StackRooted st' := by
  obtain ⟨above, ha, hn⟩ := h
  refine ⟨f.state :: above, ?_, ?_⟩
  · simp only [OPFParse.states] at ha
    simp [OPFParse.states, hc, ha]
  · intro hm
    rcases List.mem_cons.1 hm with h1 | h1
    · exact hf h1.symm
    · exact hn h1

theorem StackRooted.pop {st st' : OPFParse} {top : EPUB3OPFParseContext}
    {below : List EPUB3OPFParseContext} (h : StackRooted st)
    (hc : st.contextStack = top :: below) (ht : top.state ≠ kEPUB3OPFStateRoot)
    (hc' : st'.contextStack = below) : StackRooted st' ∧ below ≠ [] := by
  obtain ⟨above, ha, hn⟩ := h
  simp only [OPFParse.states, hc, List.map_cons] at ha
  cases above with
  | nil =>
    simp only [List.nil_append, List.cons.injEq] at ha
    exact absurd ha.1 ht
  | cons a rest =>
    simp only [List.cons_append, List.cons.injEq] at ha
    refine ⟨⟨rest, by simp [OPFParse.states, hc', ha.2], fun hm => hn (List.mem_cons_of_mem _ hm)⟩, ?_⟩
    intro hb
    rw [hb] at ha
    simp at ha

theorem save_noUnderflow (ctx : List EPUB3OPFParseContext) (s : EPUB3OPFParseState)
    (name : Option String) (c : Int) (a : Option (List String)) (b : Bool) :
    NoUnderflow (EPUB3SaveParseContext ctx s name c a b) := by
  unfold EPUB3SaveParseContext
  split <;> (intro h; cases h)

theorem save_ok {ctx ctx1 : List EPUB3OPFParseContext} {s : EPUB3OPFParseState}
    {name : Option String} {c : Int} {a : Option (List String)} {b : Bool}
    (h : EPUB3SaveParseContext ctx s name c a b = .ok ctx1) :
    ∃ f, ctx1 = f :: ctx ∧ f.state = s := by
  unfold EPUB3SaveParseContext at h
  split at h
  · cases h
    exact ⟨_, rfl, rfl⟩
  · cases h

theorem setText_noUnderflow (ctx : List EPUB3OPFParseContext) (b : Bool) :
    NoUnderflow (setShouldParseTextNode ctx b) := by
  unfold setShouldParseTextNode
  split <;> (intro h; cases h)

theorem setText_ok {ctx ctx1 : List EPUB3OPFParseContext} {b : Bool}
    (h : setShouldParseTextNode ctx b = .ok ctx1) :
    ∃ f f' rest, ctx = f :: rest ∧ ctx1 = f' :: rest ∧ f'.state = f.state := by
  unfold setShouldParseTextNode at h
  split at h
  · cases h
  · cases h
    exact ⟨_, _, _, rfl, rfl, rfl⟩

theorem pop_ok {ctx ctx1 : List EPUB3OPFParseContext}
    (h : EPUB3PopAndFreeParseContext ctx = .ok ctx1) : ∃ top, ctx = top :: ctx1 := by
  unfold EPUB3PopAndFreeParseContext at h
  split at h
  · cases h
  · cases h
  · split at h
    · cases h
    · cases h
      exact ⟨_, rfl⟩

/-- A pop with a frame below the current one does not leave the array. -/
theorem pop_noUnderflow {top : EPUB3OPFParseContext} {below : List EPUB3OPFParseContext}
    (hb : below ≠ []) : NoUnderflow (EPUB3PopAndFreeParseContext (top :: below)) := by
  cases below with
  | nil => exact absurd rfl hb
  | cons b bs =>
    simp only [EPUB3PopAndFreeParseContext]
    split <;> (intro h; cases h)

theorem keeps_bind {α : Type} {x : Except Fault α}
    {f : α → Except Fault (EPUB3Error × OPFParse)}
    (hx : NoUnderflow x) (hf : ∀ a, x = .ok a → KeepsStackRooted (f a)) :
    KeepsStackRooted (x >>= f) := by
  cases x with
  | error e =>
    show e ≠ Fault.stackUnderflow
    intro h
    exact hx (by rw [h])
  | ok a => exact hf a rfl

theorem keeps_same {st st' : OPFParse} (e : EPUB3Error) (h : StackRooted st)
    (hc : st'.contextStack = st.contextStack) :
    KeepsStackRooted (.ok (e, st')) :=
  h.same hc

/-- A push of a frame whose state is not Root keeps the stack rooted. -/
theorem keeps_push {st : OPFParse} (h : StackRooted st) (s : EPUB3OPFParseState)
    (hs : s ≠ kEPUB3OPFStateRoot) (name : Option String) (c : Int) (a : Option (List String))
    (b : Bool) (k : List EPUB3OPFParseContext → Except Fault (EPUB3Error × OPFParse))
    (hk : ∀ ctx1 f, ctx1 = f :: st.contextStack → f.state = s →
      (∀ st' : OPFParse, st'.contextStack = ctx1 → StackRooted st') →
      KeepsStackRooted (k ctx1)) :
    KeepsStackRooted (EPUB3SaveParseContext st.contextStack s name c a b >>= k) := by
  refine keeps_bind (save_noUnderflow _ _ _ _ _ _) (fun ctx1 h1 => ?_)
  obtain ⟨f, hf, hfs⟩ := save_ok h1
  exact hk ctx1 f hf hfs (fun st' hc => h.push (hc.trans hf) (by rw [hfs]; exact hs))

/-- A pop from a rooted stack whose current frame is not the Root frame keeps
    the stack rooted and stays inside the array. -/
theorem keeps_pop {st : OPFParse} (h : StackRooted st) {top : EPUB3OPFParseContext}
    {below : List EPUB3OPFParseContext} (hc : st.contextStack = top :: below)
    (ht : top.state ≠ kEPUB3OPFStateRoot)
    (k : List EPUB3OPFParseContext → Except Fault (EPUB3Error × OPFParse))
    (hk : (∀ st' : OPFParse, st'.contextStack = below → StackRooted st') →
      KeepsStackRooted (k below)) :
    KeepsStackRooted (EPUB3PopAndFreeParseContext st.contextStack >>= k) := by
  have hp : ∀ st' : OPFParse, st'.contextStack = below → StackRooted st' ∧ below ≠ [] :=
    fun st' hc' => h.pop hc ht hc'
  rw [hc]
  refine keeps_bind (pop_noUnderflow (hp { st with contextStack := below } rfl).2)
    (fun ctx1 h1 => ?_)
  obtain ⟨top', htop⟩ := pop_ok h1
  cases htop
  exact hk (fun st' hc' => (hp st' hc').1)

theorem metadata_keeps_rooted (st : OPFParse) (n : XMLNode) (h : StackRooted st)
    {top : EPUB3OPFParseContext} {below : List EPUB3OPFParseContext}
    (hc : st.contextStack = top :: below) (ht : top.state ≠ kEPUB3OPFStateRoot) :
    KeepsStackRooted (EPUB3ProcessXMLReaderNodeForMetadataInOPF st n) := by
  unfold EPUB3ProcessXMLReaderNodeForMetadataInOPF
  simp only []
  split
  · split
    · refine keeps_push h _ (by decide) _ _ _ _ _ (fun ctx1 f hf hfs hr => ?_)
      have hset : KeepsStackRooted (setShouldParseTextNode ctx1 false >>= fun ctx2 =>
          pure (kEPUB3Success, { st with contextStack := ctx2 })) := by
        refine keeps_bind (setText_noUnderflow _ _) (fun ctx2 h2 => ?_)
        obtain ⟨g, g', rest, hg, hg', hst⟩ := setText_ok h2
        rw [hf] at hg
        cases hg
        exact h.push hg' (by rw [hst, hfs]; decide)
      repeat' split
      all_goals first
        | exact hset
        | exact hr _ rfl
        | (show Fault.nullDeref ≠ Fault.stackUnderflow; decide)
    · exact keeps_same _ h rfl
  · rw [hc]
    simp only []
    repeat' split
    all_goals first
      | exact keeps_same _ h rfl
      | exact keeps_bind (setTitle_noUnderflow _ _) (fun _ _ => keeps_same _ h hc.symm)
      | exact keeps_bind (setIdentifier_noUnderflow _ _) (fun _ _ => keeps_same _ h hc.symm)
      | exact keeps_bind (setLanguage_noUnderflow _ _) (fun _ _ => keeps_same _ h hc.symm)
  · exact keeps_pop h hc ht _ (fun hr => hr _ rfl)
  · exact keeps_same _ h rfl

theorem manifest_keeps_rooted (cfg : HashConfig) (st : OPFParse) (n : XMLNode)
    (h : StackRooted st) {top : EPUB3OPFParseContext} {below : List EPUB3OPFParseContext}
    (hc : st.contextStack = top :: below) (ht : top.state ≠ kEPUB3OPFStateRoot) :
    KeepsStackRooted (EPUB3ProcessXMLReaderNodeForManifestInOPF cfg st n) := by
  unfold EPUB3ProcessXMLReaderNodeForManifestInOPF
  simp only []
  split
  · split
    · exact keeps_push h _ (by decide) _ _ _ _ _ (fun ctx1 f hf hfs hr => hr _ rfl)
    · repeat' split
      all_goals first
        | exact keeps_same _ h rfl
        | (show Fault.assertion ≠ Fault.stackUnderflow; decide)
        | (show Fault.invalidPointer ≠ Fault.stackUnderflow; decide)
        | exact keeps_bind (insert_noUnderflow _ _ _ _) (fun _ _ => keeps_same _ h rfl)
  · exact keeps_same _ h rfl
  · exact keeps_pop h hc ht _ (fun hr => hr _ rfl)
  · exact keeps_same _ h rfl

theorem spine_keeps_rooted (cfg : HashConfig) (st : OPFParse) (n : XMLNode)
    (h : StackRooted st) {top : EPUB3OPFParseContext} {below : List EPUB3OPFParseContext}
    (hc : st.contextStack = top :: below) (ht : top.state ≠ kEPUB3OPFStateRoot) :
    KeepsStackRooted (EPUB3ProcessXMLReaderNodeForSpineInOPF cfg st n) := by
  unfold EPUB3ProcessXMLReaderNodeForSpineInOPF
  simp only []
  split
  · split
    · exact keeps_push h _ (by decide) _ _ _ _ _ (fun ctx1 f hf hfs hr => hr _ rfl)
    · have happ : ∀ (sp : EPUB3Spine) (y : EPUB3SpineItem),
          KeepsStackRooted (EPUB3SpineAppendItem sp y >>= fun spine2 =>
            pure (kEPUB3Success,
              { st with epub := { st.epub with spine := some spine2 } })) :=
        fun sp y => keeps_bind (append_noUnderflow _ _) (fun _ _ => keeps_same _ h rfl)
      split
      · split
        · show Fault.nullDeref ≠ Fault.stackUnderflow
          decide
        · split
          · split
            · show Fault.assertion ≠ Fault.stackUnderflow
              decide
            · refine keeps_bind (find_noUnderflow _ _ _ _) (fun r _ => ?_)
              split
              · exact happ _ _
              · exact keeps_bind (nodeItem_noUnderflow _ _) (fun _ _ => happ _ _)
          · exact happ _ _
      · exact keeps_same _ h rfl
  · exact keeps_same _ h rfl
  · exact keeps_pop h hc ht _ (fun hr => hr _ rfl)
  · exact keeps_same _ h rfl

/-- One step of the parser on a rooted stack: the step does not pop below
    `contextStack[0]`, and when it returns the stack is rooted again. -/
theorem step_keeps_rooted (cfg : HashConfig) (st : OPFParse) (n : XMLNode)
    (h : StackRooted st) : KeepsStackRooted (EPUB3ParseXMLReaderNodeForOPF cfg st n) := by
  unfold EPUB3ParseXMLReaderNodeForOPF
  simp only []
  split
  · show Fault.assertion ≠ Fault.stackUnderflow
    decide
  · next top below hc =>
    split
    · split
      · repeat' split
        all_goals first
          | exact keeps_same _ h rfl
          | (show Fault.nullDeref ≠ Fault.stackUnderflow; decide)
          | exact keeps_push h _ (by decide) _ _ _ _ _ (fun ctx1 f hf hfs hr => hr _ rfl)
      · next ht =>
        have ht' : top.state ≠ kEPUB3OPFStateRoot := by rw [ht]; decide
        split
        · exact keeps_pop h hc ht' _ (fun hr => hr _ rfl)
        · exact metadata_keeps_rooted st n h hc ht'
      · next ht =>
        have ht' : top.state ≠ kEPUB3OPFStateRoot := by rw [ht]; decide
        split
        · exact keeps_pop h hc ht' _ (fun hr => hr _ rfl)
        · exact manifest_keeps_rooted cfg st n h hc ht'
      · next ht =>
        have ht' : top.state ≠ kEPUB3OPFStateRoot := by rw [ht]; decide
        split
        · exact keeps_pop h hc ht' _ (fun hr => hr _ rfl)
        · exact spine_keeps_rooted cfg st n h hc ht'
    · exact keeps_same _ h rfl

theorem StackRooted_start (epub : EPUB3) (heap : ItemHeap) (r : xmlTextReader) :
    StackRooted (OPFParseStart epub heap r) :=
  ⟨[], rfl, by simp⟩

/-- The parse loop from a rooted stack never pops below `contextStack[0]`, and
    the stack is rooted after every number of steps. -/
theorem loop_keeps_rooted (cfg : HashConfig) (evs : List XMLNode) :
    ∀ (st : OPFParse) (e0 : EPUB3Error), StackRooted st →
      KeepsStackRooted (EPUB3ParseLoop cfg st e0 evs) := by
  induction evs with
  | nil =>
    intro st e0 h
    exact h
  | cons n rest ih =>
    intro st e0 h
    have hstep := step_keeps_rooted cfg st n h
    simp only [EPUB3ParseLoop]
    cases hr : EPUB3ParseXMLReaderNodeForOPF cfg st n with
    | error f =>
      rw [hr] at hstep
      exact hstep
    | ok r =>
      rw [hr] at hstep
      exact ih r.2 r.1 hstep

/-- Claim C25: for every event stream, well formed or not, the state the
    parser is in after any number of steps has the Root frame at the bottom of
    the context stack and only frames with another state above it; the next
    step, whatever node it processes, does not pop below the Root frame and
    leaves the stack in that shape when it returns. The parse of the whole
    stream never stops with such a pop. -/
theorem C25_context_stack_never_underflows (cfg : HashConfig) (epub : EPUB3)
    (heap0 : ItemHeap) (r : xmlTextReader) (evs : List XMLNode) (e : EPUB3Error)
    (st : OPFParse) (n : XMLNode)
    (h : EPUB3ParseLoop cfg (OPFParseStart epub heap0 r) kEPUB3Success evs = .ok (e, st)) :
    StackRooted st
    ∧ EPUB3ParseXMLReaderNodeForOPF cfg st n ≠ .error Fault.stackUnderflow
    ∧ (∀ e' st', EPUB3ParseXMLReaderNodeForOPF cfg st n = .ok (e', st') → StackRooted st')
    ∧ ∀ more, EPUB3ParseLoop cfg (OPFParseStart epub heap0 r) kEPUB3Success (evs ++ more)
        ≠ .error Fault.stackUnderflow := by
  have hroot : StackRooted st := by
    have := loop_keeps_rooted cfg evs _ kEPUB3Success (StackRooted_start epub heap0 r)
    rw [h] at this
    exact this
  have hstep := step_keeps_rooted cfg st n hroot
  refine ⟨hroot, ?_, ?_, ?_⟩
  · intro hh
    rw [hh] at hstep
    exact hstep rfl
  · intro e' st' hh
    rw [hh] at hstep
    exact hstep
  · intro more hh
    have := loop_keeps_rooted cfg (evs ++ more) _ kEPUB3Success (StackRooted_start epub heap0 r)
    rw [hh] at this
    exact this rfl

/-- The hypothesis of C25 holds for a stream with end tags that match no start
    tag; the next node is one more end tag. -/
theorem C25_context_stack_never_underflows_witness :
    ∃ st, EPUB3ParseLoop exampleConfig (OPFParseStart (freshPublication none none 0) []
          ⟨strayEndTags, false⟩) kEPUB3Success strayEndTags = .ok (kEPUB3Success, st)
      ∧ StackRooted st
      ∧ EPUB3ParseXMLReaderNodeForOPF exampleConfig st (endElementNode "spine")
          ≠ .error Fault.stackUnderflow
      ∧ (∀ e' st', EPUB3ParseXMLReaderNodeForOPF exampleConfig st (endElementNode "spine")
          = .ok (e', st') → StackRooted st')
      ∧ ∀ more, EPUB3ParseLoop exampleConfig (OPFParseStart (freshPublication none none 0) []
          ⟨strayEndTags, false⟩) kEPUB3Success (strayEndTags ++ more)
          ≠ .error Fault.stackUnderflow :=
  ⟨_, rfl,
    C25_context_stack_never_underflows exampleConfig (freshPublication none none 0) []
      ⟨strayEndTags, false⟩ strayEndTags kEPUB3Success _ (endElementNode "spine") rfl⟩

/-! ### Stack depth and the Spine state -/

/-- The push has no bound check of its own in the source: with all frames of
    the array in use the pointer moves past the last frame. -/
theorem save_past_last_frame (ctx : List EPUB3OPFParseContext) (s : EPUB3OPFParseState)
    (name : Option String) (c : Int) (a : Option (List String)) (b : Bool)
    (h : ctx.length = PARSE_CONTEXT_STACK_DEPTH) :
    EPUB3SaveParseContext ctx s name c a b = .error Fault.stackOverflow := by
  simp [EPUB3SaveParseContext, h]

/-- Claim C21 (the code departs from it): after `<package>`, `<metadata>` and
    62 nested elements all 64 frames are in use; the next non-empty element is
    pushed past the last frame of the array. The parser has no depth check, so
    the step does not return `kEPUB3XMLParseError`, and neither does
    `EPUB3ParseFromOPFData` on the whole stream. -/
theorem C21_push_past_last_frame :
    (∃ st, EPUB3ParseLoop exampleConfig parseStart kEPUB3Success (nestedElements 62)
        = .ok (kEPUB3Success, st)
      ∧ st.contextStack.length = PARSE_CONTEXT_STACK_DEPTH
      ∧ EPUB3ParseXMLReaderNodeForOPF exampleConfig st (elementNode "meta" [] false)
        = .error Fault.stackOverflow)
    ∧ EPUB3ParseFromOPFData exampleConfig (freshPublication none none 0) []
        (some ⟨nestedElements 63, false⟩) = .error Fault.stackOverflow := by
  exact ⟨⟨_, rfl, rfl, rfl⟩, rfl⟩

/-- In the Spine state every non-empty element-start is pushed with the state
    `kEPUB3OPFStateManifest`. -/
theorem spine_pushes_manifest_state (cfg : HashConfig) (st : OPFParse) (n : XMLNode)
    (name : String) (top : EPUB3OPFParseContext) (below : List EPUB3OPFParseContext)
    (hc : st.contextStack = top :: below) (ht : top.state = kEPUB3OPFStateSpine)
    (hlen : st.contextStack.length < PARSE_CONTEXT_STACK_DEPTH)
    (hn : n.nodeType = XML_READER_TYPE_ELEMENT) (hname : n.localName = some name)
    (hempty : n.isEmptyElement = false) :
    EPUB3ParseXMLReaderNodeForOPF cfg st n = .ok (kEPUB3Success,
      { st with contextStack :=
          { state := kEPUB3OPFStateManifest, tagName := some name, attributeCount := 0,
            attributes := none, shouldParseTextNode := true } :: st.contextStack }) := by
  have hlen' : below.length + 1 < PARSE_CONTEXT_STACK_DEPTH := by
    rw [hc] at hlen
    simpa using hlen
  simp [EPUB3ParseXMLReaderNodeForOPF, EPUB3ProcessXMLReaderNodeForSpineInOPF,
    EPUB3SaveParseContext, hc, ht, hn, hname, hempty, hlen', bind, Except.bind, pure,
    Except.pure]

/-- Claim C22 (the code departs from it): a non-empty element-start in the
    Spine state pushes a frame whose state is Manifest, not Spine; an `<item>`
    nested in that element is then inserted into the Manifest. The state after
    the matching element-end is Spine again. -/
theorem C22_element_in_spine_pushes_manifest_state :
    ∃ st st1 st2 m,
      EPUB3ParseLoop exampleConfig parseStart kEPUB3Success spineOpened
        = .ok (kEPUB3Success, st)
      ∧ st.states = [kEPUB3OPFStateSpine, kEPUB3OPFStateRoot]
      ∧ EPUB3ParseLoop exampleConfig st kEPUB3Success
          [elementNode "extension" [] false, nestedItem] = .ok (kEPUB3Success, st1)
      ∧ st1.states = [kEPUB3OPFStateManifest, kEPUB3OPFStateSpine, kEPUB3OPFStateRoot]
      ∧ st1.epub.manifest = some m ∧ m.itemCount = 1
      ∧ manifestLookup exampleConfig st1.heap m (some "x") = .ok (some 0)
      ∧ EPUB3ParseXMLReaderNodeForOPF exampleConfig st1 (endElementNode "extension")
        = .ok (kEPUB3Success, st2)
      ∧ st2.states = [kEPUB3OPFStateSpine, kEPUB3OPFStateRoot] := by
  exact ⟨_, _, _, _, rfl, rfl, rfl, rfl, rfl, rfl, rfl, rfl, rfl⟩

/-! ### Structure of the manifest table -/

theorem chainIndex_cons_ne {id id' : String} (h : id' ≠ id) (ids : List (Option String)) :
    chainIndex id (some id' :: ids) = (chainIndex id ids).map (· + 1) := by
  have hne : ¬ (some id' = some id) := fun e => h (Option.some.inj e)
  simp only [chainIndex, hne, if_false]

/-- One `EPUB3ManifestInsertItem` on a well-formed table, chain by chain: the
    identifiers in a chain afterwards are those before and the one inserted,
    and a lookup of any other identifier yields what it did. -/
theorem insert_frame {cfg : HashConfig} {heap : ItemHeap} {m : EPUB3Manifest} {item : Nat}
    {it : EPUB3ManifestItem} {id : String}
    (hinv : ManifestInv cfg heap m) (hl : heap[item]? = some (some it))
    (hid : it.itemId = some id) (hrc : 1 ≤ it.refCount) :
    ∃ heap' m', EPUB3ManifestInsertItem cfg heap m item = .ok (heap', m') ∧
      ManifestInv cfg heap' m' ∧ HeapStable heap heap' ∧
      (∀ b, (m'.itemTable b).length = (m.itemTable b).length +
        (if b = cfg.bucket id ∧
            chainIndex id ((m.itemTable (cfg.bucket id)).map heap.idOf) = none
         then 1 else 0)) ∧
      (m'.itemCount = m.itemCount +
        (if chainIndex id ((m.itemTable (cfg.bucket id)).map heap.idOf) = none
         then 1 else 0)) ∧
      (∀ b x, x ∈ (m'.itemTable b).map heap'.idOf ↔
        (x ∈ (m.itemTable b).map heap.idOf ∨ (x = some id ∧ b = cfg.bucket id))) ∧
      (∀ J, J ≠ id → manifestLookup cfg heap' m' (some J) = manifestLookup cfg heap m (some J)) := by
  have hitem : heap.idOf item = some id := idOf_eq_some.2 ⟨it, hl, hid⟩
  cases hc : chainIndex id ((m.itemTable (cfg.bucket id)).map heap.idOf) with
  | none =>
    obtain ⟨heap', m', hrun, hheap, htab, hcnt, _, hinv'⟩ := insert_new hinv hl hid hrc hc
    have hidf : heap'.idOf = heap.idOf := by
      rw [hheap]
      exact idOf_set_fun hl _ rfl
    refine ⟨heap', m', hrun, hinv', ?_, ?_, ?_, ?_, ?_⟩
    · rw [hheap]
      exact HeapStable.set hl rfl rfl rfl rfl (fun _ => by simp; omega)
    · intro b
      rw [htab]
      by_cases hb : b = cfg.bucket id
      · simp [hb]
      · simp [hb]
    · simp [hcnt]
    · intro b x
      rw [htab, hidf]
      by_cases hb : b = cfg.bucket id
      · subst hb
        simp only [if_true, List.map_cons, List.mem_cons, hitem, and_true]
        exact or_comm
      · simp [hb]
    · intro J hJ
      rw [lookup_eq hinv', lookup_eq hinv, hidf, htab]
      by_cases hb : cfg.bucket J = cfg.bucket id
      · simp only [hb, if_true, List.map_cons, hitem]
        rw [chainIndex_cons_ne (fun e => hJ e.symm)]
        cases chainIndex J ((m.itemTable (cfg.bucket id)).map heap.idOf) with
        | none => rfl
        | some j => simp
      · simp only [hb, if_false]
  | some i =>
    obtain ⟨heap', m', hrun, hs, _, htab, hidf, hcnt, _, hinv'⟩ :=
      insert_existing hinv hl hid hrc hc
    have hi := chainIndex_some hc
    have hids : ((m.itemTable (cfg.bucket id)).set i item).map heap.idOf
        = (m.itemTable (cfg.bucket id)).map heap.idOf := by
      rw [List.map_set, hitem]
      exact set_self_of_getElem? hi
    refine ⟨heap', m', hrun, hinv', hs, ?_, ?_, ?_, ?_⟩
    · intro b
      rw [htab]
      by_cases hb : b = cfg.bucket id
      · simp [hb]
      · simp [hb]
    · simp [hcnt]
    · intro b x
      rw [htab, hidf]
      by_cases hb : b = cfg.bucket id
      · subst hb
        simp only [if_true, hids, and_true]
        constructor
        · exact Or.inl
        · rintro (h | h)
          · exact h
          · rw [h]
            exact List.mem_iff_getElem?.2 ⟨i, hi⟩
      · simp [hb]
    · intro J hJ
      rw [lookup_eq hinv', lookup_eq hinv, hidf, htab]
      by_cases hb : cfg.bucket J = cfg.bucket id
      · simp only [hb, if_true, hids]
        cases hj : chainIndex J ((m.itemTable (cfg.bucket id)).map heap.idOf) with
        | none => rfl
        | some j =>
          have hjj := chainIndex_some hj
          have hne : i ≠ j := by
            intro e
            subst e
            rw [hi] at hjj
            exact hJ (Option.some.inj (Option.some.inj hjj)).symm
          simp only [Option.bind]
          rw [List.getElem?_set_ne hne]
      · simp only [hb, if_false]

theorem sum_range_bump (f g : Nat → Nat) (k c : Nat)
    (h : ∀ b, g b = f b + (if b = k then c else 0)) :
    ∀ n, ((List.range n).map g).sum = ((List.range n).map f).sum + (if k < n then c else 0) := by
  intro n
  induction n with
  | zero => simp
  | succ n ih =>
    rw [List.range_succ, List.map_append, List.map_append, List.sum_append, List.sum_append, ih]
    simp only [List.map_cons, List.map_nil, List.sum_cons, List.sum_nil, h n]
    by_cases h1 : k < n
    · have h2 : ¬ n = k := by omega
      have h3 : k < n + 1 := by omega
      simp only [h1, h2, h3, if_true, if_false]
      omega
    · by_cases h2 : n = k
      · subst h2
        simp only [Nat.lt_irrefl, Nat.lt_succ_self, if_true, if_false]
        omega
      · have h3 : ¬ k < n + 1 := by omega
        simp only [h1, h2, h3, if_false]
        omega

theorem chainNodes_length (cfg : HashConfig) (m : EPUB3Manifest) :
    (m.chainNodes cfg).length =
      ((List.range cfg.MANIFEST_HASH_SIZE).map (fun b => (m.itemTable b).length)).sum := by
  simp [EPUB3Manifest.chainNodes, List.length_flatten, Function.comp_def]

theorem bucket_lt (cfg : HashConfig) (hsize : 0 < cfg.MANIFEST_HASH_SIZE) (id : String) :
    cfg.bucket id < cfg.MANIFEST_HASH_SIZE :=
  Nat.mod_lt _ hsize

theorem mem_chainNodes {cfg : HashConfig} {m : EPUB3Manifest} {b p : Nat}
    (hb : b < cfg.MANIFEST_HASH_SIZE) (hp : p ∈ m.itemTable b) : p ∈ m.chainNodes cfg := by
  simp only [EPUB3Manifest.chainNodes, List.mem_flatten, List.mem_map, List.mem_range]
  exact ⟨m.itemTable b, ⟨b, hb, rfl⟩, hp⟩

theorem TableCounted_create (cfg : HashConfig) : TableCounted cfg EPUB3ManifestCreate := by
  refine ⟨fun _ _ => rfl, ?_⟩
  rw [chainNodes_length]
  simp [EPUB3ManifestCreate]

/-- On a well-formed table no identifier occurs in two chain nodes. -/
theorem chainNodes_nodup {cfg : HashConfig} {heap : ItemHeap} {m : EPUB3Manifest}
    (hinv : ManifestInv cfg heap m) : ((m.chainNodes cfg).map heap.idOf).Nodup := by
  rw [EPUB3Manifest.chainNodes, List.map_flatten, List.nodup_flatten]
  constructor
  · intro l hl
    simp only [List.mem_map, List.mem_range] at hl
    obtain ⟨_, ⟨b, _, rfl⟩, rfl⟩ := hl
    exact hinv.2 b
  · rw [List.map_map, List.pairwise_map]
    refine (List.pairwise_lt_range _).imp ?_
    intro b b' hlt x hx hx'
    simp only [Function.comp, List.mem_map] at hx hx'
    obtain ⟨p, hp, rfl⟩ := hx
    obtain ⟨p', hp', he⟩ := hx'
    obtain ⟨y, id, hy, _, hyid, hyb⟩ := hinv.1 b p hp
    obtain ⟨y', id', hy', _, hyid', hyb'⟩ := hinv.1 b' p' hp'
    have e1 : heap.idOf p = some id := idOf_eq_some.2 ⟨y, hy, hyid⟩
    have e2 : heap.idOf p' = some id' := idOf_eq_some.2 ⟨y', hy', hyid'⟩
    rw [e1, e2] at he
    have : id' = id := Option.some.inj he
    subst this
    omega

/-- One insertion keeps `itemCount` equal to the number of chain nodes. -/
theorem TableCounted_insert {cfg : HashConfig} (hsize : 0 < cfg.MANIFEST_HASH_SIZE)
    {m m' : EPUB3Manifest} (id : String) (c : Nat) (hc : TableCounted cfg m)
    (hlen : ∀ b, (m'.itemTable b).length = (m.itemTable b).length +
      (if b = cfg.bucket id then c else 0))
    (hcnt : m'.itemCount = m.itemCount + (c : Int)) : TableCounted cfg m' := by
  refine ⟨?_, ?_⟩
  · intro b hb
    have hne : ¬ b = cfg.bucket id := by
      have := bucket_lt cfg hsize id
      omega
    have := hlen b
    rw [hc.1 b hb] at this
    simp only [hne, if_false, List.length_nil, Nat.add_zero] at this
    exact List.length_eq_zero.1 this
  · rw [hcnt, hc.2, chainNodes_length, chainNodes_length,
      sum_range_bump _ _ (cfg.bucket id) c hlen, if_pos (bucket_lt cfg hsize id)]
    push_cast
    rfl

theorem insertable_idOf {heap : ItemHeap} {p : Nat} (h : heap.insertable p = true) :
    ∃ id, heap.idOf p = some id := by
  obtain ⟨it, id, hl, hid, _⟩ := insertable_iff.1 h
  exact ⟨id, idOf_eq_some.2 ⟨it, hl, hid⟩⟩

/-- A sequence of insertions on a well-formed, counted table: the calls
    return, the table stays well formed and counted, and the identifiers in a
    chain afterwards are those before and those inserted that hash to it. -/
theorem insertItems_counted (cfg : HashConfig) (hsize : 0 < cfg.MANIFEST_HASH_SIZE)
    (items : List Nat) :
    ∀ (heap : ItemHeap) (m : EPUB3Manifest), ManifestInv cfg heap m → TableCounted cfg m →
      (∀ p ∈ items, heap.insertable p = true) →
      ∃ heap' m', insertItems cfg heap m items = .ok (heap', m') ∧
        ManifestInv cfg heap' m' ∧ HeapStable heap heap' ∧ TableCounted cfg m' ∧
        ∀ b x, x ∈ (m'.itemTable b).map heap'.idOf ↔
          (x ∈ (m.itemTable b).map heap.idOf ∨
            (x ∈ items.map heap.idOf ∧ ∃ id, x = some id ∧ b = cfg.bucket id)) := by
  induction items with
  | nil =>
    intro heap m hinv hc _
    exact ⟨heap, m, rfl, hinv, HeapStable.refl _, hc, fun b x => by simp⟩
  | cons p ps ih =>
    intro heap m hinv hc hitems
    obtain ⟨it, id, hl, hid, hrc⟩ := insertable_iff.1 (hitems p (List.mem_cons_self _ _))
    have hp : heap.idOf p = some id := idOf_eq_some.2 ⟨it, hl, hid⟩
    obtain ⟨heap1, m1, hrun1, hinv1, hs1, hlen1, hcnt1, hmem1, _⟩ :=
      insert_frame hinv hl hid hrc
    have hc1 : TableCounted cfg m1 := by
      refine TableCounted_insert hsize id
        (if chainIndex id ((m.itemTable (cfg.bucket id)).map heap.idOf) = none then 1 else 0)
        hc ?_ ?_
      · intro b
        rw [hlen1 b]
        by_cases hb : b = cfg.bucket id
        · simp [hb]
        · simp [hb]
      · rw [hcnt1]
        split <;> simp
    have hps : ∀ q ∈ ps, heap1.insertable q = true :=
      fun q hq => hs1.insertable (hitems q (List.mem_cons_of_mem _ hq))
    obtain ⟨heap2, m2, hrun2, hinv2, hs2, hc2, hmem2⟩ := ih heap1 m1 hinv1 hc1 hps
    have hmap : ps.map heap1.idOf = ps.map heap.idOf :=
      map_idOf_congr hs1 ps
        (fun q hq => insertable_idOf (hitems q (List.mem_cons_of_mem _ hq)))
    refine ⟨heap2, m2, ?_, hinv2, hs1.trans hs2, hc2, ?_⟩
    · simp only [insertItems, hrun1, bind, Except.bind]
      exact hrun2
    · intro b x
      rw [hmem2 b x, hmem1 b x, hmap, List.map_cons, hp]
      constructor
      · rintro ((h | ⟨h1, h2⟩) | ⟨h1, h2⟩)
        · exact Or.inl h
        · exact Or.inr ⟨by rw [h1]; exact List.mem_cons_self _ _, id, h1, h2⟩
        · exact Or.inr ⟨List.mem_cons_of_mem _ h1, h2⟩
      · rintro (h | ⟨h1, id', h2, h3⟩)
        · exact Or.inl (Or.inl h)
        · rcases List.mem_cons.1 h1 with h4 | h4
          · rw [h2] at h4
            have e : id' = id := Option.some.inj h4
            subst e
            exact Or.inl (Or.inr ⟨h2, h3⟩)
          · exact Or.inr ⟨h4, id', h2, h3⟩

/-- Claim C24: starting from `EPUB3ManifestCreate`, any sequence of
    `EPUB3ManifestInsertItem` calls on items that satisfy the function's
    assertions returns, and afterwards no identifier occurs in two chain nodes
    of the table, every chain node sits in the bucket
    `SuperFastHash(id) % MANIFEST_HASH_SIZE` of its item's identifier, and
    `itemCount` is the number of chain nodes, which is the number of distinct
    identifiers inserted. -/
theorem C24_manifest_structure (cfg : HashConfig) (heap0 : ItemHeap) (items : List Nat)
    (hsize : 0 < cfg.MANIFEST_HASH_SIZE)
    (hitems : ∀ p ∈ items, heap0.insertable p = true) :
    ∃ heap m, insertItems cfg heap0 EPUB3ManifestCreate items = .ok (heap, m) ∧
      ((m.chainNodes cfg).map heap.idOf).Nodup ∧
      (∀ b p, p ∈ m.itemTable b →
        p ∈ m.chainNodes cfg ∧ ∃ id, heap.idOf p = some id ∧ cfg.bucket id = b) ∧
      m.itemCount = ((m.chainNodes cfg).length : Int) ∧
      m.itemCount = (((items.map heap0.idOf).dedup).length : Int) := by
  obtain ⟨heap, m, hrun, hinv, _, hc, hmem⟩ :=
    insertItems_counted cfg hsize items heap0 EPUB3ManifestCreate (ManifestInv_create cfg heap0)
      (TableCounted_create cfg) hitems
  have hplace : ∀ b p, p ∈ m.itemTable b →
      p ∈ m.chainNodes cfg ∧ ∃ id, heap.idOf p = some id ∧ cfg.bucket id = b := by
    intro b p hp
    obtain ⟨y, id, hy, _, hyid, hyb⟩ := hinv.1 b p hp
    refine ⟨mem_chainNodes ?_ hp, id, idOf_eq_some.2 ⟨y, hy, hyid⟩, hyb⟩
    rw [← hyb]
    exact bucket_lt cfg hsize id
  have hnodup := chainNodes_nodup hinv
  refine ⟨heap, m, hrun, hnodup, hplace, hc.2, ?_⟩
  have hperm : List.Perm ((m.chainNodes cfg).map heap.idOf) ((items.map heap0.idOf).dedup) := by
    refine (List.perm_ext_iff_of_nodup hnodup (List.nodup_dedup _)).2 (fun x => ?_)
    rw [List.mem_dedup]
    constructor
    · intro hx
      obtain ⟨p, hp, rfl⟩ := List.mem_map.1 hx
      simp only [EPUB3Manifest.chainNodes, List.mem_flatten, List.mem_map, List.mem_range] at hp
      obtain ⟨_, ⟨b, _, rfl⟩, hpb⟩ := hp
      have := (hmem b (heap.idOf p)).1 (List.mem_map.2 ⟨p, hpb, rfl⟩)
      rcases this with h | h
      · simp [EPUB3ManifestCreate] at h
      · exact h.1
    · intro hx
      obtain ⟨q, hq, hqx⟩ := List.mem_map.1 hx
      obtain ⟨id, hid⟩ := insertable_idOf (hitems q hq)
      have hx' : x = some id := by rw [← hqx, hid]
      have := (hmem (cfg.bucket id) x).2 (Or.inr ⟨hx, id, hx', rfl⟩)
      obtain ⟨p, hp, hpx⟩ := List.mem_map.1 this
      exact List.mem_map.2 ⟨p, mem_chainNodes (bucket_lt cfg hsize id) hp, hpx⟩
  have hlen := hperm.length_eq
  rw [List.length_map] at hlen
  rw [hc.2, hlen]

/-- The hypotheses of C24 hold for the three example items, two of which share
    an identifier and all of which share a bucket. -/
theorem C24_manifest_structure_witness :
    0 < exampleConfig.MANIFEST_HASH_SIZE ∧ (∀ p ∈ [0, 1, 2], exampleHeap.insertable p = true) ∧
    ∃ heap m, insertItems exampleConfig exampleHeap EPUB3ManifestCreate [0, 1, 2]
        = .ok (heap, m) ∧
      ((m.chainNodes exampleConfig).map heap.idOf).Nodup ∧
      (∀ b p, p ∈ m.itemTable b →
        p ∈ m.chainNodes exampleConfig ∧
          ∃ id, heap.idOf p = some id ∧ exampleConfig.bucket id = b) ∧
      m.itemCount = ((m.chainNodes exampleConfig).length : Int) ∧
      m.itemCount = ((([0, 1, 2].map exampleHeap.idOf).dedup).length : Int) :=
  ⟨by decide, by decide,
    C24_manifest_structure exampleConfig exampleHeap [0, 1, 2] (by decide) (by decide)⟩

/-- Claim C26: on a manifest built by any sequence of insertions, inserting an
    item with identifier `I` leaves the lookup of every other identifier `J` as
    it was, also when `I` and `J` hash to the same bucket: both lookups return,
    with the same item or the same absence, and the strings of the item found
    are unchanged. -/
theorem C26_insert_keeps_other_identifiers (cfg : HashConfig) (heap0 : ItemHeap)
    (items : List Nat) (item : Nat) (J : String)
    (hitems : ∀ p ∈ items, heap0.insertable p = true)
    (hitem : heap0.insertable item = true)
    (hJ : heap0.idOf item ≠ some J) :
    ∃ heap m heap' m' r,
      insertItems cfg heap0 EPUB3ManifestCreate items = .ok (heap, m) ∧
      EPUB3ManifestInsertItem cfg heap m item = .ok (heap', m') ∧
      manifestLookup cfg heap m (some J) = .ok r ∧
      manifestLookup cfg heap' m' (some J) = .ok r ∧
      ∀ (q : Nat) (x : EPUB3ManifestItem), r = some q → heap[q]? = some (some x) →
        ∃ x' : EPUB3ManifestItem, heap'[q]? = some (some x') ∧ x'.itemId = x.itemId ∧
          x'.href = x.href ∧ x'.mediaType = x.mediaType ∧ x'.properties = x.properties := by
  obtain ⟨heap, m, hrun, hinv, hs, _, _⟩ :=
    insertItems_spec cfg items heap0 EPUB3ManifestCreate (ManifestInv_create cfg heap0) hitems
  obtain ⟨it, id, hl, hid, hrc⟩ := insertable_iff.1 (hs.insertable hitem)
  obtain ⟨id0, hid0⟩ := insertable_idOf hitem
  have hidem : heap.idOf item = some id := idOf_eq_some.2 ⟨it, hl, hid⟩
  have hne : J ≠ id := by
    intro e
    apply hJ
    have := hs.idOf hid0
    rw [hidem] at this
    rw [hid0, ← Option.some.inj this, e]
  obtain ⟨heap', m', hins, _, hs', _, _, _, hframe⟩ := insert_frame hinv hl hid hrc
  refine ⟨heap, m, heap', m', _, hrun, hins, lookup_eq hinv J, ?_, ?_⟩
  · rw [hframe J hne]
    exact lookup_eq hinv J
  · intro q x _ hx
    obtain ⟨x', h1, h2, h3, h4, h5, _⟩ := hs' q x hx
    exact ⟨x', h1, h2, h3, h4, h5⟩

/-- The hypotheses of C26 hold when the third example item replaces the first:
    the identifier `b` of the second shares their bucket. -/
theorem C26_insert_keeps_other_identifiers_witness :
    (∀ p ∈ [0, 1], exampleHeap.insertable p = true) ∧ exampleHeap.insertable 2 = true ∧
    exampleHeap.idOf 2 ≠ some "b" ∧
    exampleConfig.bucket "a" = exampleConfig.bucket "b" ∧
    ∃ heap m heap' m' r,
      insertItems exampleConfig exampleHeap EPUB3ManifestCreate [0, 1] = .ok (heap, m) ∧
      EPUB3ManifestInsertItem exampleConfig heap m 2 = .ok (heap', m') ∧
      manifestLookup exampleConfig heap m (some "b") = .ok r ∧
      manifestLookup exampleConfig heap' m' (some "b") = .ok r ∧
      ∀ (q : Nat) (x : EPUB3ManifestItem), r = some q → heap[q]? = some (some x) →
        ∃ x' : EPUB3ManifestItem, heap'[q]? = some (some x') ∧ x'.itemId = x.itemId ∧
          x'.href = x.href ∧ x'.mediaType = x.mediaType ∧ x'.properties = x.properties :=
  ⟨by decide, by decide, by decide, by decide,
    C26_insert_keeps_other_identifiers exampleConfig exampleHeap [0, 1] 2 "b"
      (by decide) (by decide) (by decide)⟩

/-! ### Release after a parse -/

/-- After every parse each item of the manifest table is counted at least
    twice: once by the table and once by the parser that created it and did
    not release it. -/
theorem parsed_items_counted_twice (cfg : HashConfig) (archive : Option unzFile)
    (path : Option String) (count : Nat) (heap0 : ItemHeap) (r : xmlTextReader)
    (evs : List XMLNode) (e : EPUB3Error) (st : OPFParse)
    (h : EPUB3ParseLoop cfg (OPFParseStart (freshPublication archive path count) heap0 r)
      kEPUB3Success evs = .ok (e, st)) :
    ∃ m, st.epub.manifest = some m ∧ ∀ (b p : Nat), p ∈ m.itemTable b →
      ∃ it : EPUB3ManifestItem, st.heap[p]? = some (some it) ∧ 2 ≤ it.refCount := by
  obtain ⟨⟨m, _, hm, _, hinv, _⟩, _⟩ :=
    loop_inv cfg evs _ _ _ _ (ParseInv_start cfg archive path count heap0 r) h
  refine ⟨m, hm, fun b p hp => ?_⟩
  obtain ⟨it, _, hl, hrc, _⟩ := hinv.1 b p hp
  exact ⟨it, hl, hrc⟩

/-- Claim C23 (the code departs from it): a publication is opened on the example
    archive and initialised from an OPF with three manifest items and three
    spine items; its count is 1. A single `EPUB3Release` frees the publication,
    its metadata, manifest and spine, but every manifest item and every spine
    item is left with count 1: each was counted twice after the parse. -/
theorem C23_release_after_parse_leaks_items :
    ∃ epub heap rel,
      EPUB3InitAndValidate exampleLib exampleConfig examplePublication []
        = .ok (kEPUB3Success, epub, heap)
      ∧ epub.refCount = 1
      ∧ heap.refCounts = [some 2, some 2, some 2]
      ∧ epub.spine.map (fun sp => sp.itemRefCounts) = some [2, 2, 2]
      ∧ EPUB3Release exampleConfig heap epub = .ok rel
      ∧ rel.epub = none ∧ rel.metadata = none ∧ rel.manifest = none ∧ rel.spine = none
      ∧ rel.heap.refCounts = [some 1, some 1, some 1]
      ∧ rel.spineItems.map (fun s => s.map (fun it => it.refCount))
          = [some 1, some 1, some 1] := by
  exact ⟨_, _, _, rfl, rfl, rfl, rfl, rfl, rfl, rfl, rfl, rfl, rfl, rfl⟩

end EPUB3Processor
